import Mathlib

/-!
# KONNEKTING device library: value codec and device runtime

A shallow embedding of `KonnektingDevice.cpp` / `KonnektingDevice.h` and of the
provisioning handler of `KonnektingProg.cpp`.

* Machine integers are mathematical integers with explicit reduction modulo `2 ^ w`.
  `byte` has 8 bits, `word` 16 bits, `long` 32 bits; the width of `int` depends on the
  target (`Target.intBits`).
* A `byte` array passed as a pointer is a function from offsets to bytes.
* The instantiations of the conversion templates for the integral types are
  `ConvertFromDpt` / `ConvertToDpt`; those for `float` and `double` are
  `ConvertFromDptReal` / `ConvertToDptReal`, where floating-point arithmetic is idealised
  as exact rational arithmetic.
* Classes of the library that are declared outside the translated files (`KnxComObject`,
  `KnxTelegram`, `ActionRingBuffer`, `KnxTpUart`) are modelled from the specification of
  the device and marked as such.
* The constants of the provisioning protocol and of the memory map are declared with the
  class `KonnektingProg`, outside the translated files; they are the parameter `ProgConsts`.
* A local variable that is declared without an initial value has the content given by the
  parameter `Indeterminate`.
* `reboot()` does not return; the device records it in the field `rebooted`, and
  `internalComObject` then has no return value.
-/

namespace Konnekting

/-! ## Status codes and value formats -/

/-- Values returned by the member functions of the device (`e_KonnektingDeviceStatus`). -/
inductive e_KonnektingDeviceStatus
  | KNX_DEVICE_OK
  | KNX_DEVICE_INVALID_INDEX
  | KNX_DEVICE_NOT_IMPLEMENTED
  | KNX_DEVICE_ERROR
  deriving DecidableEq, Repr

/-- Numeric value of a status code as declared in the enumeration. -/
def e_KonnektingDeviceStatus.code : e_KonnektingDeviceStatus → Nat
  | .KNX_DEVICE_OK => 0
  | .KNX_DEVICE_INVALID_INDEX => 1
  | .KNX_DEVICE_NOT_IMPLEMENTED => 254
  | .KNX_DEVICE_ERROR => 255

/-- Modelled from the spec: the format tag of a data-point type, whose enumeration is declared
in the header of the communication objects. The conversion functions distinguish the four
integer formats, the 16-bit floating format and the 32-bit floating format; `other` stands
for every remaining tag. -/
inductive e_KnxDPT_Format
  | KNX_DPT_FORMAT_U16
  | KNX_DPT_FORMAT_V16
  | KNX_DPT_FORMAT_U32
  | KNX_DPT_FORMAT_V32
  | KNX_DPT_FORMAT_F16
  | KNX_DPT_FORMAT_F32
  | other
  deriving DecidableEq, Repr

/-! ## Machine integers -/

/-- The targets of the library differ in the width of `int` / `unsigned int`:
16 bits on AVR boards, 32 bits on the 32-bit boards. `long` has 32 bits on both. -/
inductive Target
  | avr
  | arm32
  deriving DecidableEq, Repr

/-- Number of bits of `int` and `unsigned int`. -/
def Target.intBits : Target → Nat
  | .avr => 16
  | .arm32 => 32

/-- Conversion of an integer to the unsigned machine type of `w` bits. -/
def wrapU (w : Nat) (x : Int) : Int := x % 2 ^ w

/-- Conversion of an integer to the signed two's-complement machine type of `w` bits. -/
def wrapS (w : Nat) (x : Int) : Int := (x + 2 ^ (w - 1)) % 2 ^ w - 2 ^ (w - 1)

/-- An integral host type: its width and signedness. -/
structure CIntType where
  bits : Nat
  signed : Bool
  deriving DecidableEq, Repr

/-- The cast `(T) x` of an integer value to the integral type `T`. -/
def CIntType.cast (T : CIntType) (x : Int) : Int :=
  if T.signed then wrapS T.bits x else wrapU T.bits x

/-- Values representable in the integral type `T`. -/
def CIntType.InRange (T : CIntType) (x : Int) : Prop :=
  if T.signed then -(2 ^ (T.bits - 1)) ≤ x ∧ x < 2 ^ (T.bits - 1) else 0 ≤ x ∧ x < 2 ^ T.bits

instance (T : CIntType) (x : Int) : Decidable (T.InRange x) := by
  unfold CIntType.InRange
  infer_instance

/-- The cast `(byte) x`. -/
def toByte (x : Int) : Nat := (x % 256).toNat

/-- Conversion of a floating value to an integral type discards the fractional part. -/
def truncQ (q : ℚ) : Int := if 0 ≤ q then ⌊q⌋ else ⌈q⌉

/-- A `byte` array reached through a pointer: offset to byte. -/
abbrev Buf := Nat → Nat

/-- The assignment `b[i] = v`. -/
def Buf.set (b : Buf) (i v : Nat) : Buf := fun j => if j = i then v else b j

/-- Host integral type with the width and signedness of an integer format. -/
def hostTypeOf : e_KnxDPT_Format → Option CIntType
  | .KNX_DPT_FORMAT_U16 => some ⟨16, false⟩
  | .KNX_DPT_FORMAT_V16 => some ⟨16, true⟩
  | .KNX_DPT_FORMAT_U32 => some ⟨32, false⟩
  | .KNX_DPT_FORMAT_V32 => some ⟨32, true⟩
  | _ => none

/-! ## Wrap-around time difference -/

/-- `TimeDeltaWord(now, before)`: `(word) (now - before)`. -/
def TimeDeltaWord (now before : Nat) : Nat := (((now : Int) - (before : Int)) % 65536).toNat

/-! ## Decoding a data-point value -/

/-- F16 case of `ConvertFromDpt`: `signMultiplier`. -/
def F16signMultiplier (dptOriginValue : Buf) : Int :=
  if dptOriginValue 0 &&& 0x80 ≠ 0 then -1 else 1

/-- F16 case of `ConvertFromDpt`: `absoluteMantissa` after the adjustment for a negative
mantissa. The low eleven bits of `~absoluteMantissa` do not depend on the width of `int`;
the complement is taken on 16 bits. -/
def F16absoluteMantissa (dptOriginValue : Buf) : Nat :=
  let absoluteMantissa : Nat := (dptOriginValue 1 + ((dptOriginValue 0 &&& 0x07) <<< 8)) % 65536
  if F16signMultiplier dptOriginValue = -1 then
    (((0xFFFF - absoluteMantissa) &&& 0x07FF) + 1) % 65536
  else absoluteMantissa

/-- F16 case of `ConvertFromDpt`: `exponent`. -/
def F16exponent (dptOriginValue : Buf) : Nat := (dptOriginValue 0 &&& 0x78) >>> 3

/-- F16 case of `ConvertFromDpt`: the integer `(long) absoluteMantissa << exponent` times
`signMultiplier`, which the function multiplies by `0.01`. -/
def F16scaled (dptOriginValue : Buf) : Int :=
  wrapS 32 ((F16absoluteMantissa dptOriginValue : Int) * 2 ^ F16exponent dptOriginValue)
    * F16signMultiplier dptOriginValue

/-- `ConvertFromDpt<T>` for an integral `T`. Returns the status (`none` when control leaves
the function without a `return`, in the `default` case) and the value of `resultValue`
afterwards. In the F16 case the product with `0.01` is taken exactly, so that its conversion
to `T` is the quotient by 100 truncated towards zero. -/
def ConvertFromDpt (t : Target) (T : CIntType) (dptOriginValue : Buf) (resultValue : Int)
    (dptFormat : e_KnxDPT_Format) : Option e_KonnektingDeviceStatus × Int :=
  match dptFormat with
  | .KNX_DPT_FORMAT_U16 | .KNX_DPT_FORMAT_V16 =>
    let resultValue := T.cast (wrapU t.intBits ((dptOriginValue 0 : Int) * 2 ^ 8))
    let resultValue := T.cast (resultValue + T.cast (dptOriginValue 1 : Int))
    (some .KNX_DEVICE_OK, resultValue)
  | .KNX_DPT_FORMAT_U32 | .KNX_DPT_FORMAT_V32 =>
    let resultValue := T.cast (wrapU 32 ((dptOriginValue 0 : Int) * 2 ^ 24))
    let resultValue := T.cast (resultValue + T.cast (wrapU 32 ((dptOriginValue 1 : Int) * 2 ^ 16)))
    let resultValue := T.cast (resultValue + T.cast (wrapU 32 ((dptOriginValue 2 : Int) * 2 ^ 8)))
    let resultValue := T.cast (resultValue + T.cast (dptOriginValue 3 : Int))
    (some .KNX_DEVICE_OK, resultValue)
  | .KNX_DPT_FORMAT_F16 =>
    (some .KNX_DEVICE_OK, T.cast (Int.tdiv (F16scaled dptOriginValue) 100))
  | .KNX_DPT_FORMAT_F32 => (some .KNX_DEVICE_NOT_IMPLEMENTED, resultValue)
  | .other => (none, resultValue)

/-- `ConvertFromDpt<T>` for `T` one of `float`, `double`, with exact arithmetic. -/
def ConvertFromDptReal (t : Target) (dptOriginValue : Buf) (resultValue : ℚ)
    (dptFormat : e_KnxDPT_Format) : Option e_KonnektingDeviceStatus × ℚ :=
  match dptFormat with
  | .KNX_DPT_FORMAT_U16 | .KNX_DPT_FORMAT_V16 =>
    let resultValue : ℚ := (wrapU t.intBits ((dptOriginValue 0 : Int) * 2 ^ 8) : Int)
    let resultValue : ℚ := resultValue + (dptOriginValue 1 : ℚ)
    (some .KNX_DEVICE_OK, resultValue)
  | .KNX_DPT_FORMAT_U32 | .KNX_DPT_FORMAT_V32 =>
    let resultValue : ℚ := (wrapU 32 ((dptOriginValue 0 : Int) * 2 ^ 24) : Int)
    let resultValue : ℚ := resultValue + (wrapU 32 ((dptOriginValue 1 : Int) * 2 ^ 16) : Int)
    let resultValue : ℚ := resultValue + (wrapU 32 ((dptOriginValue 2 : Int) * 2 ^ 8) : Int)
    let resultValue : ℚ := resultValue + (dptOriginValue 3 : ℚ)
    (some .KNX_DEVICE_OK, resultValue)
  | .KNX_DPT_FORMAT_F16 =>
    (some .KNX_DEVICE_OK, (1 / 100 : ℚ) * (F16scaled dptOriginValue : Int))
  | .KNX_DPT_FORMAT_F32 => (some .KNX_DEVICE_NOT_IMPLEMENTED, resultValue)
  | .other => (none, resultValue)

/-! ## Encoding a data-point value -/

/-- Local variables of the F16 case of `ConvertToDpt` that the scaling loops update. -/
structure F16Scale where
  exponent : Nat
  round : Nat
  longValuex100 : Int
  deriving DecidableEq, Repr

/-- The statement `longValuex100 |= 0x80000000` on a 32-bit two's-complement value. -/
def orSignBit (x : Int) : Int := if 0 ≤ x then x - 2 ^ 31 else x

/-- The loop `while (longValuex100 < (long)(-2048))` of the negative case; the first argument
bounds the number of iterations. The right shift of a negative value is arithmetic. -/
def scaleNegative : Nat → F16Scale → F16Scale
  | 0, st => st
  | fuel + 1, st =>
    if st.longValuex100 < -2048 then
      scaleNegative fuel
        { exponent := (st.exponent + 1) % 256
          round := toByte st.longValuex100 &&& 1
          longValuex100 := orSignBit (st.longValuex100 / 2) }
    else st

/-- The loop `while (longValuex100 > (long)(2047))` of the non-negative case; the first
argument bounds the number of iterations. -/
def scalePositive : Nat → F16Scale → F16Scale
  | 0, st => st
  | fuel + 1, st =>
    if st.longValuex100 > 2047 then
      scalePositive fuel
        { exponent := (st.exponent + 1) % 256
          round := toByte st.longValuex100 &&& 1
          longValuex100 := st.longValuex100 / 2 }
    else st

/-- The test `longValuex100 & 0x80000000` of the F16 case. -/
def F16negativeSign (longValuex100 : Int) : Bool :=
  decide ((wrapU 32 longValuex100).toNat &&& 0x80000000 ≠ 0)

/-- State of the scaling variables when the loop of the F16 case is left. A `long` needs at
most 32 halvings. -/
def F16scale (longValuex100 : Int) : F16Scale :=
  if F16negativeSign longValuex100 then
    scaleNegative 32 { exponent := 0, round := 0, longValuex100 := longValuex100 }
  else
    scalePositive 32 { exponent := 0, round := 0, longValuex100 := longValuex100 }

/-- The value of `longValuex100` after the statement `if (round) longValuex100++`. -/
def F16rounded (longValuex100 : Int) : Int :=
  if (F16scale longValuex100).round ≠ 0 then wrapS 32 ((F16scale longValuex100).longValuex100 + 1)
  else (F16scale longValuex100).longValuex100

/-- The F16 case of `ConvertToDpt` from the value of `longValuex100` on. -/
def ConvertToDptF16 (longValuex100 : Int) (dptDestValue : Buf) : Buf :=
  let negativeSign := F16negativeSign longValuex100
  let exponent := (F16scale longValuex100).exponent
  let longValuex100 := F16rounded longValuex100
  let dptDestValue := dptDestValue.set 1 (toByte longValuex100)
  let dptDestValue := dptDestValue.set 0 (toByte (longValuex100 / 2 ^ 8) &&& 0x7)
  let dptDestValue := dptDestValue.set 0 ((dptDestValue 0 + (exponent <<< 3)) % 256)
  if negativeSign then dptDestValue.set 0 ((dptDestValue 0 + 0x80) % 256) else dptDestValue

/-- `ConvertToDpt<T>` for an integral `T`, applied to the value `originValue` of that type.
Every conversion in the integer cases is a reduction modulo a power of two, so the cases do
not depend on `T` any further. In the F16 case `100.0 * originValue` is exact. -/
def ConvertToDpt (t : Target) (originValue : Int) (dptDestValue : Buf)
    (dptFormat : e_KnxDPT_Format) : Option e_KonnektingDeviceStatus × Buf :=
  match dptFormat with
  | .KNX_DPT_FORMAT_U16 | .KNX_DPT_FORMAT_V16 =>
    let dptDestValue := dptDestValue.set 0 (toByte (wrapU t.intBits originValue / 2 ^ 8))
    let dptDestValue := dptDestValue.set 1 (toByte originValue)
    (some .KNX_DEVICE_OK, dptDestValue)
  | .KNX_DPT_FORMAT_U32 | .KNX_DPT_FORMAT_V32 =>
    let dptDestValue := dptDestValue.set 0 (toByte (wrapU 32 originValue / 2 ^ 24))
    let dptDestValue := dptDestValue.set 1 (toByte (wrapU 32 originValue / 2 ^ 16))
    let dptDestValue := dptDestValue.set 2 (toByte (wrapU 32 originValue / 2 ^ 8))
    let dptDestValue := dptDestValue.set 3 (toByte originValue)
    (some .KNX_DEVICE_OK, dptDestValue)
  | .KNX_DPT_FORMAT_F16 =>
    (some .KNX_DEVICE_OK, ConvertToDptF16 (wrapS 32 (100 * originValue)) dptDestValue)
  | .KNX_DPT_FORMAT_F32 => (some .KNX_DEVICE_NOT_IMPLEMENTED, dptDestValue)
  | .other => (none, dptDestValue)

/-- `ConvertToDpt<T>` for `T` one of `float`, `double`, with exact arithmetic. -/
def ConvertToDptReal (t : Target) (originValue : ℚ) (dptDestValue : Buf)
    (dptFormat : e_KnxDPT_Format) : Option e_KonnektingDeviceStatus × Buf :=
  match dptFormat with
  | .KNX_DPT_FORMAT_U16 | .KNX_DPT_FORMAT_V16 =>
    let dptDestValue :=
      dptDestValue.set 0 (toByte (wrapU t.intBits (truncQ originValue) / 2 ^ 8))
    let dptDestValue := dptDestValue.set 1 (toByte (truncQ originValue))
    (some .KNX_DEVICE_OK, dptDestValue)
  | .KNX_DPT_FORMAT_U32 | .KNX_DPT_FORMAT_V32 =>
    let dptDestValue := dptDestValue.set 0 (toByte (wrapU 32 (truncQ originValue) / 2 ^ 24))
    let dptDestValue := dptDestValue.set 1 (toByte (wrapU 32 (truncQ originValue) / 2 ^ 16))
    let dptDestValue := dptDestValue.set 2 (toByte (wrapU 32 (truncQ originValue) / 2 ^ 8))
    let dptDestValue := dptDestValue.set 3 (toByte (truncQ originValue))
    (some .KNX_DEVICE_OK, dptDestValue)
  | .KNX_DPT_FORMAT_F16 =>
    (some .KNX_DEVICE_OK,
      ConvertToDptF16 (wrapS 32 (truncQ (100 * originValue))) dptDestValue)
  | .KNX_DPT_FORMAT_F32 => (some .KNX_DEVICE_NOT_IMPLEMENTED, dptDestValue)
  | .other => (none, dptDestValue)

/-! ## Device runtime: collaborators

The classes below are declared in headers outside the translated files. -/

/-- Modelled from the spec: the command carried by a telegram (read, response, write), an
accessor of the telegram entity; `other` stands for every command the device does not
handle. -/
inductive e_KnxCommand
  | KNX_COMMAND_VALUE_READ
  | KNX_COMMAND_VALUE_RESPONSE
  | KNX_COMMAND_VALUE_WRITE
  | other
  deriving DecidableEq, Repr

/-- Modelled from the spec: a telegram, an entity with accessors for command, address and
payload bytes. The checksum belongs to the wire encoding and is not represented. -/
structure KnxTelegram where
  command : e_KnxCommand
  targetAddress : Nat
  payloadLength : Nat
  payload : List Nat
  deriving DecidableEq, Repr

instance : Inhabited KnxTelegram := ⟨⟨.other, 0, 0, []⟩⟩

/-- Modelled from the spec: `KnxTelegram::SetCommand`. -/
def KnxTelegram.SetCommand (t : KnxTelegram) (cmd : e_KnxCommand) : KnxTelegram :=
  { t with command := cmd }

/-- Modelled from the spec: `KnxTelegram::ClearLongPayload`. -/
def KnxTelegram.ClearLongPayload (t : KnxTelegram) : KnxTelegram :=
  { t with payload := t.payload.take 1 }

/-- Modelled from the spec: `KnxTelegram::ClearFirstPayloadByte`. -/
def KnxTelegram.ClearFirstPayloadByte (t : KnxTelegram) : KnxTelegram :=
  { t with payload := t.payload.drop 1 }

/-- Modelled from the spec: `KnxTelegram::UpdateChecksum`; the checksum is part of the wire
encoding, which is not represented. -/
def KnxTelegram.UpdateChecksum (t : KnxTelegram) : KnxTelegram := t

/-- Modelled from the spec: a communication object with its address, byte length, access-flag
set (a bit set, `indicator`), data-point-type tag, value buffer and validity flag. -/
structure KnxComObject where
  addr : Nat
  length : Nat
  indicator : Nat
  dptId : Nat
  value : List Nat
  validity : Bool
  deriving DecidableEq, Repr

instance : Inhabited KnxComObject := ⟨⟨0, 0, 0, 0, [], false⟩⟩

/-- Modelled from the spec: `KnxComObject::UpdateValue(byte)`, the value of a short object is
replaced by the byte; an object that has received a value is initialised. -/
def KnxComObject.UpdateValueByte (o : KnxComObject) (newVal : Nat) : KnxComObject :=
  { o with value := [newVal], validity := true }

/-- Modelled from the spec: `KnxComObject::UpdateValue(const byte[])`, the source bytes are
copied into the value buffer, whose length does not change. -/
def KnxComObject.UpdateValuePtr (o : KnxComObject) (ori : List Nat) : KnxComObject :=
  { o with value := (List.range o.value.length).map (fun i => ori.getD i 0), validity := true }

/-- Modelled from the spec: `KnxComObject::CopyAttributes`, the telegram is addressed to the
object. -/
def KnxComObject.CopyAttributes (o : KnxComObject) (dest : KnxTelegram) : KnxTelegram :=
  { dest with targetAddress := o.addr, payloadLength := o.length }

/-- Modelled from the spec: `KnxComObject::CopyValue`, the telegram carries the current value
of the object. -/
def KnxComObject.CopyValue (o : KnxComObject) (dest : KnxTelegram) : KnxTelegram :=
  { dest with payload := o.value }

/-- Flag bits of the access-flag set that the device tests; their values are declared with
the communication objects and are parameters here. -/
structure Indicators where
  KNX_COM_OBJ_R_INDICATOR : Nat
  KNX_COM_OBJ_W_INDICATOR : Nat
  KNX_COM_OBJ_T_INDICATOR : Nat
  KNX_COM_OBJ_U_INDICATOR : Nat
  deriving DecidableEq, Repr

/-! ## Device runtime: state -/

/-- Internal state of the device (`e_KonnektingDeviceState`). -/
inductive e_KonnektingDeviceState
  | INIT
  | IDLE
  | TX_ONGOING
  deriving DecidableEq, Repr

/-- Action types (`e_KonnektingDeviceTxActionType`). -/
inductive e_KonnektingDeviceTxActionType
  | KNX_READ_REQUEST
  | KNX_WRITE_REQUEST
  | KNX_RESPONSE_REQUEST
  deriving DecidableEq, Repr

/-- Acknowledge values following a telegram sending (`e_TpUartTxAck`). -/
inductive e_TpUartTxAck
  | ACK_RESPONSE
  | NACK_RESPONSE
  | NO_ANSWER_TIMEOUT
  | TPUART_RESET_RESPONSE
  deriving DecidableEq, Repr

/-- A transmit action (`type_tx_action`). The two members of the union are separate fields:
`byteValue` is meaningful for an object of length at most 2, `valuePtr` (the content of the
allocated buffer) for a longer one. -/
structure type_tx_action where
  command : e_KonnektingDeviceTxActionType
  index : Nat
  byteValue : Nat
  valuePtr : List Nat
  deriving DecidableEq, Repr

/-- Capacity of the action queue. -/
def ACTIONS_QUEUE_SIZE : Nat := 16

/-- Modelled from the spec: the action queue `ActionRingBuffer<type_tx_action,
ACTIONS_QUEUE_SIZE>`, a bounded FIFO, oldest entry first. -/
abbrev ActionRingBuffer := List type_tx_action

/-- Modelled from the spec: `ActionRingBuffer::Append`; the action is dropped when the queue
is full. -/
def ActionRingBuffer.Append (q : ActionRingBuffer) (a : type_tx_action) : ActionRingBuffer :=
  if q.length < ACTIONS_QUEUE_SIZE then q ++ [a] else q

/-- Modelled from the spec: `ActionRingBuffer::Pop`; removes and returns the oldest entry, or
reports that the queue is empty. -/
def ActionRingBuffer.Pop (q : ActionRingBuffer) : Option (type_tx_action × ActionRingBuffer) :=
  match q with
  | [] => none
  | a :: rest => some (a, rest)

/-- The members of `KonnektingProg`, the provisioning handler owned by the device.
`_paramSizeList` is reached through a pointer. `progLED` is the level last written to the
pin of the programming LED. -/
structure KonnektingProg where
  _initialized : Bool
  _manufacturerID : Nat
  _deviceID : Nat
  _revisionID : Nat
  _deviceFlags : Nat
  _individualAddress : Nat
  _paramTableStartindex : Nat
  _progState : Bool
  _paramSizeList : Nat → Nat
  _numberOfParams : Nat
  progLED : Bool

/-- The members of `KonnektingDevice` that the scheduler tick, the callbacks of the
transceiver and the provisioning handler read or write. The object table is reached through a
pointer and is a function from indices to objects. `sent` is the sequence of telegrams handed
to the transceiver with `SendTelegram`. `EEPROM` is the non-volatile byte store. `knxEvents`
is the sequence of object indices with which the callback `knxEvents` of the application has
been called. `rebooted` is set when `reboot()` has been reached: the device restarts and
control does not come back to the caller. -/
structure KonnektingDevice where
  _comObjectsList : Nat → KnxComObject
  _numberOfComObjects : Nat
  _state : e_KonnektingDeviceState
  _txActionList : ActionRingBuffer
  _initCompleted : Bool
  _initIndex : Nat
  _lastInitTimeMillis : Nat
  _lastRXTimeMicros : Nat
  _lastTXTimeMicros : Nat
  _txTelegram : KnxTelegram
  sent : List KnxTelegram
  _prog : KonnektingProg
  EEPROM : Nat → Nat
  knxEvents : List Nat
  rebooted : Bool

/-- The assignment of an object of the table. -/
def setComObject (objs : Nat → KnxComObject) (i : Nat) (o : KnxComObject) : Nat → KnxComObject :=
  fun j => if j = i then o else objs j

/-- Modelled from the spec: `KnxTpUart::SendTelegram`, the transceiver accepts a telegram to
send. -/
def KonnektingDevice.SendTelegram (s : KonnektingDevice) (t : KnxTelegram) : KonnektingDevice :=
  { s with sent := s.sent ++ [t] }

/-- What one call of `task` takes from its environment: the indeterminate content of the
local variable `action`, the readings of `millis()` and `micros()` in the order of the calls,
and the effect on the device of the receive and transmit steps of the transceiver, which may
call back into the device. -/
structure TaskInput where
  action : type_tx_action
  millis1 : Nat
  millis2 : Nat
  micros1 : Nat
  micros2 : Nat
  RXTask : KonnektingDevice → KonnektingDevice
  TXTask : KonnektingDevice → KonnektingDevice

/-! ## Device runtime: the scheduler tick -/

/-- The loop `while ((_initIndex < _numberOfComObjects) && validity) _initIndex++` of step 1;
the first argument bounds the number of iterations. `_initIndex` is a `byte`. -/
def initScan (objs : Nat → KnxComObject) (n : Nat) : Nat → Nat → Nat
  | 0, idx => idx
  | fuel + 1, idx =>
    if idx < n ∧ (objs idx).validity = true then initScan objs n fuel ((idx + 1) % 256) else idx

/-- Step 1 of `task`: initialise the objects that are not valid yet. A `byte` index takes at
most 256 values, which bounds the loop. -/
def taskInit (inp : TaskInput) (s : KonnektingDevice) : KonnektingDevice :=
  if s._initCompleted = false then
    let nowTimeMillis := inp.millis1 % 65536
    if TimeDeltaWord nowTimeMillis s._lastInitTimeMillis > 500 then
      let s := { s with
        _initIndex := initScan s._comObjectsList s._numberOfComObjects 256 s._initIndex }
      if s._initIndex = s._numberOfComObjects then
        { s with _initCompleted := true }
      else
        let action := { inp.action with
          command := e_KonnektingDeviceTxActionType.KNX_READ_REQUEST, index := s._initIndex }
        { s with
          _txActionList := s._txActionList.Append action
          _lastInitTimeMillis := inp.millis2 % 65536 }
    else s
  else s

/-- Step 2 of `task`: run the receive step of the transceiver every 400 microseconds. -/
def taskRx (inp : TaskInput) (s : KonnektingDevice) : KonnektingDevice :=
  let nowTimeMicros := inp.micros1 % 65536
  if TimeDeltaWord nowTimeMicros s._lastRXTimeMicros > 400 then
    inp.RXTask { s with _lastRXTimeMicros := nowTimeMicros }
  else s

/-- Step 3 of `task`: send a telegram for the oldest transmit action. -/
def taskTxDispatch (c : Indicators) (s : KonnektingDevice) : KonnektingDevice :=
  if s._state = e_KonnektingDeviceState.IDLE then
    match s._txActionList.Pop with
    | some (action, rest) =>
      let s := { s with _txActionList := rest }
      match action.command with
      | .KNX_READ_REQUEST =>
        let tg := (s._comObjectsList action.index).CopyAttributes s._txTelegram
        let tg := tg.ClearLongPayload
        let tg := tg.ClearFirstPayloadByte
        let tg := tg.SetCommand .KNX_COMMAND_VALUE_READ
        let tg := tg.UpdateChecksum
        let s := { s with _txTelegram := tg }
        let s := s.SendTelegram s._txTelegram
        { s with _state := .TX_ONGOING }
      | .KNX_RESPONSE_REQUEST =>
        let tg := (s._comObjectsList action.index).CopyAttributes s._txTelegram
        let tg := (s._comObjectsList action.index).CopyValue tg
        let tg := tg.SetCommand .KNX_COMMAND_VALUE_RESPONSE
        let tg := tg.UpdateChecksum
        let s := { s with _txTelegram := tg }
        let s := s.SendTelegram s._txTelegram
        { s with _state := .TX_ONGOING }
      | .KNX_WRITE_REQUEST =>
        let obj := s._comObjectsList action.index
        let obj :=
          if obj.length ≤ 2 then obj.UpdateValueByte action.byteValue
          else obj.UpdateValuePtr action.valuePtr
        let s := { s with _comObjectsList := setComObject s._comObjectsList action.index obj }
        if (s._comObjectsList action.index).indicator &&& c.KNX_COM_OBJ_T_INDICATOR ≠ 0 then
          let tg := (s._comObjectsList action.index).CopyAttributes s._txTelegram
          let tg := (s._comObjectsList action.index).CopyValue tg
          let tg := tg.SetCommand .KNX_COMMAND_VALUE_WRITE
          let tg := tg.UpdateChecksum
          let s := { s with _txTelegram := tg }
          let s := s.SendTelegram s._txTelegram
          { s with _state := .TX_ONGOING }
        else s
    | none => s
  else s

/-- Step 4 of `task`: run the transmit step of the transceiver every 800 microseconds. -/
def taskTxPacing (inp : TaskInput) (s : KonnektingDevice) : KonnektingDevice :=
  let nowTimeMicros := inp.micros2 % 65536
  if TimeDeltaWord nowTimeMicros s._lastTXTimeMicros > 800 then
    inp.TXTask { s with _lastTXTimeMicros := nowTimeMicros }
  else s

/-- `KonnektingDevice::task`: the four steps in order. -/
def KonnektingDevice.task (c : Indicators) (inp : TaskInput) (s : KonnektingDevice) :
    KonnektingDevice :=
  taskTxPacing inp (taskTxDispatch c (taskRx inp (taskInit inp s)))

/-- `KonnektingDevice::TxTelegramAck`. -/
def KonnektingDevice.TxTelegramAck (s : KonnektingDevice) (_value : e_TpUartTxAck) :
    KonnektingDevice :=
  { s with _state := .IDLE }

/-! ## Device runtime: public interface and callbacks of the transceiver -/

/-- Definition of the TP-UART events sent to the application layer (`e_KnxTpUartEvent`). -/
inductive e_KnxTpUartEvent
  | TPUART_EVENT_RESET
  | TPUART_EVENT_RECEIVED_KNX_TELEGRAM
  | TPUART_EVENT_KNX_TELEGRAM_RECEPTION_ERROR
  | TPUART_EVENT_STATE_INDICATION
  deriving DecidableEq, Repr

/-- The content of local variables that a function declares without initialising them: the
action `type_tx_action action` and the byte arrays (`buffer`, `response`, `paramValue`). -/
structure Indeterminate where
  action : type_tx_action
  array : Buf

/-- The entries `start`, `start + 1`, ... of a byte array are assigned the elements of a
list, in order. -/
def Buf.setList (b : Buf) (start : Nat) (l : List Nat) : Buf :=
  fun j => if start ≤ j ∧ j < start + l.length then l.getD (j - start) 0 else b j

/-- Modelled from the spec: `KnxComObject::GetAddr`. -/
def KnxComObject.GetAddr (o : KnxComObject) : Nat := o.addr

/-- Modelled from the spec: `KnxComObject::SetAddr`. -/
def KnxComObject.SetAddr (o : KnxComObject) (addr : Nat) : KnxComObject :=
  { o with addr := addr }

/-- Modelled from the spec: `KnxComObject::GetValue(byte[])`, the value buffer is copied to
the destination. -/
def KnxComObject.GetValue (o : KnxComObject) (dest : Buf) : Buf := dest.setList 0 o.value

/-- Modelled from the spec: `KnxComObject::UpdateValue(const KnxTelegram&)`, the payload of
the telegram is copied into the value buffer, whose length does not change. -/
def KnxComObject.UpdateValueTelegram (o : KnxComObject) (ori : KnxTelegram) : KnxComObject :=
  o.UpdateValuePtr ori.payload

/-- `KonnektingDevice::end`. The loop empties the action queue. -/
def KonnektingDevice.«end» (s : KonnektingDevice) : KonnektingDevice :=
  { s with _state := .INIT, _txActionList := [], _initCompleted := false, _initIndex := 0 }

/-- `KonnektingDevice::read(byte objectIndex, byte returnedValue[])`. -/
def KonnektingDevice.read (s : KonnektingDevice) (objectIndex : Nat) (returnedValue : Buf) :
    e_KonnektingDeviceStatus × Buf :=
  (.KNX_DEVICE_OK, (s._comObjectsList objectIndex).GetValue returnedValue)

/-- `KonnektingDevice::write(byte objectIndex, byte valuePtr[])`: for an object of length
above 2 a write action that owns a copy of `length - 1` bytes is appended to the queue. -/
def KonnektingDevice.write (u : Indeterminate) (objectIndex : Nat) (valuePtr : Buf)
    (s : KonnektingDevice) : e_KonnektingDeviceStatus × KonnektingDevice :=
  let length := (s._comObjectsList objectIndex).length
  if length > 2 then
    let dptValue := (List.range (length - 1)).map valuePtr
    let action := { u.action with
      command := e_KonnektingDeviceTxActionType.KNX_WRITE_REQUEST
      index := objectIndex
      valuePtr := dptValue }
    (.KNX_DEVICE_OK, { s with _txActionList := s._txActionList.Append action })
  else (.KNX_DEVICE_ERROR, s)

/-- `KonnektingDevice::setComObjectAddress`. -/
def KonnektingDevice.setComObjectAddress (index addr : Nat) (s : KonnektingDevice) :
    e_KonnektingDeviceStatus × KonnektingDevice :=
  if s._state ≠ .INIT then (.KNX_DEVICE_ERROR, s)
  else if index ≥ s._numberOfComObjects then (.KNX_DEVICE_INVALID_INDEX, s)
  else
    (.KNX_DEVICE_OK,
      { s with _comObjectsList :=
          setComObject s._comObjectsList index ((s._comObjectsList index).SetAddr addr) })

/-- `KonnektingDevice::getComObjectAddress`. -/
def KonnektingDevice.getComObjectAddress (s : KonnektingDevice) (index : Nat) : Nat :=
  (s._comObjectsList index).GetAddr

/-- The call `knxEvents(index)` of the callback that the application provides. -/
def KonnektingDevice.callKnxEvents (s : KonnektingDevice) (index : Nat) : KonnektingDevice :=
  { s with knxEvents := s.knxEvents ++ [index] }

/-! ## Provisioning handler -/

/-- Constants of the provisioning protocol and of the memory map. Their values are declared
with the class `KonnektingProg` and are parameters here. -/
structure ProgConsts where
  PROTOCOLVERSION : Nat
  MSGTYPE_ACK : Nat
  MSGTYPE_READ_DEVICE_INFO : Nat
  MSGTYPE_ANSWER_DEVICE_INFO : Nat
  MSGTYPE_RESTART : Nat
  MSGTYPE_WRITE_PROGRAMMING_MODE : Nat
  MSGTYPE_READ_PROGRAMMING_MODE : Nat
  MSGTYPE_ANSWER_PROGRAMMING_MODE : Nat
  MSGTYPE_WRITE_INDIVIDUAL_ADDRESS : Nat
  MSGTYPE_READ_INDIVIDUAL_ADDRESS : Nat
  MSGTYPE_ANSWER_INDIVIDUAL_ADDRESS : Nat
  MSGTYPE_WRITE_PARAMETER : Nat
  MSGTYPE_READ_PARAMETER : Nat
  MSGTYPE_ANSWER_PARAMETER : Nat
  MSGTYPE_WRITE_COM_OBJECT : Nat
  MSGTYPE_READ_COM_OBJECT : Nat
  MSGTYPE_ANSWER_COM_OBJECT : Nat
  EEPROM_DEVICE_FLAGS : Nat
  EEPROM_INDIVIDUALADDRESS_HI : Nat
  EEPROM_INDIVIDUALADDRESS_LO : Nat
  EEPROM_COMOBJECTTABLE_START : Nat
  deriving DecidableEq, Repr

/-- The case labels of the `switch (msgType)` of `internalComObject`, in the order of the
source. -/
def ProgConsts.caseLabels (c : ProgConsts) : List Nat :=
  [c.MSGTYPE_ACK, c.MSGTYPE_READ_DEVICE_INFO, c.MSGTYPE_RESTART,
    c.MSGTYPE_WRITE_PROGRAMMING_MODE, c.MSGTYPE_READ_PROGRAMMING_MODE,
    c.MSGTYPE_WRITE_INDIVIDUAL_ADDRESS, c.MSGTYPE_READ_INDIVIDUAL_ADDRESS,
    c.MSGTYPE_WRITE_PARAMETER, c.MSGTYPE_READ_PARAMETER, c.MSGTYPE_WRITE_COM_OBJECT,
    c.MSGTYPE_READ_COM_OBJECT]

/-- The ten request types of the protocol: the case labels other than `MSGTYPE_ACK`. -/
def ProgConsts.requestTypes (c : ProgConsts) : List Nat := c.caseLabels.tail

/-- The case labels of a `switch` statement are pairwise different. -/
def ProgConsts.LabelsDistinct (c : ProgConsts) : Prop := c.caseLabels.Nodup

instance (c : ProgConsts) : Decidable c.LabelsDistinct := by
  unfold ProgConsts.LabelsDistinct
  infer_instance

/-- The bytes of the device flags and of the individual address have three different places
in the non-volatile memory. -/
def ProgConsts.LayoutDistinct (c : ProgConsts) : Prop :=
  c.EEPROM_DEVICE_FLAGS ≠ c.EEPROM_INDIVIDUALADDRESS_HI ∧
    c.EEPROM_DEVICE_FLAGS ≠ c.EEPROM_INDIVIDUALADDRESS_LO ∧
    c.EEPROM_INDIVIDUALADDRESS_HI ≠ c.EEPROM_INDIVIDUALADDRESS_LO

instance (c : ProgConsts) : Decidable c.LayoutDistinct := by
  unfold ProgConsts.LayoutDistinct
  infer_instance

namespace KonnektingProg

/-- `KonnektingProg::isFactorySetting`. -/
def isFactorySetting (s : KonnektingDevice) : Bool := decide (s._prog._deviceFlags = 0xff)

/-- `KonnektingProg::getIndividualAddress`. -/
def getIndividualAddress (s : KonnektingDevice) : Nat := s._prog._individualAddress

/-- `KonnektingProg::getParamSize`. -/
def getParamSize (s : KonnektingDevice) (index : Nat) : Nat := s._prog._paramSizeList index

/-- `KonnektingProg::calcParamSkipBytes`: the loop adds the sizes of the parameters before
`index`. The sum is the exact one, which the handlers use; `calcParamSkipBytesInt` is the
loop as the target computes it. -/
def calcParamSkipBytes (s : KonnektingDevice) : Nat → Nat
  | 0 => 0
  | index + 1 => calcParamSkipBytes s index + getParamSize s index

/-- `KonnektingProg::getParamValue`. The comparison `index > _numberOfParams-1` is made on
signed integers. The parameter `index` is an `int`, which the calls of `calcParamSkipBytes`
and `getParamSize` convert to `byte`. -/
def getParamValue (s : KonnektingDevice) (index : Nat) (value : Buf) : Buf :=
  if (index : Int) > (s._prog._numberOfParams : Int) - 1 then value
  else
    let skipBytes := calcParamSkipBytes s (index % 256)
    let paramLen := getParamSize s (index % 256)
    (List.range paramLen).foldl
      (fun value i => value.set i (s.EEPROM (s._prog._paramTableStartindex + skipBytes + i)))
      value

/-- `KonnektingProg::setProgState`. -/
def setProgState (state : Bool) (s : KonnektingDevice) : KonnektingDevice :=
  if state = true then { s with _prog := { s._prog with _progState := true, progLED := true } }
  else { s with _prog := { s._prog with _progState := false, progLED := false } }

/-- `KonnektingProg::reboot`: the device is stopped and restarted; control does not come
back. -/
def reboot (s : KonnektingDevice) : KonnektingDevice :=
  { s.«end» with rebooted := true }

/-- `KonnektingProg::memoryUpdate`: the byte is written to the non-volatile store if it
differs from the one stored. -/
def memoryUpdate (index data : Nat) (s : KonnektingDevice) : KonnektingDevice :=
  { s with EEPROM := Buf.set s.EEPROM index data }

/-- `KonnektingProg::sendAck`. -/
def sendAck (c : ProgConsts) (u : Indeterminate) (errorcode indexinformation : Nat)
    (s : KonnektingDevice) : KonnektingDevice :=
  let response := u.array.setList 0
    [c.PROTOCOLVERSION, c.MSGTYPE_ACK, if errorcode = 0x00 then 0x00 else 0xFF, errorcode,
      indexinformation, 0x00, 0x00, 0x00, 0x00, 0x00, 0x00, 0x00, 0x00, 0x00]
  (KonnektingDevice.write u 0 response s).2

/-- `KonnektingProg::handleMsgReadDeviceInfo`. -/
def handleMsgReadDeviceInfo (c : ProgConsts) (u : Indeterminate) (_msg : Buf)
    (s : KonnektingDevice) : KonnektingDevice :=
  let response := u.array.setList 0
    [c.PROTOCOLVERSION, c.MSGTYPE_ANSWER_DEVICE_INFO,
      (s._prog._manufacturerID >>> 8) &&& 0xff, (s._prog._manufacturerID >>> 0) &&& 0xff,
      s._prog._deviceID, s._prog._revisionID, s._prog._deviceFlags,
      (s._prog._individualAddress >>> 8) &&& 0xff, (s._prog._individualAddress >>> 0) &&& 0xff,
      0x00, 0x00, 0x00, 0x00, 0x00]
  (KonnektingDevice.write u 0 response s).2

/-- `KonnektingProg::handleMsgRestart`. -/
def handleMsgRestart (msg : Buf) (s : KonnektingDevice) : KonnektingDevice :=
  let hi := (s._prog._individualAddress >>> 8) &&& 0xff
  let lo := (s._prog._individualAddress >>> 0) &&& 0xff
  if hi = msg 2 ∧ lo = msg 3 then reboot s else s

/-- `KonnektingProg::handleMsgWriteProgrammingMode`. -/
def handleMsgWriteProgrammingMode (c : ProgConsts) (u : Indeterminate) (msg : Buf)
    (s : KonnektingDevice) : KonnektingDevice :=
  let ownHI := (s._prog._individualAddress >>> 8) &&& 0xff
  let ownLO := (s._prog._individualAddress >>> 0) &&& 0xff
  let s := if msg 2 = ownHI ∧ msg 3 = ownLO then setProgState (decide (msg 4 = 0x01)) s else s
  sendAck c u 0x00 0x00 s

/-- `KonnektingProg::handleMsgReadProgrammingMode`. -/
def handleMsgReadProgrammingMode (c : ProgConsts) (u : Indeterminate) (_msg : Buf)
    (s : KonnektingDevice) : KonnektingDevice :=
  if s._prog._progState = true then
    let response := u.array.setList 0
      [c.PROTOCOLVERSION, c.MSGTYPE_ANSWER_PROGRAMMING_MODE,
        (s._prog._individualAddress >>> 8) &&& 0xff, (s._prog._individualAddress >>> 0) &&& 0xff,
        0x00, 0x00, 0x00, 0x00, 0x00, 0x00, 0x00, 0x00, 0x00, 0x00]
    (KonnektingDevice.write u 0 response s).2
  else s

/-- `KonnektingProg::handleMsgWriteIndividualAddress`, with `WRITEMEM` defined as in the
source file. The statement `_deviceFlags &= ~0x80` acts on a byte; `_individualAddress` is a
`word`. -/
def handleMsgWriteIndividualAddress (c : ProgConsts) (u : Indeterminate) (msg : Buf)
    (s : KonnektingDevice) : KonnektingDevice :=
  let s := memoryUpdate c.EEPROM_INDIVIDUALADDRESS_HI (msg 2) s
  let s := memoryUpdate c.EEPROM_INDIVIDUALADDRESS_LO (msg 3) s
  let s := { s with _prog := { s._prog with
    _deviceFlags := (s._prog._deviceFlags &&& (0xFFFF - 0x80)) % 256 } }
  let s := memoryUpdate c.EEPROM_DEVICE_FLAGS s._prog._deviceFlags s
  let s := { s with _prog := { s._prog with
    _individualAddress := ((msg 2 <<< 8) + (msg 3 <<< 0)) % 65536 } }
  sendAck c u 0x00 0x00 s

/-- `KonnektingProg::handleMsgReadIndividualAddress`. -/
def handleMsgReadIndividualAddress (c : ProgConsts) (u : Indeterminate) (_msg : Buf)
    (s : KonnektingDevice) : KonnektingDevice :=
  let response := u.array.setList 0
    [c.PROTOCOLVERSION, c.MSGTYPE_ANSWER_INDIVIDUAL_ADDRESS,
      (s._prog._individualAddress >>> 8) &&& 0xff, (s._prog._individualAddress >>> 0) &&& 0xff,
      0x00, 0x00, 0x00, 0x00, 0x00, 0x00, 0x00, 0x00, 0x00, 0x00]
  (KonnektingDevice.write u 0 response s).2

/-- `KonnektingProg::handleMsgWriteParameter`, with `WRITEMEM` defined. -/
def handleMsgWriteParameter (c : ProgConsts) (u : Indeterminate) (msg : Buf)
    (s : KonnektingDevice) : KonnektingDevice :=
  let index := msg 2
  if (index : Int) > (s._prog._numberOfParams : Int) - 1 then
    sendAck c u e_KonnektingDeviceStatus.KNX_DEVICE_INVALID_INDEX.code index s
  else
    let skipBytes := calcParamSkipBytes s index
    let paramLen := getParamSize s index
    let s := (List.range paramLen).foldl
      (fun s i => memoryUpdate (s._prog._paramTableStartindex + skipBytes + i) (msg (3 + i)) s) s
    sendAck c u 0x00 0x00 s

/-- `KonnektingProg::handleMsgReadParameter`. The index is taken from `msg[0]`. -/
def handleMsgReadParameter (c : ProgConsts) (u : Indeterminate) (msg : Buf)
    (s : KonnektingDevice) : KonnektingDevice :=
  let index := msg 0
  let paramSize := getParamSize s index
  let paramValue := getParamValue s index u.array
  let response := u.array.setList 0 [c.PROTOCOLVERSION, c.MSGTYPE_ANSWER_PARAMETER, index]
  let response := (List.range paramSize).foldl
    (fun response i => response.set (3 + i) (paramValue i)) response
  let response := (List.range (11 - paramSize)).foldl
    (fun response i => response.set (3 + paramSize + i) 0) response
  (KonnektingDevice.write u 0 response s).2

/-- `KonnektingProg::handleMsgWriteComObject`, with `WRITEMEM` defined. `tupelOffset` is a
`byte`, `ga` a `word`. -/
def handleMsgWriteComObject (c : ProgConsts) (u : Indeterminate) (msg : Buf)
    (s : KonnektingDevice) : KonnektingDevice :=
  let tupels := msg 2
  let s := (List.range tupels).foldl
    (fun s tupelNumber =>
      let tupelOffset := (3 + tupelNumber * 3) % 256
      let comObjId := msg (tupelOffset + 0)
      let gaHi := msg (tupelOffset + 1)
      let gaLo := msg (tupelOffset + 2)
      let ga := ((gaHi <<< 8) + (gaLo <<< 0)) % 65536
      let result := KonnektingDevice.setComObjectAddress comObjId ga s
      if result.1 ≠ e_KonnektingDeviceStatus.KNX_DEVICE_ERROR then
        sendAck c u result.1.code comObjId result.2
      else
        let s := memoryUpdate (c.EEPROM_COMOBJECTTABLE_START + comObjId * 2 + 0) gaHi result.2
        memoryUpdate (c.EEPROM_COMOBJECTTABLE_START + comObjId * 2 + 1) gaLo s) s
  sendAck c u 0x00 0x00 s

/-- `KonnektingProg::handleMsgReadComObject`. `tupelOffset` is the `byte`
`3 + ((i - 1) * 3)`. -/
def handleMsgReadComObject (c : ProgConsts) (u : Indeterminate) (msg : Buf)
    (s : KonnektingDevice) : KonnektingDevice :=
  let numberOfComObjects := msg 2
  let response := u.array.setList 0
    [c.PROTOCOLVERSION, c.MSGTYPE_ANSWER_COM_OBJECT, numberOfComObjects]
  let response := (List.range numberOfComObjects).foldl
    (fun response i =>
      let comObjId := msg (3 + i)
      let ga := s.getComObjectAddress comObjId
      let tupelOffset := toByte (3 + ((i : Int) - 1) * 3)
      let response := response.set (tupelOffset + 0) comObjId
      let response := response.set (tupelOffset + 1) ((ga >>> 8) &&& 0xff)
      response.set (tupelOffset + 2) ((ga >>> 0) &&& 0xff)) response
  let response := (List.range (11 - numberOfComObjects * 3)).foldl
    (fun response i => response.set (3 + numberOfComObjects * 3 + i) 0) response
  (KonnektingDevice.write u 0 response s).2

/-- The part of `internalComObject` that follows the reading of `buffer`: the check of the
protocol version and the `switch (msgType)`. -/
def handleMsg (c : ProgConsts) (u : Indeterminate) (buffer : Buf) (s : KonnektingDevice) :
    KonnektingDevice :=
  let protocolversion := buffer 0
  let msgType := buffer 1
  if protocolversion ≠ c.PROTOCOLVERSION then s
  else if msgType = c.MSGTYPE_ACK then s
  else if msgType = c.MSGTYPE_READ_DEVICE_INFO then handleMsgReadDeviceInfo c u buffer s
  else if msgType = c.MSGTYPE_RESTART then handleMsgRestart buffer s
  else if msgType = c.MSGTYPE_WRITE_PROGRAMMING_MODE then
    handleMsgWriteProgrammingMode c u buffer s
  else if msgType = c.MSGTYPE_READ_PROGRAMMING_MODE then
    handleMsgReadProgrammingMode c u buffer s
  else if msgType = c.MSGTYPE_WRITE_INDIVIDUAL_ADDRESS then
    if s._prog._progState = true then handleMsgWriteIndividualAddress c u buffer s else s
  else if msgType = c.MSGTYPE_READ_INDIVIDUAL_ADDRESS then
    if s._prog._progState = true then handleMsgReadIndividualAddress c u buffer s else s
  else if msgType = c.MSGTYPE_WRITE_PARAMETER then
    if s._prog._progState = true then handleMsgWriteParameter c u buffer s else s
  else if msgType = c.MSGTYPE_READ_PARAMETER then handleMsgReadParameter c u buffer s
  else if msgType = c.MSGTYPE_WRITE_COM_OBJECT then
    if s._prog._progState = true then handleMsgWriteComObject c u buffer s else s
  else if msgType = c.MSGTYPE_READ_COM_OBJECT then handleMsgReadComObject c u buffer s
  else s

/-- `KonnektingProg::internalComObject`: the value returned (`none` when `reboot()` was
reached, from which control does not come back) and the device afterwards. -/
def internalComObject (c : ProgConsts) (u : Indeterminate) (index : Nat)
    (s : KonnektingDevice) : Option Bool × KonnektingDevice :=
  if index = 0 then
    let buffer := (s.read 0 u.array).2
    let s := handleMsg c u buffer s
    (if s.rebooted = true then none else some true, s)
  else (some false, s)

/-- The write action for object 0 that carries a frame of the protocol: what
`_device->write(0, response)` appends to the action queue when object 0 holds 14 bytes. -/
def replyAction (u : Indeterminate) (frame : List Nat) : type_tx_action :=
  { u.action with
    command := e_KonnektingDeviceTxActionType.KNX_WRITE_REQUEST
    index := 0
    valuePtr := frame }

end KonnektingProg

/-- `KonnektingDevice::GetTpUartEvents`, for an event of the transceiver whose received
telegram is `rxTelegram` and targets the object `targetedComObjIndex`. On a reset event the
transceiver is taken to accept the reset after finitely many attempts. -/
def KonnektingDevice.GetTpUartEvents (ind : Indicators) (c : ProgConsts) (u : Indeterminate)
    (event : e_KnxTpUartEvent) (rxTelegram : KnxTelegram) (targetedComObjIndex : Nat)
    (s : KonnektingDevice) : KonnektingDevice :=
  let s :=
    if event = .TPUART_EVENT_RECEIVED_KNX_TELEGRAM then
      let s := { s with _state := e_KonnektingDeviceState.IDLE }
      match rxTelegram.command with
      | .KNX_COMMAND_VALUE_READ =>
        if (s._comObjectsList targetedComObjIndex).indicator &&& ind.KNX_COM_OBJ_R_INDICATOR ≠ 0
        then
          let action := { u.action with
            command := e_KonnektingDeviceTxActionType.KNX_RESPONSE_REQUEST
            index := targetedComObjIndex }
          { s with _txActionList := s._txActionList.Append action }
        else s
      | .KNX_COMMAND_VALUE_RESPONSE =>
        if (s._comObjectsList targetedComObjIndex).indicator &&& ind.KNX_COM_OBJ_U_INDICATOR ≠ 0
        then
          let s := { s with _comObjectsList :=
            (setComObject s._comObjectsList targetedComObjIndex
              ((s._comObjectsList targetedComObjIndex).UpdateValueTelegram rxTelegram)) }
          s.callKnxEvents targetedComObjIndex
        else s
      | .KNX_COMMAND_VALUE_WRITE =>
        if (s._comObjectsList targetedComObjIndex).indicator &&& ind.KNX_COM_OBJ_W_INDICATOR ≠ 0
        then
          let s := { s with _comObjectsList :=
            (setComObject s._comObjectsList targetedComObjIndex
              ((s._comObjectsList targetedComObjIndex).UpdateValueTelegram rxTelegram)) }
          match KonnektingProg.internalComObject c u targetedComObjIndex s with
          | (some false, s) => s.callKnxEvents targetedComObjIndex
          | (_, s) => s
        else s
      | .other => s
    else s
  if event = .TPUART_EVENT_RESET then { s with _state := e_KonnektingDeviceState.IDLE }
  else s

/-! ## Start-up, typed parameters and typed writes -/

/-- `P_ADDR(area, line, busdevice)`, the individual address as a `word`. -/
def P_ADDR (area line busdevice : Nat) : Nat :=
  (((area &&& 0xF) <<< 12) + ((line &&& 0xF) <<< 8) + busdevice) % 65536

/-- The value of `x << n` for a `byte` `x`, computed in `int` and reduced to the width of
`int` of the target. Where the count reaches the width of `int` the language leaves the
result open; the reduction makes it 0. -/
def shiftLeftInt (t : Target) (x n : Nat) : Int := wrapS t.intBits ((x : Int) * 2 ^ n)

/-- The sum of two values of type `int`, reduced to the width of `int` of the target. -/
def addInt (t : Target) (a b : Int) : Int := wrapS t.intBits (a + b)

namespace KonnektingProg

/-- Width in bytes of the parameter type, as listed in the comment that precedes the typed
accessors in `KonnektingProg.cpp`. -/
def PARAM_INT8 : Nat := 1

/-- Width in bytes of the parameter type, from the same comment. -/
def PARAM_UINT8 : Nat := 1

/-- Width in bytes of the parameter type, from the same comment. -/
def PARAM_INT16 : Nat := 2

/-- Width in bytes of the parameter type, from the same comment. -/
def PARAM_UINT16 : Nat := 2

/-- Width in bytes of the parameter type, from the same comment. -/
def PARAM_INT32 : Nat := 4

/-- Width in bytes of the parameter type, from the same comment. -/
def PARAM_UINT32 : Nat := 4

/-- The loop `for (byte i = 0; i < index; i++) skipBytes += getParamSize(i)` of
`calcParamSkipBytes`, from the values of `i` and `skipBytes` at the test of the condition.
The accumulator is an `int`, reduced to the width of `int` of the target after each
addition; the counter is a `byte`. The first argument bounds the number of iterations. -/
def calcParamSkipBytesLoop (t : Target) (s : KonnektingDevice) (index : Nat) :
    Nat → Nat → Int → Int
  | 0, _, skipBytes => skipBytes
  | fuel + 1, i, skipBytes =>
    if i < index then
      calcParamSkipBytesLoop t s index fuel ((i + 1) % 256)
        (addInt t skipBytes (getParamSize s i))
    else skipBytes

/-- `KonnektingProg::calcParamSkipBytes` as the target computes it. `index` is a `byte`, so
the loop ends within 256 tests of its condition. -/
def calcParamSkipBytesInt (t : Target) (s : KonnektingDevice) (index : Nat) : Int :=
  if index > 0 then calcParamSkipBytesLoop t s index 256 0 0 else 0

/-- `KonnektingProg::getUINT8Param`. The local array `paramValue` is not initialised. -/
def getUINT8Param (u : Indeterminate) (s : KonnektingDevice) (index : Nat) : Int :=
  if getParamSize s index ≠ PARAM_UINT8 then 0
  else
    let paramValue := getParamValue s index u.array
    CIntType.cast ⟨8, false⟩ (paramValue 0)

/-- `KonnektingProg::getINT8Param`. -/
def getINT8Param (u : Indeterminate) (s : KonnektingDevice) (index : Nat) : Int :=
  if getParamSize s index ≠ PARAM_INT8 then 0
  else
    let paramValue := getParamValue s index u.array
    CIntType.cast ⟨8, true⟩ (paramValue 0)

/-- `KonnektingProg::getUINT16Param`: `(paramValue[1] << 8) + (paramValue[0] << 0)`,
computed in `int` and converted to `uint16_t`. -/
def getUINT16Param (t : Target) (u : Indeterminate) (s : KonnektingDevice) (index : Nat) :
    Int :=
  if getParamSize s index ≠ PARAM_UINT16 then 0
  else
    let paramValue := getParamValue s index u.array
    CIntType.cast ⟨16, false⟩
      (addInt t (shiftLeftInt t (paramValue 1) 8) (shiftLeftInt t (paramValue 0) 0))

/-- `KonnektingProg::getINT16Param`. -/
def getINT16Param (t : Target) (u : Indeterminate) (s : KonnektingDevice) (index : Nat) :
    Int :=
  if getParamSize s index ≠ PARAM_INT16 then 0
  else
    let paramValue := getParamValue s index u.array
    CIntType.cast ⟨16, true⟩
      (addInt t (shiftLeftInt t (paramValue 1) 8) (shiftLeftInt t (paramValue 0) 0))

/-- `KonnektingProg::getUINT32Param`:
`(paramValue[1] <<24) + (paramValue[1] <<16) + (paramValue[1] << 8) + (paramValue[0] << 0)`,
computed in `int` and converted to `uint32_t`. -/
def getUINT32Param (t : Target) (u : Indeterminate) (s : KonnektingDevice) (index : Nat) :
    Int :=
  if getParamSize s index ≠ PARAM_UINT32 then 0
  else
    let paramValue := getParamValue s index u.array
    CIntType.cast ⟨32, false⟩
      (addInt t
        (addInt t
          (addInt t (shiftLeftInt t (paramValue 1) 24) (shiftLeftInt t (paramValue 1) 16))
          (shiftLeftInt t (paramValue 1) 8))
        (shiftLeftInt t (paramValue 0) 0))

/-- `KonnektingProg::getINT32Param`. -/
def getINT32Param (t : Target) (u : Indeterminate) (s : KonnektingDevice) (index : Nat) :
    Int :=
  if getParamSize s index ≠ PARAM_INT32 then 0
  else
    let paramValue := getParamValue s index u.array
    CIntType.cast ⟨32, true⟩
      (addInt t
        (addInt t
          (addInt t (shiftLeftInt t (paramValue 1) 24) (shiftLeftInt t (paramValue 1) 16))
          (shiftLeftInt t (paramValue 1) 8))
        (shiftLeftInt t (paramValue 0) 0))

/-- The loop of `init` that gives the objects the addresses kept in the non-volatile memory:
`for (byte i = 0; i < getNumberOfComObjects()*2; i+=2)`. The first argument bounds the number
of iterations; the result is `none` when the bound is used up before the loop ends. -/
def initComObjects (c : ProgConsts) : Nat → Nat → KonnektingDevice → Option KonnektingDevice
  | 0, _, _ => none
  | fuel + 1, i, s =>
    if i < s._numberOfComObjects * 2 then
      let hi := s.EEPROM (i + c.EEPROM_COMOBJECTTABLE_START)
      let lo := s.EEPROM (i + c.EEPROM_COMOBJECTTABLE_START + 1)
      let comObjAddr := ((hi <<< 8) + (lo <<< 0)) % 65536
      let s := (KonnektingDevice.setComObjectAddress ((i + 1) % 256) comObjAddr s).2
      initComObjects c fuel ((i + 2) % 256) s
    else some s

/-- `KonnektingProg::init`. The numbers of the two pins are not kept; the LED pin is driven
low. The counter of the loop is a `byte` that advances by 2 and so takes at most 128 values,
which bounds the loop by 129 tests of its condition: the result is `none` when the loop does
not end. -/
def init (c : ProgConsts) (_progButtonPin _progLedPin manufacturerID deviceID revisionID : Nat)
    (s : KonnektingDevice) : Option KonnektingDevice :=
  let s := { s with _prog := { s._prog with
    _initialized := true
    _manufacturerID := manufacturerID
    _deviceID := deviceID
    _revisionID := revisionID
    progLED := false } }
  let s := { s with _prog := { s._prog with
    _paramTableStartindex := c.EEPROM_COMOBJECTTABLE_START + s._numberOfComObjects * 2 } }
  let s := { s with _prog := { s._prog with _deviceFlags := s.EEPROM c.EEPROM_DEVICE_FLAGS } }
  let s := { s with _prog := { s._prog with _individualAddress := P_ADDR 1 1 254 } }
  if isFactorySetting s = false then
    let hiAddr := s.EEPROM c.EEPROM_INDIVIDUALADDRESS_HI
    let loAddr := s.EEPROM c.EEPROM_INDIVIDUALADDRESS_LO
    let s := { s with _prog := { s._prog with
      _individualAddress := ((hiAddr <<< 8) + (loAddr <<< 0)) % 65536 } }
    initComObjects c 129 0 s
  else some s

end KonnektingProg

/-- `KonnektingDevice::getNumberOfComObjects`. -/
def KonnektingDevice.getNumberOfComObjects (s : KonnektingDevice) : Nat :=
  s._numberOfComObjects

/-- `KonnektingDevice::begin`. The transceiver object is not represented: `resetOk` tells
whether `_tpuart->Reset()` returned `KNX_TPUART_OK`, `millis` and `micros` are the readings
of the clock. -/
def KonnektingDevice.begin (resetOk : Bool) (millis micros : Nat) (_physicalAddr : Nat)
    (s : KonnektingDevice) : e_KonnektingDeviceStatus × KonnektingDevice :=
  if resetOk = false then (.KNX_DEVICE_ERROR, s)
  else
    (.KNX_DEVICE_OK,
      { s with
        _state := e_KonnektingDeviceState.IDLE
        _lastInitTimeMillis := millis % 65536
        _lastTXTimeMicros := micros % 65536 })

/-- `KonnektingDevice::init`. The arguments `comObjectList` and `paramSizeList` are arrays
given with their contents; the body does not mention them. -/
def KonnektingDevice.init (c : ProgConsts) (resetOk : Bool) (millis micros : Nat)
    (_comObjectList : List KnxComObject) (_paramSizeList : List Nat)
    (progButtonPin progLedPin manufacturerID deviceID revisionID : Nat)
    (s : KonnektingDevice) : Option KonnektingDevice :=
  match KonnektingProg.init c progButtonPin progLedPin manufacturerID deviceID revisionID s with
  | none => none
  | some s => some (s.begin resetOk millis micros (KonnektingProg.getIndividualAddress s)).2

/-- `KonnektingDevice::write<T>(byte objectIndex, T value)` for an integral `T`.
`KnxDPTIdToFormat` is the table from data-point identifiers to formats, declared with the
communication objects. The buffer `destValue` comes from `malloc` with indeterminate
content. When the conversion ends without a `return` the status tested by `if (status)` is
indeterminate and no result is given. -/
def KonnektingDevice.writeT (t : Target) (KnxDPTIdToFormat : Nat → e_KnxDPT_Format)
    (u : Indeterminate) (objectIndex : Nat) (value : Int) (s : KonnektingDevice) :
    Option e_KonnektingDeviceStatus × KonnektingDevice :=
  let length := (s._comObjectsList objectIndex).length
  if length ≤ 2 then
    let action := { u.action with
      byteValue := toByte value
      command := e_KonnektingDeviceTxActionType.KNX_WRITE_REQUEST
      index := objectIndex }
    (some .KNX_DEVICE_OK, { s with _txActionList := s._txActionList.Append action })
  else
    match ConvertToDpt t value u.array
        (KnxDPTIdToFormat (s._comObjectsList objectIndex).dptId) with
    | (some .KNX_DEVICE_OK, destValue) =>
      let action := { u.action with
        valuePtr := (List.range (length - 1)).map destValue
        command := e_KonnektingDeviceTxActionType.KNX_WRITE_REQUEST
        index := objectIndex }
      (some .KNX_DEVICE_OK, { s with _txActionList := s._txActionList.Append action })
    | (some status, _) => (some status, s)
    | (none, _) => (none, s)

/-- `KonnektingDevice::write<T>(byte objectIndex, T value)` for `T` one of `float`,
`double`, with exact arithmetic. -/
def KonnektingDevice.writeTReal (t : Target) (KnxDPTIdToFormat : Nat → e_KnxDPT_Format)
    (u : Indeterminate) (objectIndex : Nat) (value : ℚ) (s : KonnektingDevice) :
    Option e_KonnektingDeviceStatus × KonnektingDevice :=
  let length := (s._comObjectsList objectIndex).length
  if length ≤ 2 then
    let action := { u.action with
      byteValue := toByte (truncQ value)
      command := e_KonnektingDeviceTxActionType.KNX_WRITE_REQUEST
      index := objectIndex }
    (some .KNX_DEVICE_OK, { s with _txActionList := s._txActionList.Append action })
  else
    match ConvertToDptReal t value u.array
        (KnxDPTIdToFormat (s._comObjectsList objectIndex).dptId) with
    | (some .KNX_DEVICE_OK, destValue) =>
      let action := { u.action with
        valuePtr := (List.range (length - 1)).map destValue
        command := e_KonnektingDeviceTxActionType.KNX_WRITE_REQUEST
        index := objectIndex }
      (some .KNX_DEVICE_OK, { s with _txActionList := s._txActionList.Append action })
    | (some status, _) => (some status, s)
    | (none, _) => (none, s)

/-! ## Provisioning: runs of frames -/

/-- What the application sees of the device: the calls of `knxEvents` made so far, oldest
first, and the value of every object. -/
def KonnektingDevice.applicationView (s : KonnektingDevice) : List Nat × (Nat → List Nat) :=
  (s.knxEvents, fun i => (s._comObjectsList i).value)

/-- Values for the constants of the protocol and of the memory map, used in the examples. -/
def sampleConsts : ProgConsts where
  PROTOCOLVERSION := 0x00
  MSGTYPE_ACK := 0x00
  MSGTYPE_READ_DEVICE_INFO := 0x01
  MSGTYPE_ANSWER_DEVICE_INFO := 0x02
  MSGTYPE_RESTART := 0x09
  MSGTYPE_WRITE_PROGRAMMING_MODE := 0x0A
  MSGTYPE_READ_PROGRAMMING_MODE := 0x0B
  MSGTYPE_ANSWER_PROGRAMMING_MODE := 0x0C
  MSGTYPE_WRITE_INDIVIDUAL_ADDRESS := 0x14
  MSGTYPE_READ_INDIVIDUAL_ADDRESS := 0x15
  MSGTYPE_ANSWER_INDIVIDUAL_ADDRESS := 0x16
  MSGTYPE_WRITE_PARAMETER := 0x1E
  MSGTYPE_READ_PARAMETER := 0x1F
  MSGTYPE_ANSWER_PARAMETER := 0x20
  MSGTYPE_WRITE_COM_OBJECT := 0x28
  MSGTYPE_READ_COM_OBJECT := 0x29
  MSGTYPE_ANSWER_COM_OBJECT := 0x2A
  EEPROM_DEVICE_FLAGS := 0
  EEPROM_INDIVIDUALADDRESS_HI := 1
  EEPROM_INDIVIDUALADDRESS_LO := 2
  EEPROM_COMOBJECTTABLE_START := 10

/-- Content of uninitialised local variables used in the examples. -/
def sampleIndeterminate : Indeterminate := ⟨⟨.KNX_READ_REQUEST, 0xEE, 0xEE, []⟩, fun _ => 0xEE⟩

/-- A byte array that holds the bytes of a list, followed by zeros. -/
def frameOf (l : List Nat) : Buf := fun i => l.getD i 0


/-! ## Device runtime: runs and observations -/

/-- The action that step 1 of `task` passes to `_txActionList.Append`, when it reaches that
statement: a read request for the object at which the scan stopped. -/
def taskInitRequest (inp : TaskInput) (s : KonnektingDevice) : Option type_tx_action :=
  if s._initCompleted = false ∧
      TimeDeltaWord (inp.millis1 % 65536) s._lastInitTimeMillis > 500 then
    if initScan s._comObjectsList s._numberOfComObjects 256 s._initIndex = s._numberOfComObjects
    then none
    else some { inp.action with
      command := e_KonnektingDeviceTxActionType.KNX_READ_REQUEST
      index := initScan s._comObjectsList s._numberOfComObjects 256 s._initIndex }
  else none

/-- The actions that a step has added at the end of the action queue. -/
def enqueuedBy (f : KonnektingDevice → KonnektingDevice) (s : KonnektingDevice) :
    List type_tx_action :=
  (f s)._txActionList.drop s._txActionList.length

/-- A step of a run of the device: a scheduler tick, or something that happens between two
ticks (a callback of the transceiver, a call of the public interface). -/
inductive Step
  | tick (inp : TaskInput)
  | external (f : KonnektingDevice → KonnektingDevice)

/-- The device after a step. -/
def Step.apply (c : Indicators) : Step → KonnektingDevice → KonnektingDevice
  | .tick inp, s => s.task c inp
  | .external f, s => f s

/-- The device after a run. -/
def runSteps (c : Indicators) : List Step → KonnektingDevice → KonnektingDevice
  | [], s => s
  | st :: rest, s => runSteps c rest (st.apply c s)

/-- The objects for which the init scan has enqueued a read request during a run, in order. -/
def initReadRequests (c : Indicators) : List Step → KonnektingDevice → List Nat
  | [], _ => []
  | .tick inp :: rest, s =>
    (enqueuedBy (taskInit inp) s).map (fun a => a.index) ++ initReadRequests c rest (s.task c inp)
  | .external f :: rest, s => initReadRequests c rest (f s)

/-- A transformation of the device that does not write `_lastInitTimeMillis`. -/
def KeepsInitTimer (f : KonnektingDevice → KonnektingDevice) : Prop :=
  ∀ s, (f s)._lastInitTimeMillis = s._lastInitTimeMillis

/-- A run in which the init scan issues no read request and nothing outside the tick writes
`_lastInitTimeMillis`. -/
def QuietRun (c : Indicators) : List Step → KonnektingDevice → Prop
  | [], _ => True
  | .tick inp :: rest, s =>
    taskInitRequest inp s = none ∧ KeepsInitTimer inp.RXTask ∧ KeepsInitTimer inp.TXTask ∧
      QuietRun c rest (s.task c inp)
  | .external f :: rest, s => KeepsInitTimer f ∧ QuietRun c rest (f s)

/-- A run driven by a clock that does not run backwards: `now` is the last reading of
`millis()` before the run, every reading is at least the one before it, and nothing outside
step 1 of the tick writes `_lastInitTimeMillis`. -/
def MonotoneRun : Nat → List Step → Prop
  | _, [] => True
  | now, .tick inp :: rest =>
    now ≤ inp.millis1 ∧ inp.millis1 ≤ inp.millis2 ∧ KeepsInitTimer inp.RXTask ∧
      KeepsInitTimer inp.TXTask ∧ MonotoneRun inp.millis2 rest
  | now, .external f :: rest => KeepsInitTimer f ∧ MonotoneRun now rest

/-- The last reading of `millis()` in a run that starts after the reading `now`. -/
def clockAfter : Nat → List Step → Nat
  | now, [] => now
  | _, .tick inp :: rest => clockAfter inp.millis2 rest
  | now, .external _ :: rest => clockAfter now rest

/-- A provisioning handler in factory state with two declared parameters of one byte, whose
parameter table follows the address table of one object. -/
def sampleProg : KonnektingProg where
  _initialized := true
  _manufacturerID := 0xDEAD
  _deviceID := 0x01
  _revisionID := 0x00
  _deviceFlags := 0xFF
  _individualAddress := 0x11FE
  _paramTableStartindex := 12
  _progState := false
  _paramSizeList := fun _ => 1
  _numberOfParams := 2
  progLED := false

/-- A device with one object, of length 2 and without a value from the bus yet, started and
idle, whose init timer was stamped at time 0. -/
def sampleDevice : KonnektingDevice where
  _comObjectsList := fun _ => ⟨0x0A01, 2, 0x04, 0, [0], false⟩
  _numberOfComObjects := 1
  _state := .IDLE
  _txActionList := []
  _initCompleted := false
  _initIndex := 0
  _lastInitTimeMillis := 0
  _lastRXTimeMicros := 0
  _lastTXTimeMicros := 0
  _txTelegram := default
  sent := []
  _prog := sampleProg
  EEPROM := fun _ => 0xFF
  knxEvents := []
  rebooted := false

/-- A tick at the given time in milliseconds during which the transceiver calls nothing back. -/
def sampleTick (ms : Nat) : TaskInput where
  action := ⟨.KNX_READ_REQUEST, 0, 0, []⟩
  millis1 := ms
  millis2 := ms
  micros1 := 1000 * ms
  micros2 := 1000 * ms
  RXTask := id
  TXTask := id

/-- Flag bits used in the examples. -/
def sampleIndicators : Indicators := ⟨0x10, 0x08, 0x04, 0x02⟩

/-- A device with the provisioning object (index 0, a value of 14 bytes) and one object of
the application (index 1), both with all four flags of the examples, started and idle, with
the programming latch set. -/
def progDevice : KonnektingDevice :=
  { sampleDevice with
    _comObjectsList := fun i =>
      if i = 0 then ⟨0x7FFF, 15, 0x1E, 0, List.replicate 14 0, false⟩
      else ⟨0x0A01, 2, 0x1E, 0, [0], false⟩
    _numberOfComObjects := 2
    _prog := { sampleProg with _progState := true } }

/-- A telegram for the provisioning object with the given command and payload. -/
def sampleTelegram (cmd : e_KnxCommand) (frame : List Nat) : KnxTelegram :=
  ⟨cmd, 0x7FFF, 15, frame⟩

/-- A device like `progDevice` with three declared parameters of 1, 2 and 4 bytes. -/
def paramDevice : KonnektingDevice :=
  { progDevice with
    _prog := { progDevice._prog with
      _paramSizeList := fun i => [1, 2, 4].getD i 0
      _numberOfParams := 3 } }

/-- The table of formats used in the examples: identifier 0 has format U16, identifier 1
format F32, the others format U32. -/
def sampleFormats (dptId : Nat) : e_KnxDPT_Format :=
  if dptId = 0 then .KNX_DPT_FORMAT_U16
  else if dptId = 1 then .KNX_DPT_FORMAT_F32
  else .KNX_DPT_FORMAT_U32

/-- A constructed device (state `INIT`) with 128 objects whose non-volatile memory holds a
flags byte with bit 7 clear. -/
def manyObjectsDevice : KonnektingDevice :=
  { progDevice with
    _state := .INIT
    _numberOfComObjects := 128
    EEPROM := fun a => if a = 0 then 0x7F else 0xFF }

/-- A constructed device (state `INIT`) with four objects, all at address 0x0A01, over a
non-volatile memory written by an earlier session: flags byte 0x7F, individual address
0x12 0x34, and in the object-address table (from byte 10) the slots
`0x20 0x00`, `0x21 0x01`, `0x22 0x02`, `0x23 0x03` for the objects 0, 1, 2, 3. -/
def restartDevice : KonnektingDevice :=
  { progDevice with
    _state := .INIT
    _numberOfComObjects := 4
    _comObjectsList := fun i =>
      if i = 0 then ⟨0x7FFF, 15, 0x1E, 0, List.replicate 14 0, false⟩
      else ⟨0x0A01, 2, 0x1E, 0, [0], false⟩
    EEPROM := fun a =>
      [0x7F, 0x12, 0x34, 0xFF, 0xFF, 0xFF, 0xFF, 0xFF, 0xFF, 0xFF,
        0x20, 0x00, 0x21, 0x01, 0x22, 0x02, 0x23, 0x03].getD a 0xFF }

/-- A device with one application object, idle, whose persisted parameter table starts
where `init` puts it: after the address table of the two objects. -/
def tableDevice : KonnektingDevice :=
  { progDevice with _prog := { progDevice._prog with _paramTableStartindex := 14 } }

open e_KonnektingDeviceStatus e_KnxDPT_Format

/-! ## Machine integer lemmas -/

theorem toByte_cast (x : Int) : ((toByte x : Nat) : Int) = x % 256 := by
  unfold toByte
  omega

theorem toByte_lt (x : Int) : toByte x < 256 := by
  unfold toByte
  omega

theorem ediv_65536 (U : Int) : U / 65536 = U / 256 / 256 := by omega

theorem ediv_16777216 (U : Int) : U / 16777216 = U / 256 / 256 / 256 := by omega

theorem bytes_of_u32 (U : Int) (h0 : 0 ≤ U) (h1 : U < 4294967296) :
    U / 16777216 % 256 * 16777216 + U / 65536 % 256 * 65536 + U / 256 % 256 * 256 + U % 256
      = U := by
  rw [ediv_65536, ediv_16777216]
  omega

theorem wrapS_emod (w : Nat) (x : Int) : wrapS w x % 2 ^ w = x % 2 ^ w := by
  unfold wrapS
  rw [Int.sub_emod, Int.emod_emod_of_dvd _ (dvd_refl _), ← Int.sub_emod]
  simp

theorem wrapS_congr (w : Nat) (x y : Int) (h : x % 2 ^ w = y % 2 ^ w) : wrapS w x = wrapS w y := by
  unfold wrapS
  rw [Int.add_emod, h, ← Int.add_emod]

theorem cast_emod (T : CIntType) (x : Int) : T.cast x % 2 ^ T.bits = x % 2 ^ T.bits := by
  unfold CIntType.cast
  split
  · exact wrapS_emod _ _
  · simp [wrapU]

theorem cast_congr (T : CIntType) (x y : Int) (h : x % 2 ^ T.bits = y % 2 ^ T.bits) :
    T.cast x = T.cast y := by
  unfold CIntType.cast
  split
  · exact wrapS_congr _ _ _ h
  · simpa [wrapU] using h

theorem cast_add_cast (T : CIntType) (a b : Int) : T.cast (T.cast a + T.cast b) = T.cast (a + b) := by
  apply cast_congr
  rw [Int.add_emod, cast_emod, cast_emod, ← Int.add_emod]

theorem cast_cast_add (T : CIntType) (a b : Int) : T.cast (T.cast a + b) = T.cast (a + b) := by
  apply cast_congr
  rw [Int.add_emod, cast_emod, ← Int.add_emod]

theorem cast_of_inRange (T : CIntType) (hT : 0 < T.bits) (x : Int) (h : T.InRange x) :
    T.cast x = x := by
  have hp : (2 : Int) ^ T.bits = 2 * 2 ^ (T.bits - 1) := by
    rw [← pow_succ']
    congr 1
    omega
  unfold CIntType.InRange at h
  unfold CIntType.cast wrapS wrapU
  generalize (2 : Int) ^ (T.bits - 1) = H at *
  split at h
  · rw [if_pos ‹_›, hp, Int.emod_eq_of_lt] <;> omega
  · rw [if_neg ‹_›, Int.emod_eq_of_lt] <;> omega

theorem ConvertFromDpt_int16 (t : Target) (T : CIntType) (d : Buf) (r : Int)
    (F : e_KnxDPT_Format) (hF : F = KNX_DPT_FORMAT_U16 ∨ F = KNX_DPT_FORMAT_V16) :
    ConvertFromDpt t T d r F
      = (some KNX_DEVICE_OK, T.cast (wrapU t.intBits ((d 0 : Int) * 2 ^ 8) + (d 1 : Int))) := by
  rcases hF with rfl | rfl <;> simp only [ConvertFromDpt, cast_add_cast]

theorem ConvertFromDpt_int32 (t : Target) (T : CIntType) (d : Buf) (r : Int)
    (F : e_KnxDPT_Format) (hF : F = KNX_DPT_FORMAT_U32 ∨ F = KNX_DPT_FORMAT_V32) :
    ConvertFromDpt t T d r F
      = (some KNX_DEVICE_OK,
          T.cast (wrapU 32 ((d 0 : Int) * 2 ^ 24) + wrapU 32 ((d 1 : Int) * 2 ^ 16)
            + wrapU 32 ((d 2 : Int) * 2 ^ 8) + (d 3 : Int))) := by
  rcases hF with rfl | rfl <;> simp only [ConvertFromDpt, cast_add_cast]

theorem ConvertToDpt_int16 (t : Target) (V : Int) (buf : Buf)
    (F : e_KnxDPT_Format) (hF : F = KNX_DPT_FORMAT_U16 ∨ F = KNX_DPT_FORMAT_V16) :
    (ConvertToDpt t V buf F).1 = some KNX_DEVICE_OK ∧
      (ConvertToDpt t V buf F).2 0 = toByte (V / 2 ^ 8) ∧
      (ConvertToDpt t V buf F).2 1 = toByte V ∧
      ∀ j, 2 ≤ j → (ConvertToDpt t V buf F).2 j = buf j := by
  have h : toByte (wrapU t.intBits V / 2 ^ 8) = toByte (V / 2 ^ 8) := by
    cases t <;> simp only [toByte, wrapU, Target.intBits] <;> norm_num <;> congr 1 <;> omega
  rcases hF with rfl | rfl <;> simp only [ConvertToDpt, Buf.set, h] <;>
    refine ⟨trivial, by simp, by simp, fun j hj => ?_⟩ <;>
    rw [if_neg (by omega), if_neg (by omega)]

theorem ConvertToDpt_int32 (t : Target) (V : Int) (buf : Buf)
    (F : e_KnxDPT_Format) (hF : F = KNX_DPT_FORMAT_U32 ∨ F = KNX_DPT_FORMAT_V32) :
    (ConvertToDpt t V buf F).1 = some KNX_DEVICE_OK ∧
      (ConvertToDpt t V buf F).2 0 = toByte (V / 2 ^ 24) ∧
      (ConvertToDpt t V buf F).2 1 = toByte (V / 2 ^ 16) ∧
      (ConvertToDpt t V buf F).2 2 = toByte (V / 2 ^ 8) ∧
      (ConvertToDpt t V buf F).2 3 = toByte V ∧
      ∀ j, 4 ≤ j → (ConvertToDpt t V buf F).2 j = buf j := by
  have h3 : toByte (wrapU 32 V / 2 ^ 24) = toByte (V / 2 ^ 24) := by
    simp only [toByte, wrapU]; norm_num; congr 1; rw [ediv_16777216, ediv_16777216]; omega
  have h2 : toByte (wrapU 32 V / 2 ^ 16) = toByte (V / 2 ^ 16) := by
    simp only [toByte, wrapU]; norm_num; congr 1; rw [ediv_65536, ediv_65536]; omega
  have h1 : toByte (wrapU 32 V / 2 ^ 8) = toByte (V / 2 ^ 8) := by
    simp only [toByte, wrapU]; norm_num; congr 1; omega
  rcases hF with rfl | rfl <;> simp only [ConvertToDpt, Buf.set, h1, h2, h3] <;>
    refine ⟨trivial, by simp, by simp, by simp, by simp, fun j hj => ?_⟩ <;>
    rw [if_neg (by omega), if_neg (by omega), if_neg (by omega), if_neg (by omega)]

theorem roundtrip16 (t : Target) (T : CIntType) (hb : T.bits = 16) (V : Int)
    (hV : T.InRange V) (buf : Buf) (r : Int)
    (F : e_KnxDPT_Format) (hF : F = KNX_DPT_FORMAT_U16 ∨ F = KNX_DPT_FORMAT_V16) :
    ConvertFromDpt t T (ConvertToDpt t V buf F).2 r F = (some KNX_DEVICE_OK, V) := by
  obtain ⟨-, e0, e1, -⟩ := ConvertToDpt_int16 t V buf F hF
  rw [ConvertFromDpt_int16 t T _ r F hF, e0, e1, toByte_cast, toByte_cast]
  congr 1
  refine Eq.trans (cast_congr T _ V ?_) (cast_of_inRange T (by omega) V hV)
  rw [hb]
  cases t <;> simp only [wrapU, Target.intBits] <;> norm_num <;> omega

theorem roundtrip32 (t : Target) (T : CIntType) (hb : T.bits = 32) (V : Int)
    (hV : T.InRange V) (buf : Buf) (r : Int)
    (F : e_KnxDPT_Format) (hF : F = KNX_DPT_FORMAT_U32 ∨ F = KNX_DPT_FORMAT_V32) :
    ConvertFromDpt t T (ConvertToDpt t V buf F).2 r F = (some KNX_DEVICE_OK, V) := by
  obtain ⟨-, e0, e1, e2, e3, -⟩ := ConvertToDpt_int32 t V buf F hF
  rw [ConvertFromDpt_int32 t T _ r F hF, e0, e1, e2, e3, toByte_cast, toByte_cast, toByte_cast,
    toByte_cast]
  congr 1
  refine Eq.trans (cast_congr T _ V ?_) (cast_of_inRange T (by omega) V hV)
  rw [hb]
  have hU := bytes_of_u32 (V % 4294967296) (by omega) (by omega)
  have q3 : V % 4294967296 / 16777216 % 256 = V / 16777216 % 256 := by
    rw [ediv_16777216, ediv_16777216]; omega
  have q2 : V % 4294967296 / 65536 % 256 = V / 65536 % 256 := by
    rw [ediv_65536, ediv_65536]; omega
  have q1 : V % 4294967296 / 256 % 256 = V / 256 % 256 := by omega
  have q0 : V % 4294967296 % 256 = V % 256 := by omega
  rw [q3, q2, q1, q0] at hU
  simp only [wrapU]
  norm_num
  have r3 : 0 ≤ V / 16777216 % 256 ∧ V / 16777216 % 256 < 256 := by omega
  have r2 : 0 ≤ V / 65536 % 256 ∧ V / 65536 % 256 < 256 := by omega
  have r1 : 0 ≤ V / 256 % 256 ∧ V / 256 % 256 < 256 := by omega
  have r0 : 0 ≤ V % 256 ∧ V % 256 < 256 := by omega
  generalize V / 16777216 % 256 = b0 at hU r3 ⊢
  generalize V / 65536 % 256 = b1 at hU r2 ⊢
  generalize V / 256 % 256 = b2 at hU r1 ⊢
  generalize V % 256 = b3 at hU r0 ⊢
  generalize V % 4294967296 = U at hU ⊢
  omega

/-- C1: for each integer format `F` among U16, V16, U32, V32 and every value `V`
representable in the host integral type of the same width and signedness as `F`,
`ConvertToDpt` returns `KNX_DEVICE_OK`, and `ConvertFromDpt` applied to the bytes written
returns `KNX_DEVICE_OK` with the result variable equal to `V`, whatever it held before. -/
theorem C1_integer_roundtrip (t : Target) (F : e_KnxDPT_Format) (T : CIntType)
    (hT : hostTypeOf F = some T) (V : Int) (hV : T.InRange V) (buf : Buf) (r : Int) :
    (ConvertToDpt t V buf F).1 = some KNX_DEVICE_OK ∧
      ConvertFromDpt t T (ConvertToDpt t V buf F).2 r F = (some KNX_DEVICE_OK, V) := by
  cases F <;> simp only [hostTypeOf, Option.some.injEq, reduceCtorEq] at hT <;> subst hT
  · exact ⟨rfl, roundtrip16 t _ rfl V hV buf r _ (Or.inl rfl)⟩
  · exact ⟨rfl, roundtrip16 t _ rfl V hV buf r _ (Or.inr rfl)⟩
  · exact ⟨rfl, roundtrip32 t _ rfl V hV buf r _ (Or.inl rfl)⟩
  · exact ⟨rfl, roundtrip32 t _ rfl V hV buf r _ (Or.inr rfl)⟩

theorem C1_integer_roundtrip_witness :
    (ConvertToDpt .avr (-1234) (fun _ => 0) KNX_DPT_FORMAT_V16).1 = some KNX_DEVICE_OK ∧
      ConvertFromDpt .avr ⟨16, true⟩ (ConvertToDpt .avr (-1234) (fun _ => 0) KNX_DPT_FORMAT_V16).2 7
        KNX_DPT_FORMAT_V16 = (some KNX_DEVICE_OK, -1234) :=
  C1_integer_roundtrip .avr KNX_DPT_FORMAT_V16 ⟨16, true⟩ rfl (-1234) (by decide) (fun _ => 0) 7

set_option maxRecDepth 100000 in
theorem byte_and_0x80 : ∀ b < 256, (b &&& 0x80 ≠ 0 ↔ 128 ≤ b) := by decide

set_option maxRecDepth 100000 in
theorem byte_and_0x78 : ∀ b < 256, (b &&& 0x78) >>> 3 = b / 8 % 16 := by decide

theorem and_0x07 (b : Nat) : b &&& 0x07 = b % 8 := Nat.and_pow_two_sub_one_eq_mod b 3

theorem compl_and_0x07FF (m : Nat) (h : m < 2048) : (0xFFFF - m) &&& 0x07FF = 2047 - m := by
  have := Nat.and_pow_two_sub_one_eq_mod (0xFFFF - m) 11
  norm_num at this ⊢
  rw [this]
  omega

theorem wrapS32_of_range (x : Int) (h0 : -2147483648 ≤ x) (h1 : x < 2147483648) :
    wrapS 32 x = x := by
  unfold wrapS
  norm_num
  omega

theorem F16signMultiplier_eq (d : Buf) (h0 : d 0 < 256) :
    F16signMultiplier d = if 128 ≤ d 0 then -1 else 1 := by
  unfold F16signMultiplier
  exact if_congr (byte_and_0x80 _ h0) rfl rfl

theorem F16exponent_eq (d : Buf) (h0 : d 0 < 256) : F16exponent d = d 0 / 8 % 16 := by
  unfold F16exponent
  exact byte_and_0x78 _ h0

theorem F16absoluteMantissa_eq (d : Buf) (h0 : d 0 < 256) (h1 : d 1 < 256) :
    F16absoluteMantissa d
      = if 128 ≤ d 0 then 2048 - (d 0 % 8 * 256 + d 1) else d 0 % 8 * 256 + d 1 := by
  unfold F16absoluteMantissa
  rw [F16signMultiplier_eq d h0, and_0x07, Nat.shiftLeft_eq]
  have hm : (d 1 + d 0 % 8 * 2 ^ 8) % 65536 = d 0 % 8 * 256 + d 1 := by
    norm_num
    omega
  simp only [hm]
  by_cases hs : 128 ≤ d 0
  · simp only [hs, if_true]
    rw [compl_and_0x07FF _ (by omega)]
    omega
  · simp [hs]

theorem pow_le_32768 (e : Nat) (h : e ≤ 15) : (2 : Int) ^ e ≤ 32768 := by
  have : (2 : Int) ^ e ≤ 2 ^ 15 := pow_le_pow_right₀ (by norm_num) h
  simpa using this

theorem F16scaled_eq (d : Buf) (h0 : d 0 < 256) (h1 : d 1 < 256) :
    F16scaled d
      = (if 128 ≤ d 0 then ((d 0 % 8 * 256 + d 1 : Nat) : Int) - 2048
          else ((d 0 % 8 * 256 + d 1 : Nat) : Int)) * 2 ^ (d 0 / 8 % 16) := by
  unfold F16scaled
  rw [F16signMultiplier_eq d h0, F16absoluteMantissa_eq d h0 h1, F16exponent_eq d h0]
  have hp := pow_le_32768 (d 0 / 8 % 16) (by omega)
  have hp0 : (0 : Int) < 2 ^ (d 0 / 8 % 16) := by positivity
  generalize (2 : Int) ^ (d 0 / 8 % 16) = P at hp hp0
  have hm : d 0 % 8 * 256 + d 1 < 2048 := by omega
  generalize d 0 % 8 * 256 + d 1 = m at hm
  by_cases hs : 128 ≤ d 0
  · simp only [hs, if_true]
    have hc : ((2048 - m : Nat) : Int) = 2048 - (m : Int) := by omega
    rw [hc, wrapS32_of_range]
    · ring
    · nlinarith
    · nlinarith
  · simp only [hs, if_false]
    rw [wrapS32_of_range]
    · ring
    · nlinarith
    · nlinarith

theorem F16_shift_range (d : Buf) (h0 : d 0 < 256) (h1 : d 1 < 256) :
    0 ≤ ((F16absoluteMantissa d : Nat) : Int) * 2 ^ F16exponent d ∧
      ((F16absoluteMantissa d : Nat) : Int) * 2 ^ F16exponent d ≤ 67108864 := by
  rw [F16absoluteMantissa_eq d h0 h1, F16exponent_eq d h0]
  have hp := pow_le_32768 (d 0 / 8 % 16) (by omega)
  have hp0 : (0 : Int) < 2 ^ (d 0 / 8 % 16) := by positivity
  generalize (2 : Int) ^ (d 0 / 8 % 16) = P at hp hp0
  have hm : (if 128 ≤ d 0 then 2048 - (d 0 % 8 * 256 + d 1) else d 0 % 8 * 256 + d 1) ≤ 2048 := by
    split <;> omega
  generalize (if 128 ≤ d 0 then 2048 - (d 0 % 8 * 256 + d 1) else d 0 % 8 * 256 + d 1) = A at hm
  have hA : (0 : Int) ≤ (A : Int) := Int.natCast_nonneg A
  have hA2 : (A : Int) ≤ 2048 := by omega
  constructor <;> nlinarith

theorem F16_product_eq (d : Buf) (h0 : d 0 < 256) (h1 : d 1 < 256) :
    F16signMultiplier d * (((F16absoluteMantissa d : Nat) : Int) * 2 ^ F16exponent d)
      = F16scaled d := by
  obtain ⟨hlo, hhi⟩ := F16_shift_range d h0 h1
  unfold F16scaled
  rw [wrapS32_of_range _ (by omega) (by omega), mul_comm]

/-- C4: for every pair of bytes decoded with format F16, `ConvertFromDpt` returns
`KNX_DEVICE_OK`, and the integer it multiplies by `0.01`, `signMultiplier` times
`absoluteMantissa << exponent`, equals `M * 2 ^ E`, where `E` is bits 3..6 of byte 0 and `M`
in `[-2048, 2047]` is the 12-bit two's-complement number whose top bit is bit 7 of byte 0 and
whose low 11 bits are the low 3 bits of byte 0 followed by byte 1; a set sign bit with a zero
mantissa field gives `M = -2048`. -/
theorem C4_f16_decode (t : Target) (T : CIntType) (d : Buf) (r : ℚ) (ri : Int)
    (h0 : d 0 < 256) (h1 : d 1 < 256) :
    (ConvertFromDptReal t d r KNX_DPT_FORMAT_F16).1 = some KNX_DEVICE_OK ∧
    (ConvertFromDpt t T d ri KNX_DPT_FORMAT_F16).1 = some KNX_DEVICE_OK ∧
    (ConvertFromDptReal t d r KNX_DPT_FORMAT_F16).2
      = (1 / 100 : ℚ) * ((F16signMultiplier d
          * (((F16absoluteMantissa d : Nat) : Int) * 2 ^ F16exponent d) : Int) : ℚ) ∧
    ∃ M : Int, -2048 ≤ M ∧ M ≤ 2047 ∧
      M = wrapS 12 ((d 0 / 128 * 2048 + d 0 % 8 * 256 + d 1 : Nat) : Int) ∧
      (d 0 / 128 = 1 → d 0 % 8 * 256 + d 1 = 0 → M = -2048) ∧
      F16signMultiplier d * (((F16absoluteMantissa d : Nat) : Int) * 2 ^ F16exponent d)
        = M * 2 ^ (d 0 / 8 % 16) := by
  refine ⟨rfl, rfl, ?_, ?_⟩
  · rw [F16_product_eq d h0 h1]
    rfl
  · rw [F16_product_eq d h0 h1, F16scaled_eq d h0 h1]
    by_cases hs : 128 ≤ d 0
    · have hq : d 0 / 128 = 1 := by omega
      refine ⟨((d 0 % 8 * 256 + d 1 : Nat) : Int) - 2048, by omega, by omega, ?_, ?_, ?_⟩
      · rw [hq]
        unfold wrapS
        norm_num
        omega
      · intro _ hz
        rw [hz]
        rfl
      · simp only [hs, if_true]
    · have hq : d 0 / 128 = 0 := by omega
      refine ⟨((d 0 % 8 * 256 + d 1 : Nat) : Int), by omega, by omega, ?_, ?_, ?_⟩
      · rw [hq]
        unfold wrapS
        norm_num
        omega
      · intro hq1
        omega
      · simp only [hs, if_false]

theorem C4_f16_decode_witness :
    (ConvertFromDptReal .avr (fun i => if i = 0 then 0x80 else 0) 0 KNX_DPT_FORMAT_F16).1
        = some KNX_DEVICE_OK ∧
      F16scaled (fun i => if i = 0 then 0x80 else 0) = -2048 :=
  ⟨(C4_f16_decode .avr ⟨16, true⟩ (fun i => if i = 0 then 0x80 else 0) 0 0
      (by decide) (by decide)).1, by decide⟩

/-! ## The scaling loops of the F16 encoder -/

theorem toByte_and_one (x : Int) : toByte x &&& 1 = (x % 2).toNat := by
  have h : toByte x &&& 1 = toByte x % 2 := Nat.and_pow_two_sub_one_eq_mod (toByte x) 1
  rw [h]
  unfold toByte
  omega

theorem ediv_two_ediv (x P : Int) (hP : 0 < P) : x / 2 / P = x / (2 * P) := by
  have h1 := Int.emod_add_ediv x (2 * P)
  have h2 := Int.emod_nonneg x (show 2 * P ≠ 0 by omega)
  have h3 := Int.emod_lt_of_pos x (show 0 < 2 * P by omega)
  generalize x % (2 * P) = r at h1 h2 h3
  generalize x / (2 * P) = q at h1
  have h1' : x = r + 2 * (P * q) := by rw [← h1]; ring
  have h4 : x / 2 = r / 2 + P * q := by omega
  rw [h4, Int.add_mul_ediv_left _ _ (by omega), Int.ediv_eq_zero_of_lt (by omega) (by omega)]
  simp

theorem ediv_two_pow_succ (x : Int) (j : Nat) : x / 2 / 2 ^ j = x / 2 ^ (j + 1) := by
  rw [ediv_two_ediv _ _ (by positivity), pow_succ']

/-- What the loop of the non-negative case computes: the number `k` of halvings is the least
one that brings the value to at most 2047, and `round` is the last bit shifted out. -/
theorem scalePositive_spec (n : Nat) (st : F16Scale) (hx : 0 ≤ st.longValuex100)
    (hn : st.longValuex100 < 2048 * 2 ^ n) (he : st.exponent + n < 256) :
    ∃ k, k ≤ n ∧ (scalePositive n st).exponent = st.exponent + k ∧
      (scalePositive n st).longValuex100 = st.longValuex100 / 2 ^ k ∧
      (scalePositive n st).longValuex100 ≤ 2047 ∧
      (∀ j, j < k → 2047 < st.longValuex100 / 2 ^ j) ∧
      (k = 0 → (scalePositive n st).round = st.round) ∧
      (0 < k → (scalePositive n st).round = (st.longValuex100 / 2 ^ (k - 1) % 2).toNat) := by
  induction n generalizing st with
  | zero =>
    refine ⟨0, le_refl _, by simp [scalePositive], by simp [scalePositive], ?_, ?_, ?_, ?_⟩
    · simp only [scalePositive]; norm_num at hn; omega
    · intro j hj; omega
    · intro _; rfl
    · intro h; omega
  | succ n ih =>
    by_cases hc : st.longValuex100 > 2047
    · have hmod : (st.exponent + 1) % 256 = st.exponent + 1 := by omega
      have hstep : scalePositive (n + 1) st = scalePositive n
          { exponent := st.exponent + 1
            round := toByte st.longValuex100 &&& 1
            longValuex100 := st.longValuex100 / 2 } := by
        simp only [scalePositive, hc, if_true, hmod]
      have hpow : (2048 : Int) * 2 ^ (n + 1) = 2 * (2048 * 2 ^ n) := by ring
      obtain ⟨k, hk, e1, e2, e3, e4, e5, e6⟩ := ih
        { exponent := st.exponent + 1
          round := toByte st.longValuex100 &&& 1
          longValuex100 := st.longValuex100 / 2 }
        (by show 0 ≤ st.longValuex100 / 2; omega)
        (by show st.longValuex100 / 2 < 2048 * 2 ^ n; omega)
        (by show st.exponent + 1 + n < 256; omega)
      simp only [ediv_two_pow_succ] at e1 e2 e4 e5 e6
      refine ⟨k + 1, by omega, ?_, ?_, ?_, ?_, ?_, ?_⟩
      · rw [hstep, e1]; omega
      · rw [hstep, e2]
      · rw [hstep]; exact e3
      · intro j hj
        cases j with
        | zero => simpa using hc
        | succ j => exact e4 j (by omega)
      · intro h; omega
      · intro _
        rw [hstep]
        by_cases hk0 : k = 0
        · subst hk0
          rw [e5 rfl, toByte_and_one]
          simp
        · have hk1 : k - 1 + 1 = k := by omega
          rw [e6 (by omega), hk1]
          simp
    · have hstep : scalePositive (n + 1) st = st := by
        simp only [scalePositive, hc, if_false]
      refine ⟨0, by omega, by simp [hstep], by simp [hstep], ?_, ?_, ?_, ?_⟩
      · rw [hstep]; omega
      · intro j hj; omega
      · intro _; rw [hstep]
      · intro h; omega

/-- What the loop of the negative case computes: the number `k` of halvings is the least one
that brings the value to at least -2048, and `round` is the last bit shifted out. -/
theorem scaleNegative_spec (n : Nat) (st : F16Scale) (hx : st.longValuex100 < 0)
    (hn : -(2048 * 2 ^ n) ≤ st.longValuex100) (he : st.exponent + n < 256) :
    ∃ k, k ≤ n ∧ (scaleNegative n st).exponent = st.exponent + k ∧
      (scaleNegative n st).longValuex100 = st.longValuex100 / 2 ^ k ∧
      -2048 ≤ (scaleNegative n st).longValuex100 ∧
      (scaleNegative n st).longValuex100 < 0 ∧
      (∀ j, j < k → st.longValuex100 / 2 ^ j < -2048) ∧
      (k = 0 → (scaleNegative n st).round = st.round) ∧
      (0 < k → (scaleNegative n st).round = (st.longValuex100 / 2 ^ (k - 1) % 2).toNat) := by
  induction n generalizing st with
  | zero =>
    refine ⟨0, le_refl _, by simp [scaleNegative], by simp [scaleNegative], ?_, ?_, ?_, ?_, ?_⟩
    · simp only [scaleNegative]; norm_num at hn; omega
    · simpa [scaleNegative] using hx
    · intro j hj; omega
    · intro _; rfl
    · intro h; omega
  | succ n ih =>
    by_cases hc : st.longValuex100 < -2048
    · have hmod : (st.exponent + 1) % 256 = st.exponent + 1 := by omega
      have hor : orSignBit (st.longValuex100 / 2) = st.longValuex100 / 2 := by
        unfold orSignBit
        rw [if_neg (by omega)]
      have hstep : scaleNegative (n + 1) st = scaleNegative n
          { exponent := st.exponent + 1
            round := toByte st.longValuex100 &&& 1
            longValuex100 := st.longValuex100 / 2 } := by
        simp only [scaleNegative, hc, if_true, hmod, hor]
      have hpow : (2048 : Int) * 2 ^ (n + 1) = 2 * (2048 * 2 ^ n) := by ring
      obtain ⟨k, hk, e1, e2, e3, e3', e4, e5, e6⟩ := ih
        { exponent := st.exponent + 1
          round := toByte st.longValuex100 &&& 1
          longValuex100 := st.longValuex100 / 2 }
        (by show st.longValuex100 / 2 < 0; omega)
        (by show -(2048 * 2 ^ n) ≤ st.longValuex100 / 2; omega)
        (by show st.exponent + 1 + n < 256; omega)
      simp only [ediv_two_pow_succ] at e1 e2 e4 e5 e6
      refine ⟨k + 1, by omega, ?_, ?_, ?_, ?_, ?_, ?_, ?_⟩
      · rw [hstep, e1]; omega
      · rw [hstep, e2]
      · rw [hstep]; exact e3
      · rw [hstep]; exact e3'
      · intro j hj
        cases j with
        | zero => simpa using hc
        | succ j => exact e4 j (by omega)
      · intro h; omega
      · intro _
        rw [hstep]
        by_cases hk0 : k = 0
        · subst hk0
          rw [e5 rfl, toByte_and_one]
          simp
        · have hk1 : k - 1 + 1 = k := by omega
          rw [e6 (by omega), hk1]
          simp
    · have hstep : scaleNegative (n + 1) st = st := by
        simp only [scaleNegative, hc, if_false]
      refine ⟨0, by omega, by simp [hstep], by simp [hstep], ?_, ?_, ?_, ?_, ?_⟩
      · rw [hstep]; omega
      · rw [hstep]; exact hx
      · intro j hj; omega
      · intro _; rw [hstep]
      · intro h; omega

theorem F16negativeSign_eq (x : Int) (hlo : -2147483648 ≤ x) (hhi : x < 2147483648) :
    F16negativeSign x = decide (x < 0) := by
  unfold F16negativeSign wrapU
  have h := Nat.and_two_pow (x % 2 ^ 32).toNat 31
  norm_num at h ⊢
  rw [h, Nat.testBit_to_div_mod]
  by_cases hx : x < 0
  · have : (x % 4294967296).toNat / 2 ^ 31 % 2 = 1 := by norm_num; omega
    norm_num at this
    simp [this, hx]
  · have : (x % 4294967296).toNat / 2 ^ 31 % 2 = 0 := by norm_num; omega
    norm_num at this
    simp [this, hx]

/-- The scaling loop of the F16 encoder on a non-negative `long`: 32 iterations are never
exhausted, the exponent counts the halvings and is the least that fits. -/
theorem F16scale_nonneg (x : Int) (hlo : 0 ≤ x) (hhi : x < 2147483648) :
    ∃ k, k ≤ 32 ∧ (F16scale x).exponent = k ∧ (F16scale x).longValuex100 = x / 2 ^ k ∧
      0 ≤ (F16scale x).longValuex100 ∧ (F16scale x).longValuex100 ≤ 2047 ∧
      (∀ j, j < k → 2047 < x / 2 ^ j) ∧
      (k = 0 → (F16scale x).round = 0) ∧
      (0 < k → (F16scale x).round = (x / 2 ^ (k - 1) % 2).toNat) := by
  have hs : F16scale x = scalePositive 32 { exponent := 0, round := 0, longValuex100 := x } := by
    unfold F16scale
    rw [F16negativeSign_eq x (by omega) hhi]
    simp [hlo]
  obtain ⟨k, hk, e1, e2, e3, e4, e5, e6⟩ := scalePositive_spec 32
    { exponent := 0, round := 0, longValuex100 := x } hlo
    (by show x < 2048 * 2 ^ 32; norm_num; omega) (by show 0 + 32 < 256; omega)
  rw [← hs] at e1 e2 e3 e5 e6
  refine ⟨k, hk, by simpa using e1, e2, ?_, e3, e4, e5, e6⟩
  rw [e2]
  exact Int.ediv_nonneg hlo (by positivity)

/-- The scaling loop of the F16 encoder on a negative `long`. -/
theorem F16scale_neg (x : Int) (hlo : -2147483648 ≤ x) (hhi : x < 0) :
    ∃ k, k ≤ 32 ∧ (F16scale x).exponent = k ∧ (F16scale x).longValuex100 = x / 2 ^ k ∧
      -2048 ≤ (F16scale x).longValuex100 ∧ (F16scale x).longValuex100 < 0 ∧
      (∀ j, j < k → x / 2 ^ j < -2048) ∧
      (k = 0 → (F16scale x).round = 0) ∧
      (0 < k → (F16scale x).round = (x / 2 ^ (k - 1) % 2).toNat) := by
  have hs : F16scale x = scaleNegative 32 { exponent := 0, round := 0, longValuex100 := x } := by
    unfold F16scale
    rw [F16negativeSign_eq x hlo (by omega)]
    simp [hhi]
  obtain ⟨k, hk, e1, e2, e3, e3', e4, e5, e6⟩ := scaleNegative_spec 32
    { exponent := 0, round := 0, longValuex100 := x } hhi
    (by show -(2048 * 2 ^ 32) ≤ x; norm_num; omega) (by show 0 + 32 < 256; omega)
  rw [← hs] at e1 e2 e3 e3' e5 e6
  exact ⟨k, hk, by simpa using e1, e2, e3, e3', e4, e5, e6⟩


theorem ConvertToDptF16_byte1 (x : Int) (buf : Buf) :
    ConvertToDptF16 x buf 1 = toByte (F16rounded x) := by
  unfold ConvertToDptF16 F16rounded
  by_cases h : F16negativeSign x <;> simp [h, Buf.set]

theorem ConvertToDptF16_byte0 (x : Int) (buf : Buf) :
    ConvertToDptF16 x buf 0
      = if F16negativeSign x then
          (((toByte (F16rounded x / 2 ^ 8) &&& 0x7) + ((F16scale x).exponent <<< 3)) % 256 + 0x80)
            % 256
        else ((toByte (F16rounded x / 2 ^ 8) &&& 0x7) + ((F16scale x).exponent <<< 3)) % 256 := by
  unfold ConvertToDptF16 F16rounded
  by_cases h : F16negativeSign x <;> simp [h, Buf.set]

theorem ConvertToDptF16_other (x : Int) (buf : Buf) (j : Nat) (hj : 2 ≤ j) :
    ConvertToDptF16 x buf j = buf j := by
  have h0 : j ≠ 0 := by omega
  have h1 : j ≠ 1 := by omega
  unfold ConvertToDptF16
  by_cases h : F16negativeSign x <;> simp [h, Buf.set, h0, h1]

/-- Bits 3..6 of byte 0 written by the F16 encoder hold the exponent when it is below 16. -/
theorem ConvertToDptF16_exponent_field (x : Int) (buf : Buf) (he : (F16scale x).exponent ≤ 15) :
    ConvertToDptF16 x buf 0 / 2 ^ 3 % 2 ^ 4 = (F16scale x).exponent := by
  rw [ConvertToDptF16_byte0, and_0x07, Nat.shiftLeft_eq]
  have hm : toByte (F16rounded x / 2 ^ 8) % 8 < 8 := Nat.mod_lt _ (by norm_num)
  generalize toByte (F16rounded x / 2 ^ 8) % 8 = m at hm
  generalize (F16scale x).exponent = e at he
  split <;> norm_num <;> omega

theorem ediv_pow_le_of_lt (x : Int) (k : Nat) (h : x < 2048 * 2 ^ k) : x / 2 ^ k ≤ 2047 := by
  have : x / 2 ^ k < 2048 := Int.ediv_lt_of_lt_mul (by positivity) h
  omega

theorem le_ediv_pow_of_le (x : Int) (k : Nat) (h : -(2048 * 2 ^ k) ≤ x) : -2048 ≤ x / 2 ^ k := by
  apply Int.le_ediv_of_mul_le (by positivity)
  linarith

/-- C3: for every 32-bit `longValuex100` between `-2048 * 2 ^ 15` and `2048 * 2 ^ 15 - 1`, the
exponent that the F16 case of `ConvertToDpt` writes into bits 3..6 of byte 0 is the least `e`
such that `floor (x / 2 ^ e)` lies in the signed mantissa range `[-2048, 2047]`. -/
theorem C3_f16_minimal_exponent (x : Int) (buf : Buf)
    (hlo : -(2048 * 2 ^ 15) ≤ x) (hhi : x ≤ 2048 * 2 ^ 15 - 1) :
    (-2048 ≤ x / 2 ^ (ConvertToDptF16 x buf 0 / 2 ^ 3 % 2 ^ 4) ∧
      x / 2 ^ (ConvertToDptF16 x buf 0 / 2 ^ 3 % 2 ^ 4) ≤ 2047) ∧
    ∀ e, e < ConvertToDptF16 x buf 0 / 2 ^ 3 % 2 ^ 4 →
      ¬ (-2048 ≤ x / 2 ^ e ∧ x / 2 ^ e ≤ 2047) := by
  have h15 : x / 2 ^ 15 ≤ 2047 := ediv_pow_le_of_lt x 15 (by omega)
  have h15' : -2048 ≤ x / 2 ^ 15 := le_ediv_pow_of_le x 15 hlo
  norm_num at hlo hhi
  by_cases hx : 0 ≤ x
  · obtain ⟨k, -, e1, e2, e3, e4, e5, -⟩ := F16scale_nonneg x hx (by omega)
    have hk : k ≤ 15 := by
      by_contra hc
      have := e5 15 (by omega)
      omega
    rw [ConvertToDptF16_exponent_field x buf (by omega), e1]
    rw [e2] at e3 e4
    refine ⟨⟨by omega, e4⟩, fun e he hr => ?_⟩
    have := e5 e he
    omega
  · obtain ⟨k, -, e1, e2, e3, e4, e5, -⟩ := F16scale_neg x (by omega) (by omega)
    have hk : k ≤ 15 := by
      by_contra hc
      have := e5 15 (by omega)
      omega
    rw [ConvertToDptF16_exponent_field x buf (by omega), e1]
    rw [e2] at e3 e4
    refine ⟨⟨e3, by omega⟩, fun e he hr => ?_⟩
    have := e5 e he
    omega

theorem C3_f16_minimal_exponent_witness :
    (-2048 ≤ (4095 : Int) / 2 ^ (ConvertToDptF16 4095 (fun _ => 0) 0 / 2 ^ 3 % 2 ^ 4) ∧
      (4095 : Int) / 2 ^ (ConvertToDptF16 4095 (fun _ => 0) 0 / 2 ^ 3 % 2 ^ 4) ≤ 2047) ∧
    ∀ e, e < ConvertToDptF16 4095 (fun _ => 0) 0 / 2 ^ 3 % 2 ^ 4 →
      ¬ (-2048 ≤ (4095 : Int) / 2 ^ e ∧ (4095 : Int) / 2 ^ e ≤ 2047) :=
  C3_f16_minimal_exponent 4095 (fun _ => 0) (by norm_num) (by norm_num)

/-! ## Round trip of the F16 format away from the mantissa overflow -/

theorem toByte_and_0x7 (y : Int) : toByte (y / 2 ^ 8) &&& 0x7 = (y / 256 % 8).toNat := by
  rw [and_0x07]
  unfold toByte
  norm_num
  omega

theorem ediv_ediv_pos (x a b : Int) (ha : 0 < a) (hb : 0 < b) : x / a / b = x / (a * b) := by
  have hab : 0 < a * b := Int.mul_pos ha hb
  have h1 := Int.emod_add_ediv x (a * b)
  have h2 := Int.emod_nonneg x (ne_of_gt hab)
  have h3 := Int.emod_lt_of_pos x hab
  generalize x % (a * b) = r at h1 h2 h3
  generalize x / (a * b) = q at h1
  have h1' : x = r + a * (b * q) := by rw [← h1]; ring
  have h4 : r / a < b := Int.ediv_lt_of_lt_mul ha (by rw [mul_comm]; exact h3)
  have h5 : 0 ≤ r / a := Int.ediv_nonneg h2 (le_of_lt ha)
  rw [h1', Int.add_mul_ediv_left _ _ (ne_of_gt ha), Int.add_mul_ediv_left _ _ (ne_of_gt hb),
    Int.ediv_eq_zero_of_lt h5 h4]
  simp

theorem ediv_pow_pred_ediv_two (x : Int) (k : Nat) (hk : 0 < k) :
    x / 2 ^ (k - 1) / 2 = x / 2 ^ k := by
  rw [ediv_ediv_pos _ _ _ (by positivity) (by norm_num), ← pow_succ]
  congr 2
  omega

/-- The value that the F16 encoder stores after rounding, for a `long` in the range of
exponents up to 15: the scaled value plus `round`, between -2048 and 2048. -/
theorem F16rounded_range (x : Int) (hlo : -(2048 * 2 ^ 15) ≤ x) (hhi : x ≤ 2048 * 2 ^ 15 - 1) :
    (F16scale x).exponent ≤ 15 ∧
    (F16rounded x = x / 2 ^ (F16scale x).exponent ∨
      F16rounded x = x / 2 ^ (F16scale x).exponent + 1) ∧
    (0 ≤ x → 0 ≤ F16rounded x ∧ F16rounded x ≤ 2048) ∧
    (x < 0 → -2048 ≤ F16rounded x ∧ F16rounded x < 0) := by
  have h15 : x / 2 ^ 15 ≤ 2047 := ediv_pow_le_of_lt x 15 (by omega)
  have h15' : -2048 ≤ x / 2 ^ 15 := le_ediv_pow_of_le x 15 hlo
  norm_num at hlo hhi
  unfold F16rounded
  by_cases hx : 0 ≤ x
  · obtain ⟨k, -, e1, e2, e3, e4, e5, e6, e7⟩ := F16scale_nonneg x hx (by omega)
    have hk : k ≤ 15 := by
      by_contra hc
      have := e5 15 (by omega)
      omega
    rw [e1, e2] at *
    refine ⟨hk, ?_, fun _ => ?_, fun h => absurd hx (by omega)⟩
    · split
      · right
        rw [wrapS32_of_range _ (by omega) (by omega)]
      · left; rfl
    · split
      · rw [wrapS32_of_range _ (by omega) (by omega)]
        omega
      · omega
  · obtain ⟨k, -, e1, e2, e3, e4, e5, e6, e7⟩ := F16scale_neg x (by omega) (by omega)
    have hk : k ≤ 15 := by
      by_contra hc
      have := e5 15 (by omega)
      omega
    rw [e1, e2] at *
    refine ⟨hk, ?_, fun h => absurd h hx, fun _ => ?_⟩
    · split
      · right
        rw [wrapS32_of_range _ (by omega) (by omega)]
      · left; rfl
    · split
      · rename_i hr
        rw [wrapS32_of_range _ (by omega) (by omega)]
        have hk0 : 0 < k := by
          by_contra hc
          exact hr (e6 (by omega))
        have hprev := e5 (k - 1) (by omega)
        have hdiv := ediv_pow_pred_ediv_two x k hk0
        omega
      · omega

/-- Decoding what the F16 encoder wrote gives back the stored mantissa times the power of two,
provided the rounding did not take the mantissa to 2048. -/
theorem F16scaled_ConvertToDptF16 (x : Int) (buf : Buf)
    (hlo : -(2048 * 2 ^ 15) ≤ x) (hhi : x ≤ 2048 * 2 ^ 15 - 1) (hno : F16rounded x ≠ 2048) :
    F16scaled (ConvertToDptF16 x buf) = F16rounded x * 2 ^ (F16scale x).exponent := by
  obtain ⟨hk, -, hp, hn⟩ := F16rounded_range x hlo hhi
  norm_num at hlo hhi
  have hb1 := ConvertToDptF16_byte1 x buf
  have hb0 := ConvertToDptF16_byte0 x buf
  rw [F16negativeSign_eq x (by omega) (by omega), toByte_and_0x7, Nat.shiftLeft_eq] at hb0
  unfold toByte at hb1
  generalize (F16scale x).exponent = k at hk hb0 ⊢
  generalize F16rounded x = y at hno hp hn hb0 hb1 ⊢
  by_cases hx : 0 ≤ x
  · have hy := hp hx
    have hd0 : ConvertToDptF16 x buf 0 = (y / 256 % 8).toNat + k * 8 := by
      rw [hb0]
      simp only [show ¬ x < 0 by omega, decide_False, Bool.false_eq_true, if_false]
      norm_num
      omega
    rw [F16scaled_eq _ (by omega) (by omega)]
    generalize ConvertToDptF16 x buf 0 = d0 at hd0 ⊢
    generalize ConvertToDptF16 x buf 1 = d1 at hb1 ⊢
    have hE : d0 / 8 % 16 = k := by omega
    have hM : (if 128 ≤ d0 then ((d0 % 8 * 256 + d1 : Nat) : Int) - 2048
        else ((d0 % 8 * 256 + d1 : Nat) : Int)) = y := by
      split <;> omega
    rw [hE, hM]
  · have hy := hn (by omega)
    have hd0 : ConvertToDptF16 x buf 0 = (y / 256 % 8).toNat + k * 8 + 128 := by
      rw [hb0]
      simp only [show x < 0 by omega, decide_True, if_true]
      norm_num
      omega
    rw [F16scaled_eq _ (by omega) (by omega)]
    generalize ConvertToDptF16 x buf 0 = d0 at hd0 ⊢
    generalize ConvertToDptF16 x buf 1 = d1 at hb1 ⊢
    have hE : d0 / 8 % 16 = k := by omega
    have hM : (if 128 ≤ d0 then ((d0 % 8 * 256 + d1 : Nat) : Int) - 2048
        else ((d0 % 8 * 256 + d1 : Nat) : Int)) = y := by
      split <;> omega
    rw [hE, hM]

/-- Round trip of the F16 format on the scaled integers: for a hundredfold value in the range
of exponents up to 15 whose rounded mantissa is not 2048, the integer that the decoder
multiplies by `0.01` differs from the hundredfold value by at most `2 ^ e`, where `e` is the
exponent written. -/
theorem F16_roundtrip_bound (x : Int) (buf : Buf)
    (hlo : -(2048 * 2 ^ 15) ≤ x) (hhi : x ≤ 2048 * 2 ^ 15 - 1) (hno : F16rounded x ≠ 2048) :
    |F16scaled (ConvertToDptF16 x buf) - x| ≤ 2 ^ (F16scale x).exponent := by
  rw [F16scaled_ConvertToDptF16 x buf hlo hhi hno]
  obtain ⟨-, hy, -, -⟩ := F16rounded_range x hlo hhi
  have h1 := Int.emod_add_ediv x (2 ^ (F16scale x).exponent)
  have h2 := Int.emod_nonneg x (show (2 : Int) ^ (F16scale x).exponent ≠ 0 by positivity)
  have h3 := Int.emod_lt_of_pos x (show (0 : Int) < 2 ^ (F16scale x).exponent by positivity)
  generalize x % 2 ^ (F16scale x).exponent = r at h1 h2 h3
  generalize x / 2 ^ (F16scale x).exponent = q at h1 hy
  generalize (2 : Int) ^ (F16scale x).exponent = P at h1 h3 ⊢
  rw [abs_le]
  rcases hy with hy | hy <;> rw [hy] <;> constructor <;> nlinarith

theorem truncQ_4095 : truncQ (100 * (4095 / 100 : ℚ)) = 4095 := by
  norm_num [truncQ]

/-- C2 (the code departs from the claim): the round-trip error of the F16 format is not
bounded by `0.01 * 2 ^ e`. For `V = 40.95` (hundredfold 4095) the encoder halves once
(exponent 1, mantissa 2047, `round` set) and the increment takes the mantissa to 2048, whose
low eleven bits are zero: the bytes written are `0x08 0x00` and decode to `0`. The same happens
in the `long` instantiation for `V = 2621` (hundredfold 262100, exponent 7). -/
theorem C2_f16_round_overflow (t : Target) :
    (ConvertToDptReal t (4095 / 100) (fun _ => 0) KNX_DPT_FORMAT_F16).1 = some KNX_DEVICE_OK ∧
    (ConvertToDptReal t (4095 / 100) (fun _ => 0) KNX_DPT_FORMAT_F16).2 0 = 0x08 ∧
    (ConvertToDptReal t (4095 / 100) (fun _ => 0) KNX_DPT_FORMAT_F16).2 1 = 0x00 ∧
    ConvertFromDptReal t (ConvertToDptReal t (4095 / 100) (fun _ => 0) KNX_DPT_FORMAT_F16).2 7
      KNX_DPT_FORMAT_F16 = (some KNX_DEVICE_OK, 0) ∧
    ¬ (|(ConvertFromDptReal t
          (ConvertToDptReal t (4095 / 100) (fun _ => 0) KNX_DPT_FORMAT_F16).2 7
          KNX_DPT_FORMAT_F16).2 - 4095 / 100|
        ≤ (1 / 100 : ℚ) * 2 ^ ((ConvertToDptReal t (4095 / 100) (fun _ => 0)
            KNX_DPT_FORMAT_F16).2 0 / 2 ^ 3 % 2 ^ 4)) ∧
    (ConvertToDpt t 2621 (fun _ => 0) KNX_DPT_FORMAT_F16).2 0 = 0x38 ∧
    (ConvertToDpt t 2621 (fun _ => 0) KNX_DPT_FORMAT_F16).2 1 = 0x00 ∧
    ConvertFromDpt t ⟨32, true⟩ (ConvertToDpt t 2621 (fun _ => 0) KNX_DPT_FORMAT_F16).2 7
      KNX_DPT_FORMAT_F16 = (some KNX_DEVICE_OK, 0) := by
  have e : (ConvertToDptReal t (4095 / 100) (fun _ => 0) KNX_DPT_FORMAT_F16).2
      = ConvertToDptF16 (wrapS 32 4095) (fun _ => 0) := by
    simp only [ConvertToDptReal, truncQ_4095]
  have b0 : ConvertToDptF16 (wrapS 32 4095) (fun _ => 0) 0 = 0x08 := by decide
  have b1 : ConvertToDptF16 (wrapS 32 4095) (fun _ => 0) 1 = 0x00 := by decide
  have sc : F16scaled (ConvertToDptF16 (wrapS 32 4095) (fun _ => 0)) = 0 := by decide
  have dec : ConvertFromDptReal t (ConvertToDptF16 (wrapS 32 4095) (fun _ => 0)) 7
      KNX_DPT_FORMAT_F16 = (some KNX_DEVICE_OK, 0) := by
    simp only [ConvertFromDptReal, sc]
    norm_num
  rw [e, dec, b0]
  refine ⟨rfl, b0, b1, rfl, ?_, ?_, ?_, ?_⟩
  · norm_num [abs_of_pos]
  · cases t <;> decide
  · cases t <;> decide
  · cases t <;> decide

/-- C5: for the F32 format both directions return `KNX_DEVICE_NOT_IMPLEMENTED` (254), for
every value and every buffer, in the integral and in the floating instantiations, and leave
the destination buffer, respectively the result variable, as it was. -/
theorem C5_f32_not_implemented (t : Target) (T : CIntType) (V : Int) (Vq : ℚ) (buf : Buf)
    (r : Int) (rq : ℚ) :
    ConvertToDpt t V buf KNX_DPT_FORMAT_F32 = (some KNX_DEVICE_NOT_IMPLEMENTED, buf) ∧
    ConvertToDptReal t Vq buf KNX_DPT_FORMAT_F32 = (some KNX_DEVICE_NOT_IMPLEMENTED, buf) ∧
    ConvertFromDpt t T buf r KNX_DPT_FORMAT_F32 = (some KNX_DEVICE_NOT_IMPLEMENTED, r) ∧
    ConvertFromDptReal t buf rq KNX_DPT_FORMAT_F32 = (some KNX_DEVICE_NOT_IMPLEMENTED, rq) ∧
    KNX_DEVICE_NOT_IMPLEMENTED.code = 254 :=
  ⟨rfl, rfl, rfl, rfl, rfl⟩

/-- C6: `ConvertToDpt` writes integers big-endian. For the formats U16 and V16 and every
value `V`, byte 0 is bits 15..8 of `V` and byte 1 is bits 7..0; for the formats U32 and V32,
byte `k` is bits `31 - 8k .. 24 - 8k` of `V`. Bits are those of the two's-complement
representation: bits `8j + 7 .. 8j` of `V` are `V / 2 ^ (8 j) % 2 ^ 8`. -/
theorem C6_big_endian (t : Target) (V : Int) (buf : Buf) :
    ((ConvertToDpt t V buf KNX_DPT_FORMAT_U16).2 0 = (V / 2 ^ 8 % 2 ^ 8).toNat ∧
      (ConvertToDpt t V buf KNX_DPT_FORMAT_U16).2 1 = (V % 2 ^ 8).toNat) ∧
    ((ConvertToDpt t V buf KNX_DPT_FORMAT_V16).2 0 = (V / 2 ^ 8 % 2 ^ 8).toNat ∧
      (ConvertToDpt t V buf KNX_DPT_FORMAT_V16).2 1 = (V % 2 ^ 8).toNat) ∧
    ((ConvertToDpt t V buf KNX_DPT_FORMAT_U32).2 0 = (V / 2 ^ 24 % 2 ^ 8).toNat ∧
      (ConvertToDpt t V buf KNX_DPT_FORMAT_U32).2 1 = (V / 2 ^ 16 % 2 ^ 8).toNat ∧
      (ConvertToDpt t V buf KNX_DPT_FORMAT_U32).2 2 = (V / 2 ^ 8 % 2 ^ 8).toNat ∧
      (ConvertToDpt t V buf KNX_DPT_FORMAT_U32).2 3 = (V % 2 ^ 8).toNat) ∧
    ((ConvertToDpt t V buf KNX_DPT_FORMAT_V32).2 0 = (V / 2 ^ 24 % 2 ^ 8).toNat ∧
      (ConvertToDpt t V buf KNX_DPT_FORMAT_V32).2 1 = (V / 2 ^ 16 % 2 ^ 8).toNat ∧
      (ConvertToDpt t V buf KNX_DPT_FORMAT_V32).2 2 = (V / 2 ^ 8 % 2 ^ 8).toNat ∧
      (ConvertToDpt t V buf KNX_DPT_FORMAT_V32).2 3 = (V % 2 ^ 8).toNat) := by
  obtain ⟨-, a0, a1, -⟩ := ConvertToDpt_int16 t V buf KNX_DPT_FORMAT_U16 (Or.inl rfl)
  obtain ⟨-, b0, b1, -⟩ := ConvertToDpt_int16 t V buf KNX_DPT_FORMAT_V16 (Or.inr rfl)
  obtain ⟨-, c0, c1, c2, c3, -⟩ := ConvertToDpt_int32 t V buf KNX_DPT_FORMAT_U32 (Or.inl rfl)
  obtain ⟨-, d0, d1, d2, d3, -⟩ := ConvertToDpt_int32 t V buf KNX_DPT_FORMAT_V32 (Or.inr rfl)
  exact ⟨⟨a0, a1⟩, ⟨b0, b1⟩, ⟨c0, c1, c2, c3⟩, ⟨d0, d1, d2, d3⟩⟩

/-! ## The init scan -/

/-- The scan loop stops at the first object at or after the start index that is not valid, or
at the end of the table; enough iterations are allowed for that. -/
theorem initScan_spec (objs : Nat → KnxComObject) (n : Nat) (hn : n < 256) (fuel idx : Nat)
    (hidx : idx ≤ n) (hfuel : n - idx ≤ fuel) :
    idx ≤ initScan objs n fuel idx ∧ initScan objs n fuel idx ≤ n ∧
      (∀ k, idx ≤ k → k < initScan objs n fuel idx → (objs k).validity = true) ∧
      (initScan objs n fuel idx < n → (objs (initScan objs n fuel idx)).validity = false) := by
  induction fuel generalizing idx with
  | zero =>
    have : idx = n := by omega
    subst this
    refine ⟨le_refl _, le_refl _, fun k h1 h2 => ?_, fun h => ?_⟩
    · simp only [initScan] at h2; omega
    · simp only [initScan] at h; omega
  | succ fuel ih =>
    by_cases hc : idx < n ∧ (objs idx).validity = true
    · have hmod : (idx + 1) % 256 = idx + 1 := by omega
      have hstep : initScan objs n (fuel + 1) idx = initScan objs n fuel (idx + 1) := by
        simp only [initScan, hc, and_self, if_true, hmod]
      obtain ⟨h1, h2, h3, h4⟩ := ih (idx + 1) (by omega) (by omega)
      rw [hstep]
      refine ⟨by omega, h2, fun k hk1 hk2 => ?_, h4⟩
      by_cases hk : k = idx
      · subst hk; exact hc.2
      · exact h3 k (by omega) hk2
    · have hstep : initScan objs n (fuel + 1) idx = idx := by
        simp only [initScan, hc, if_false]
      rw [hstep]
      refine ⟨le_refl _, hidx, fun k hk1 hk2 => by omega, fun h => ?_⟩
      cases hv : (objs idx).validity
      · rfl
      · exact absurd ⟨h, hv⟩ hc

/-- The scan does not move from an object that is not valid. -/
theorem initScan_stay (objs : Nat → KnxComObject) (n fuel idx : Nat)
    (h : (objs idx).validity = false) : initScan objs n fuel idx = idx := by
  cases fuel with
  | zero => rfl
  | succ fuel => simp [initScan, h]

/-! ## Step 1 of the tick -/

theorem taskInit_of_request (inp : TaskInput) (s : KonnektingDevice) (a : type_tx_action)
    (h : taskInitRequest inp s = some a) :
    a.command = .KNX_READ_REQUEST ∧
    a.index = initScan s._comObjectsList s._numberOfComObjects 256 s._initIndex ∧
    a.index ≠ s._numberOfComObjects ∧
    s._initCompleted = false ∧
    TimeDeltaWord (inp.millis1 % 65536) s._lastInitTimeMillis > 500 ∧
    taskInit inp s = { s with
      _initIndex := a.index
      _txActionList := s._txActionList.Append a
      _lastInitTimeMillis := inp.millis2 % 65536 } := by
  unfold taskInitRequest at h
  by_cases h1 : s._initCompleted = false ∧
      TimeDeltaWord (inp.millis1 % 65536) s._lastInitTimeMillis > 500
  · rw [if_pos h1] at h
    by_cases h2 : initScan s._comObjectsList s._numberOfComObjects 256 s._initIndex
        = s._numberOfComObjects
    · rw [if_pos h2] at h
      exact absurd h (by simp)
    · rw [if_neg h2] at h
      have ha := Option.some.inj h
      subst ha
      refine ⟨rfl, rfl, h2, h1.1, h1.2, ?_⟩
      simp only [taskInit, h1.1, h1.2, if_true, h2, if_false]
  · rw [if_neg h1] at h
    exact absurd h (by simp)

theorem taskInit_of_no_request (inp : TaskInput) (s : KonnektingDevice)
    (h : taskInitRequest inp s = none) :
    (taskInit inp s)._txActionList = s._txActionList ∧
    (taskInit inp s)._lastInitTimeMillis = s._lastInitTimeMillis := by
  unfold taskInitRequest at h
  by_cases h0 : s._initCompleted = false
  · by_cases h1 : TimeDeltaWord (inp.millis1 % 65536) s._lastInitTimeMillis > 500
    · rw [if_pos ⟨h0, h1⟩] at h
      by_cases h2 : initScan s._comObjectsList s._numberOfComObjects 256 s._initIndex
          = s._numberOfComObjects
      · simp [taskInit, h0, h1, h2]
      · rw [if_neg h2] at h
        exact absurd h (by simp)
    · simp [taskInit, h0, h1]
  · simp [taskInit, h0]

theorem taskInit_throttled (inp : TaskInput) (s : KonnektingDevice)
    (h : TimeDeltaWord (inp.millis1 % 65536) s._lastInitTimeMillis ≤ 500) :
    taskInit inp s = s := by
  have h1 : ¬ TimeDeltaWord (inp.millis1 % 65536) s._lastInitTimeMillis > 500 := by omega
  unfold taskInit
  split
  · simp only [h1, if_false]
  · rfl

theorem drop_length_append (q : List type_tx_action) (a : type_tx_action) :
    (ActionRingBuffer.Append q a).drop q.length
      = if q.length < ACTIONS_QUEUE_SIZE then [a] else [] := by
  unfold ActionRingBuffer.Append
  split <;> simp

theorem enqueuedBy_taskInit (inp : TaskInput) (s : KonnektingDevice) :
    enqueuedBy (taskInit inp) s
      = match taskInitRequest inp s with
        | some a => if s._txActionList.length < ACTIONS_QUEUE_SIZE then [a] else []
        | none => [] := by
  unfold enqueuedBy
  cases h : taskInitRequest inp s with
  | none => simp [(taskInit_of_no_request inp s h).1]
  | some a =>
    obtain ⟨-, -, -, -, -, e⟩ := taskInit_of_request inp s a h
    rw [e]
    exact drop_length_append _ _

/-! ## Steps 2 to 4 of the tick -/

theorem taskTxDispatch_not_idle (c : Indicators) (d : KonnektingDevice)
    (h : d._state ≠ .IDLE) : taskTxDispatch c d = d := by
  unfold taskTxDispatch
  rw [if_neg h]

theorem taskTxDispatch_lastInit (c : Indicators) (d : KonnektingDevice) :
    (taskTxDispatch c d)._lastInitTimeMillis = d._lastInitTimeMillis := by
  unfold taskTxDispatch
  split
  · split
    · split
      · rfl
      · rfl
      · dsimp only
        split <;> split <;> rfl
    · rfl
  · rfl

theorem taskRx_lastInit (inp : TaskInput) (d : KonnektingDevice)
    (h : KeepsInitTimer inp.RXTask) :
    (taskRx inp d)._lastInitTimeMillis = d._lastInitTimeMillis := by
  unfold taskRx
  dsimp only
  split
  · rw [h]
  · rfl

theorem taskTxPacing_lastInit (inp : TaskInput) (d : KonnektingDevice)
    (h : KeepsInitTimer inp.TXTask) :
    (taskTxPacing inp d)._lastInitTimeMillis = d._lastInitTimeMillis := by
  unfold taskTxPacing
  dsimp only
  split
  · rw [h]
  · rfl

theorem task_lastInit (c : Indicators) (inp : TaskInput) (s : KonnektingDevice)
    (hrx : KeepsInitTimer inp.RXTask) (htx : KeepsInitTimer inp.TXTask) :
    (s.task c inp)._lastInitTimeMillis = (taskInit inp s)._lastInitTimeMillis := by
  unfold KonnektingDevice.task
  rw [taskTxPacing_lastInit inp _ htx, taskTxDispatch_lastInit, taskRx_lastInit inp _ hrx]

theorem runSteps_quiet_lastInit (c : Indicators) (steps : List Step) (s : KonnektingDevice)
    (h : QuietRun c steps s) :
    (runSteps c steps s)._lastInitTimeMillis = s._lastInitTimeMillis := by
  induction steps generalizing s with
  | nil => rfl
  | cons st rest ih =>
    cases st with
    | tick inp =>
      obtain ⟨h1, h2, h3, h4⟩ := h
      show (runSteps c rest (s.task c inp))._lastInitTimeMillis = _
      rw [ih _ h4, task_lastInit c inp s h2 h3, (taskInit_of_no_request inp s h1).2]
    | external f =>
      obtain ⟨h1, h2⟩ := h
      show (runSteps c rest (f s))._lastInitTimeMillis = _
      rw [ih _ h2, h1]

/-- C7: an action is removed from the action queue only if the state is `IDLE` when the
transmit-dispatch step of the tick is reached. In every tick whose state at that step is not
`IDLE` (so `TX_ONGOING` or `INIT`), the step changes nothing: no action is popped, no telegram
is handed to the transceiver, the state stays; the tick continues with the pacing step. -/
theorem C7_dispatch_requires_idle (c : Indicators) (inp : TaskInput) (s : KonnektingDevice)
    (h : (taskRx inp (taskInit inp s))._state ≠ .IDLE) :
    taskTxDispatch c (taskRx inp (taskInit inp s)) = taskRx inp (taskInit inp s) ∧
    (taskTxDispatch c (taskRx inp (taskInit inp s)))._txActionList
      = (taskRx inp (taskInit inp s))._txActionList ∧
    (taskTxDispatch c (taskRx inp (taskInit inp s))).sent = (taskRx inp (taskInit inp s)).sent ∧
    (taskTxDispatch c (taskRx inp (taskInit inp s)))._state
      = (taskRx inp (taskInit inp s))._state ∧
    s.task c inp = taskTxPacing inp (taskRx inp (taskInit inp s)) := by
  have e := taskTxDispatch_not_idle c _ h
  refine ⟨e, by rw [e], by rw [e], by rw [e], ?_⟩
  unfold KonnektingDevice.task
  rw [e]

theorem C7_dispatch_requires_idle_witness :
    (taskRx (sampleTick 100) (taskInit (sampleTick 100)
        { sampleDevice with
          _state := .TX_ONGOING, _txActionList := [⟨.KNX_READ_REQUEST, 0, 0, []⟩] }))._state
      ≠ .IDLE ∧
    (taskTxDispatch sampleIndicators (taskRx (sampleTick 100) (taskInit (sampleTick 100)
        { sampleDevice with
          _state := .TX_ONGOING, _txActionList := [⟨.KNX_READ_REQUEST, 0, 0, []⟩] })))._txActionList
      = (taskRx (sampleTick 100) (taskInit (sampleTick 100)
        { sampleDevice with
          _state := .TX_ONGOING,
          _txActionList := [⟨.KNX_READ_REQUEST, 0, 0, []⟩] }))._txActionList :=
  ⟨by decide, (C7_dispatch_requires_idle sampleIndicators (sampleTick 100)
    { sampleDevice with
      _state := .TX_ONGOING, _txActionList := [⟨.KNX_READ_REQUEST, 0, 0, []⟩] } (by decide)).2.1⟩

/-- C8 (as stated, refuted): a run in which the init scan enqueues two read requests for the
same object. The device has one object that lacks validity. A tick at 501 ms enqueues a read
request for object 0 and sends it; the transmission is acknowledged; no response arrives; the
tick at 1002 ms enqueues a read request for object 0 again, and a second read telegram goes
to the transceiver. -/
theorem C8_second_request_for_same_object :
    sampleDevice._initCompleted = false ∧
    (sampleDevice._comObjectsList 0).validity = false ∧
    initReadRequests sampleIndicators
      [.tick (sampleTick 501), .external (fun s => s.TxTelegramAck .ACK_RESPONSE),
        .tick (sampleTick 1002)] sampleDevice = [0, 0] ∧
    ((runSteps sampleIndicators
      [.tick (sampleTick 501), .external (fun s => s.TxTelegramAck .ACK_RESPONSE),
        .tick (sampleTick 1002)] sampleDevice).sent.map (fun t => (t.command, t.targetAddress)))
      = [(.KNX_COMMAND_VALUE_READ, 0x0A01), (.KNX_COMMAND_VALUE_READ, 0x0A01)] := by
  decide

/-- C8 (amended): in every tick the init scan enqueues at most one action, a read request, and
only for an object that lacks validity at that tick: the first such object at or after
`_initIndex`, where `_initIndex` then stays. It is not once per object: in a later tick of the
init phase whose throttle has elapsed, an object at `_initIndex` that still lacks validity is
requested again, and enqueued again unless the queue is full. -/
theorem C8_init_scan_requests (inp : TaskInput) (s : KonnektingDevice)
    (hn : s._numberOfComObjects < 256) (hi : s._initIndex ≤ s._numberOfComObjects) :
    (∀ a, a ∈ enqueuedBy (taskInit inp) s →
      enqueuedBy (taskInit inp) s = [a] ∧
      a.command = .KNX_READ_REQUEST ∧
      a.index < s._numberOfComObjects ∧
      (s._comObjectsList a.index).validity = false ∧
      (∀ k, s._initIndex ≤ k → k < a.index → (s._comObjectsList k).validity = true) ∧
      (taskInit inp s)._initIndex = a.index) ∧
    (s._initCompleted = false →
      500 < TimeDeltaWord (inp.millis1 % 65536) s._lastInitTimeMillis →
      s._initIndex < s._numberOfComObjects →
      (s._comObjectsList s._initIndex).validity = false →
      (taskInit inp s)._initIndex = s._initIndex ∧
      (taskInit inp s)._txActionList = s._txActionList.Append
        { inp.action with command := .KNX_READ_REQUEST, index := s._initIndex } ∧
      (s._txActionList.length < ACTIONS_QUEUE_SIZE →
        enqueuedBy (taskInit inp) s
          = [{ inp.action with command := .KNX_READ_REQUEST, index := s._initIndex }])) := by
  constructor
  · intro a ha
    rw [enqueuedBy_taskInit] at ha ⊢
    cases hr : taskInitRequest inp s with
    | none => rw [hr] at ha; exact absurd ha (by simp)
    | some b =>
      rw [hr] at ha
      dsimp only at ha ⊢
      by_cases hq : s._txActionList.length < ACTIONS_QUEUE_SIZE
      · rw [if_pos hq] at ha ⊢
        have hab : a = b := by simpa using ha
        subst hab
        obtain ⟨h1, h2, h3, -, -, h6⟩ := taskInit_of_request inp s a hr
        obtain ⟨s1, s2, s3, s4⟩ := initScan_spec s._comObjectsList s._numberOfComObjects hn 256
          s._initIndex hi (by omega)
        rw [← h2] at s1 s2 s3 s4
        have hlt : a.index < s._numberOfComObjects := by omega
        refine ⟨rfl, h1, hlt, s4 hlt, s3, ?_⟩
        rw [h6]
      · rw [if_neg hq] at ha
        exact absurd ha (by simp)
  · intro h0 h1 h2 h3
    have hscan := initScan_stay s._comObjectsList s._numberOfComObjects 256 s._initIndex h3
    have hne : s._initIndex ≠ s._numberOfComObjects := by omega
    have hr : taskInitRequest inp s
        = some { inp.action with command := .KNX_READ_REQUEST, index := s._initIndex } := by
      unfold taskInitRequest
      rw [if_pos ⟨h0, h1⟩, hscan, if_neg hne]
    obtain ⟨-, -, -, -, -, h6⟩ := taskInit_of_request inp s _ hr
    refine ⟨by rw [h6], by rw [h6], fun hq => ?_⟩
    rw [enqueuedBy_taskInit, hr]
    dsimp only
    rw [if_pos hq]

theorem C8_init_scan_requests_witness :
    sampleDevice._numberOfComObjects < 256 ∧
    sampleDevice._initIndex ≤ sampleDevice._numberOfComObjects ∧
    (taskInit (sampleTick 1002) sampleDevice)._initIndex = sampleDevice._initIndex :=
  ⟨by decide, by decide,
    ((C8_init_scan_requests (sampleTick 1002) sampleDevice (by decide) (by decide)).2
      (by decide) (by decide) (by decide) (by decide)).1⟩

theorem taskInit_lastInit_cases (inp : TaskInput) (s : KonnektingDevice) :
    (taskInit inp s)._lastInitTimeMillis = s._lastInitTimeMillis ∨
      (taskInit inp s)._lastInitTimeMillis = inp.millis2 % 65536 := by
  cases hr : taskInitRequest inp s with
  | none => exact Or.inl (taskInit_of_no_request inp s hr).2
  | some a =>
    obtain ⟨-, -, -, -, -, h6⟩ := taskInit_of_request inp s a hr
    right
    rw [h6]

/-- Along a run with a clock that does not run backwards, `_lastInitTimeMillis` holds the low
16 bits of a reading taken no earlier than a given one and no later than the last one. -/
theorem runSteps_stamp (c : Indicators) (steps : List Step) (s : KonnektingDevice)
    (lo now : Nat) (hm : MonotoneRun now steps)
    (hs : ∃ t, lo ≤ t ∧ t ≤ now ∧ s._lastInitTimeMillis = t % 65536) :
    ∃ t, lo ≤ t ∧ t ≤ clockAfter now steps ∧
      (runSteps c steps s)._lastInitTimeMillis = t % 65536 := by
  induction steps generalizing s now with
  | nil => exact hs
  | cons st rest ih =>
    obtain ⟨t, h1, h2, h3⟩ := hs
    cases st with
    | tick inp =>
      obtain ⟨m1, m2, m3, m4, m5⟩ := hm
      apply ih (s.task c inp) inp.millis2 m5
      rw [task_lastInit c inp s m3 m4]
      rcases taskInit_lastInit_cases inp s with e | e
      · exact ⟨t, h1, by omega, by rw [e, h3]⟩
      · exact ⟨inp.millis2, by omega, le_refl _, e⟩
    | external f =>
      obtain ⟨m1, m2⟩ := hm
      apply ih (f s) now m2
      exact ⟨t, h1, h2, by rw [m1, h3]⟩

theorem lt_of_TimeDeltaWord (b t : Nat) (h : t ≤ b)
    (hd : 500 < TimeDeltaWord (b % 65536) (t % 65536)) : t + 500 < b := by
  unfold TimeDeltaWord at hd
  omega

/-- C9: the throttle of the init scan. In a tick with init not complete: if
`TimeDeltaWord(now, _lastInitTimeMillis) <= 500`, step 1 changes nothing (nothing is
enqueued; `_initIndex`, `_initCompleted` and `_lastInitTimeMillis` keep their values);
otherwise it enqueues at most one action, a read request, and when it enqueues one
`_lastInitTimeMillis` is the current time afterwards. Hence read requests of the init scan
are more than 500 ms apart. On the 16-bit millisecond counter: for two consecutive requests,
over every run in between in which the scan issues no request and nothing else writes the
timer, the reading of the tick of the second request differs from the stamp of the first by
more than 500 in wrap-around arithmetic. In elapsed time: for any two requests of a run whose
clock does not run backwards, the reading at the later request is more than 500 after the
stamp of the earlier one. (When init is complete step 1 does nothing at all, so the first two
statements need no assumption on `_initCompleted`.) -/
theorem C9_init_throttle (c : Indicators) (inp : TaskInput) (s : KonnektingDevice) :
    (TimeDeltaWord (inp.millis1 % 65536) s._lastInitTimeMillis ≤ 500 →
      taskInit inp s = s ∧ enqueuedBy (taskInit inp) s = []) ∧
    (500 < TimeDeltaWord (inp.millis1 % 65536) s._lastInitTimeMillis →
      (enqueuedBy (taskInit inp) s).length ≤ 1 ∧
      ∀ a, a ∈ enqueuedBy (taskInit inp) s →
        a.command = .KNX_READ_REQUEST ∧
        (taskInit inp s)._lastInitTimeMillis = inp.millis2 % 65536) ∧
    (∀ (mid : List Step) (next : TaskInput),
      taskInitRequest inp s ≠ none →
      KeepsInitTimer inp.RXTask → KeepsInitTimer inp.TXTask →
      QuietRun c mid (s.task c inp) →
      taskInitRequest next (runSteps c mid (s.task c inp)) ≠ none →
      500 < TimeDeltaWord (next.millis1 % 65536) (inp.millis2 % 65536)) ∧
    (∀ (mid : List Step) (next : TaskInput),
      taskInitRequest inp s ≠ none →
      KeepsInitTimer inp.RXTask → KeepsInitTimer inp.TXTask →
      MonotoneRun inp.millis2 mid → clockAfter inp.millis2 mid ≤ next.millis1 →
      taskInitRequest next (runSteps c mid (s.task c inp)) ≠ none →
      inp.millis2 + 500 < next.millis1) := by
  refine ⟨fun h => ?_, fun _ => ?_, fun mid next hA hrx htx hq hB => ?_,
    fun mid next hA hrx htx hm hclk hB => ?_⟩
  · have e := taskInit_throttled inp s h
    refine ⟨e, ?_⟩
    unfold enqueuedBy
    rw [e]
    simp
  · rw [enqueuedBy_taskInit]
    cases hr : taskInitRequest inp s with
    | none => simp
    | some a =>
      obtain ⟨h1, -, -, -, -, h6⟩ := taskInit_of_request inp s a hr
      dsimp only
      constructor
      · split <;> simp
      · intro b hb
        have hab : b = a := by
          split at hb
          · simpa using hb
          · exact absurd hb (by simp)
        subst hab
        exact ⟨h1, by rw [h6]⟩
  · obtain ⟨a, ha⟩ := Option.ne_none_iff_exists'.mp hA
    obtain ⟨b, hb⟩ := Option.ne_none_iff_exists'.mp hB
    obtain ⟨-, -, -, -, -, h6⟩ := taskInit_of_request inp s a ha
    obtain ⟨-, -, -, -, hd, -⟩ := taskInit_of_request next _ b hb
    rw [runSteps_quiet_lastInit c mid _ hq, task_lastInit c inp s hrx htx, h6] at hd
    exact hd
  · obtain ⟨a, ha⟩ := Option.ne_none_iff_exists'.mp hA
    obtain ⟨b, hb⟩ := Option.ne_none_iff_exists'.mp hB
    obtain ⟨-, -, -, -, -, h6⟩ := taskInit_of_request inp s a ha
    obtain ⟨-, -, -, -, hd, -⟩ := taskInit_of_request next _ b hb
    obtain ⟨t, t1, t2, t3⟩ := runSteps_stamp c mid (s.task c inp) inp.millis2 inp.millis2 hm
      ⟨inp.millis2, le_refl _, le_refl _, by rw [task_lastInit c inp s hrx htx, h6]⟩
    rw [t3] at hd
    have := lt_of_TimeDeltaWord next.millis1 t (by omega) hd
    omega

theorem C9_init_throttle_witness :
    sampleDevice._initCompleted = false ∧
    taskInit (sampleTick 500) sampleDevice = sampleDevice ∧
    500 < TimeDeltaWord ((sampleTick 1002).millis1 % 65536) ((sampleTick 501).millis2 % 65536) ∧
    (sampleTick 501).millis2 + 500 < (sampleTick 66100).millis1 :=
  ⟨rfl,
    ((C9_init_throttle sampleIndicators (sampleTick 500) sampleDevice).1 (by decide)).1,
    (C9_init_throttle sampleIndicators (sampleTick 501) sampleDevice).2.2.1
      [.external (fun s => s.TxTelegramAck .ACK_RESPONSE)] (sampleTick 1002)
      (by decide) (fun _ => rfl) (fun _ => rfl) ⟨fun _ => rfl, trivial⟩ (by decide),
    (C9_init_throttle sampleIndicators (sampleTick 501) sampleDevice).2.2.2
      [.external (fun s => s.TxTelegramAck .ACK_RESPONSE), .tick (sampleTick 40000)]
      (sampleTick 66100) (by decide) (fun _ => rfl) (fun _ => rfl)
      ⟨fun _ => rfl, by decide, by decide, fun _ => rfl, fun _ => rfl, trivial⟩
      (by decide) (by decide)⟩

theorem map_range_getD (l : List Nat) :
    (List.range l.length).map (fun i => l.getD i 0) = l := by
  apply List.ext_getElem
  · simp
  · intro i h1 h2
    simp [List.getD_eq_getElem?_getD, List.getElem?_eq_getElem h2]

/-- C10: when the dispatch step of a tick finds the state `IDLE` and pops a write action for
object `i`, the value of the object afterwards is the payload of the action (the byte for an
object of length at most 2, the bytes of the buffer otherwise), whatever the flags of the
object are. If the transmit indicator of the object is set, one telegram is handed to the
transceiver, a write telegram addressed to the object that carries the new value, and the
state becomes `TX_ONGOING`; if it is not set, no telegram is sent and the state remains
`IDLE`. -/
theorem C10_write_action (c : Indicators) (d : KonnektingDevice) (a : type_tx_action)
    (rest : ActionRingBuffer)
    (hs : d._state = .IDLE) (hp : d._txActionList.Pop = some (a, rest))
    (hc : a.command = .KNX_WRITE_REQUEST)
    (hl : 2 < (d._comObjectsList a.index).length →
      a.valuePtr.length = (d._comObjectsList a.index).value.length) :
    ((taskTxDispatch c d)._comObjectsList a.index).value
      = (if (d._comObjectsList a.index).length ≤ 2 then [a.byteValue] else a.valuePtr) ∧
    (taskTxDispatch c d)._txActionList = rest ∧
    ((d._comObjectsList a.index).indicator &&& c.KNX_COM_OBJ_T_INDICATOR ≠ 0 →
      (taskTxDispatch c d)._state = .TX_ONGOING ∧
      (taskTxDispatch c d).sent = d.sent ++
        [{ command := .KNX_COMMAND_VALUE_WRITE
           targetAddress := (d._comObjectsList a.index).addr
           payloadLength := (d._comObjectsList a.index).length
           payload := ((taskTxDispatch c d)._comObjectsList a.index).value }]) ∧
    ((d._comObjectsList a.index).indicator &&& c.KNX_COM_OBJ_T_INDICATOR = 0 →
      (taskTxDispatch c d)._state = .IDLE ∧ (taskTxDispatch c d).sent = d.sent) := by
  by_cases hlen : (d._comObjectsList a.index).length ≤ 2
  · by_cases ht : (d._comObjectsList a.index).indicator &&& c.KNX_COM_OBJ_T_INDICATOR = 0
    · simp [taskTxDispatch, hs, hp, hc, hlen, ht, setComObject, KnxComObject.UpdateValueByte]
    · simp [taskTxDispatch, hs, hp, hc, hlen, ht, setComObject, KnxComObject.UpdateValueByte,
        KonnektingDevice.SendTelegram, KnxComObject.CopyAttributes, KnxComObject.CopyValue,
        KnxTelegram.SetCommand, KnxTelegram.UpdateChecksum]
  · have hv := hl (by omega)
    have hcopy : (List.range (d._comObjectsList a.index).value.length).map
        (fun i => a.valuePtr.getD i 0) = a.valuePtr := by
      rw [← hv]
      exact map_range_getD _
    simp only [List.getD_eq_getElem?_getD] at hcopy
    by_cases ht : (d._comObjectsList a.index).indicator &&& c.KNX_COM_OBJ_T_INDICATOR = 0
    · simp [taskTxDispatch, hs, hp, hc, hlen, ht, setComObject, KnxComObject.UpdateValuePtr,
        hcopy]
    · simp [taskTxDispatch, hs, hp, hc, hlen, ht, setComObject, KnxComObject.UpdateValuePtr,
        hcopy, KonnektingDevice.SendTelegram, KnxComObject.CopyAttributes,
        KnxComObject.CopyValue, KnxTelegram.SetCommand, KnxTelegram.UpdateChecksum]

theorem C10_write_action_witness :
    ((taskTxDispatch sampleIndicators
        { sampleDevice with _txActionList := [⟨.KNX_WRITE_REQUEST, 0, 0x2A, []⟩] })._comObjectsList
          0).value = [0x2A] ∧
    (taskTxDispatch sampleIndicators
        { sampleDevice with _txActionList := [⟨.KNX_WRITE_REQUEST, 0, 0x2A, []⟩] })._state
      = .TX_ONGOING :=
  ⟨(C10_write_action sampleIndicators
      { sampleDevice with _txActionList := [⟨.KNX_WRITE_REQUEST, 0, 0x2A, []⟩] }
      ⟨.KNX_WRITE_REQUEST, 0, 0x2A, []⟩ [] rfl rfl rfl (by decide)).1,
    ((C10_write_action sampleIndicators
      { sampleDevice with _txActionList := [⟨.KNX_WRITE_REQUEST, 0, 0x2A, []⟩] }
      ⟨.KNX_WRITE_REQUEST, 0, 0x2A, []⟩ [] rfl rfl rfl (by decide)).2.2.1 (by decide)).1⟩

/-! ## Provisioning: replies and dispatch -/

theorem map_range_setList (b : Buf) (l : List Nat) :
    (List.range l.length).map (b.setList 0 l) = l := by
  have h := map_range_getD l
  rw [← h]
  simp only [List.length_map, List.length_range]
  apply List.map_congr_left
  intro i hi
  have hi' : i < l.length := List.mem_range.mp hi
  simp [Buf.setList, hi', h]

/-- What `write(0, response)` does when object 0 holds 14 bytes and `response` has been
assigned a frame of 14 bytes. -/
theorem write_reply (u : Indeterminate) (frame : List Nat) (s : KonnektingDevice)
    (h0 : (s._comObjectsList 0).length = 15) (hf : frame.length = 14) :
    (KonnektingDevice.write u 0 (u.array.setList 0 frame) s).2
      = { s with _txActionList := s._txActionList.Append (KonnektingProg.replyAction u frame) } := by
  have hm : (List.range (15 - 1)).map (u.array.setList 0 frame) = frame := by
    have := map_range_setList u.array frame
    rw [hf] at this
    exact this
  simp only [KonnektingDevice.write, h0, KonnektingProg.replyAction, hm]
  simp

theorem sendAck_eq (c : ProgConsts) (u : Indeterminate) (errorcode indexinformation : Nat)
    (s : KonnektingDevice) (h0 : (s._comObjectsList 0).length = 15) :
    KonnektingProg.sendAck c u errorcode indexinformation s
      = { s with _txActionList := s._txActionList.Append (KonnektingProg.replyAction u
          [c.PROTOCOLVERSION, c.MSGTYPE_ACK, if errorcode = 0x00 then 0x00 else 0xFF, errorcode,
            indexinformation, 0x00, 0x00, 0x00, 0x00, 0x00, 0x00, 0x00, 0x00, 0x00]) } := by
  unfold KonnektingProg.sendAck
  exact write_reply u _ s h0 rfl

/-- C13: `setComObjectAddress(index, addr)` called while the state is not `INIT` returns
`KNX_DEVICE_ERROR` (255) for every index, in range or not, and changes nothing; called in
state `INIT` with `index >= _numberOfComObjects` it returns `KNX_DEVICE_INVALID_INDEX` and
changes nothing; otherwise it returns `KNX_DEVICE_OK`, `getComObjectAddress(index)` is `addr`
afterwards and the address of every other object is as before. -/
theorem C13_setComObjectAddress (index addr : Nat) (s : KonnektingDevice) :
    (s._state ≠ .INIT →
      KonnektingDevice.setComObjectAddress index addr s = (KNX_DEVICE_ERROR, s) ∧
      KNX_DEVICE_ERROR.code = 255) ∧
    (s._state = .INIT → index ≥ s._numberOfComObjects →
      KonnektingDevice.setComObjectAddress index addr s = (KNX_DEVICE_INVALID_INDEX, s)) ∧
    (s._state = .INIT → index < s._numberOfComObjects →
      (KonnektingDevice.setComObjectAddress index addr s).1 = KNX_DEVICE_OK ∧
      (KonnektingDevice.setComObjectAddress index addr s).2.getComObjectAddress index = addr ∧
      ∀ j, j ≠ index →
        (KonnektingDevice.setComObjectAddress index addr s).2.getComObjectAddress j
          = s.getComObjectAddress j) := by
  refine ⟨fun h => ?_, fun h hi => ?_, fun h hi => ?_⟩
  · simp [KonnektingDevice.setComObjectAddress, h, e_KonnektingDeviceStatus.code]
  · simp [KonnektingDevice.setComObjectAddress, h, hi]
  · have hn : ¬ index ≥ s._numberOfComObjects := by omega
    refine ⟨?_, ?_, fun j hj => ?_⟩
    · simp [KonnektingDevice.setComObjectAddress, h, hn]
    · simp [KonnektingDevice.setComObjectAddress, h, hn, KonnektingDevice.getComObjectAddress,
        setComObject, KnxComObject.GetAddr, KnxComObject.SetAddr]
    · simp [KonnektingDevice.setComObjectAddress, h, hn, KonnektingDevice.getComObjectAddress,
        setComObject, hj]

theorem C13_setComObjectAddress_witness :
    sampleDevice._state ≠ .INIT ∧
    KonnektingDevice.setComObjectAddress 0 0x1234 sampleDevice = (KNX_DEVICE_ERROR, sampleDevice) ∧
    ({ sampleDevice with _state := .INIT } : KonnektingDevice)._state = .INIT ∧
    (KonnektingDevice.setComObjectAddress 0 0x1234
      { sampleDevice with _state := .INIT }).2.getComObjectAddress 0 = 0x1234 :=
  ⟨by decide, ((C13_setComObjectAddress 0 0x1234 sampleDevice).1 (by decide)).1, rfl,
    ((C13_setComObjectAddress 0 0x1234 { sampleDevice with _state := .INIT }).2.2 rfl
      (by decide)).2.1⟩

/-- A frame with another protocol version, an ACK, or a frame whose type is none of the
request types leaves the device as it is. -/
theorem handleMsg_dropped (c : ProgConsts) (u : Indeterminate) (buffer : Buf)
    (s : KonnektingDevice)
    (h : buffer 0 ≠ c.PROTOCOLVERSION ∨
      (buffer 0 = c.PROTOCOLVERSION ∧
        (buffer 1 = c.MSGTYPE_ACK ∨ buffer 1 ∉ c.requestTypes))) :
    KonnektingProg.handleMsg c u buffer s = s := by
  rcases h with h | ⟨h0, h | h⟩
  · simp [KonnektingProg.handleMsg, h]
  · simp [KonnektingProg.handleMsg, h0, h]
  · simp only [ProgConsts.requestTypes, ProgConsts.caseLabels, List.tail_cons, List.mem_cons,
      List.mem_singleton, not_or, List.not_mem_nil, not_false_eq_true, and_true] at h
    obtain ⟨h1, h2, h3, h4, h5, h6, h7, h8, h9, h10⟩ := h
    unfold KonnektingProg.handleMsg
    simp only [h0, ne_eq, not_true_eq_false, if_false, h1, h2, h3, h4, h5, h6, h7, h8, h9, h10]
    split <;> rfl

/-- C14: a frame delivered to the provisioning handler whose version byte differs from
`PROTOCOLVERSION`, or whose version matches but whose message type is `MSGTYPE_ACK` or none
of the ten request types, leaves the device as it is: no reply is appended to the action
queue, and the provisioning state (individual address, device flags, programming latch),
every object address and the non-volatile memory are unchanged. The second part is the same
for `internalComObject(0)`, which reads the frame from object 0. -/
theorem C14_dropped_frames (c : ProgConsts) (u : Indeterminate) (buffer : Buf)
    (s : KonnektingDevice)
    (h : buffer 0 ≠ c.PROTOCOLVERSION ∨
      (buffer 0 = c.PROTOCOLVERSION ∧
        (buffer 1 = c.MSGTYPE_ACK ∨ buffer 1 ∉ c.requestTypes))) :
    KonnektingProg.handleMsg c u buffer s = s ∧
    enqueuedBy (KonnektingProg.handleMsg c u buffer) s = [] ∧
    (buffer = (s.read 0 u.array).2 → (KonnektingProg.internalComObject c u 0 s).2 = s) := by
  have key := handleMsg_dropped c u buffer s h
  refine ⟨key, ?_, fun hb => ?_⟩
  · simp [enqueuedBy, key]
  · subst hb
    simp only [KonnektingProg.internalComObject, if_true, key]

theorem C14_dropped_frames_witness :
    (frameOf [0x07, 0x01] 0 ≠ sampleConsts.PROTOCOLVERSION ∧
      KonnektingProg.handleMsg sampleConsts sampleIndeterminate (frameOf [0x07, 0x01]) progDevice
        = progDevice) ∧
    ((frameOf [0x00, 0x33] 0 = sampleConsts.PROTOCOLVERSION ∧
        frameOf [0x00, 0x33] 1 ∉ sampleConsts.requestTypes) ∧
      KonnektingProg.handleMsg sampleConsts sampleIndeterminate (frameOf [0x00, 0x33]) progDevice
        = progDevice) :=
  ⟨⟨by decide, (C14_dropped_frames sampleConsts sampleIndeterminate (frameOf [0x07, 0x01])
      progDevice (Or.inl (by decide))).1⟩,
    ⟨⟨by decide, by decide⟩, (C14_dropped_frames sampleConsts sampleIndeterminate
      (frameOf [0x00, 0x33]) progDevice (Or.inr ⟨by decide, Or.inr (by decide)⟩)).1⟩⟩

theorem labels_ne (c : ProgConsts) (hd : c.LabelsDistinct) :
    (c.MSGTYPE_WRITE_INDIVIDUAL_ADDRESS ≠ c.MSGTYPE_ACK ∧
      c.MSGTYPE_WRITE_INDIVIDUAL_ADDRESS ≠ c.MSGTYPE_READ_DEVICE_INFO ∧
      c.MSGTYPE_WRITE_INDIVIDUAL_ADDRESS ≠ c.MSGTYPE_RESTART ∧
      c.MSGTYPE_WRITE_INDIVIDUAL_ADDRESS ≠ c.MSGTYPE_WRITE_PROGRAMMING_MODE ∧
      c.MSGTYPE_WRITE_INDIVIDUAL_ADDRESS ≠ c.MSGTYPE_READ_PROGRAMMING_MODE) ∧
    (c.MSGTYPE_READ_INDIVIDUAL_ADDRESS ≠ c.MSGTYPE_ACK ∧
      c.MSGTYPE_READ_INDIVIDUAL_ADDRESS ≠ c.MSGTYPE_READ_DEVICE_INFO ∧
      c.MSGTYPE_READ_INDIVIDUAL_ADDRESS ≠ c.MSGTYPE_RESTART ∧
      c.MSGTYPE_READ_INDIVIDUAL_ADDRESS ≠ c.MSGTYPE_WRITE_PROGRAMMING_MODE ∧
      c.MSGTYPE_READ_INDIVIDUAL_ADDRESS ≠ c.MSGTYPE_READ_PROGRAMMING_MODE ∧
      c.MSGTYPE_READ_INDIVIDUAL_ADDRESS ≠ c.MSGTYPE_WRITE_INDIVIDUAL_ADDRESS) ∧
    (c.MSGTYPE_WRITE_PARAMETER ≠ c.MSGTYPE_ACK ∧
      c.MSGTYPE_WRITE_PARAMETER ≠ c.MSGTYPE_READ_DEVICE_INFO ∧
      c.MSGTYPE_WRITE_PARAMETER ≠ c.MSGTYPE_RESTART ∧
      c.MSGTYPE_WRITE_PARAMETER ≠ c.MSGTYPE_WRITE_PROGRAMMING_MODE ∧
      c.MSGTYPE_WRITE_PARAMETER ≠ c.MSGTYPE_READ_PROGRAMMING_MODE ∧
      c.MSGTYPE_WRITE_PARAMETER ≠ c.MSGTYPE_WRITE_INDIVIDUAL_ADDRESS ∧
      c.MSGTYPE_WRITE_PARAMETER ≠ c.MSGTYPE_READ_INDIVIDUAL_ADDRESS) ∧
    (c.MSGTYPE_READ_PARAMETER ≠ c.MSGTYPE_ACK ∧
      c.MSGTYPE_READ_PARAMETER ≠ c.MSGTYPE_READ_DEVICE_INFO ∧
      c.MSGTYPE_READ_PARAMETER ≠ c.MSGTYPE_RESTART ∧
      c.MSGTYPE_READ_PARAMETER ≠ c.MSGTYPE_WRITE_PROGRAMMING_MODE ∧
      c.MSGTYPE_READ_PARAMETER ≠ c.MSGTYPE_READ_PROGRAMMING_MODE ∧
      c.MSGTYPE_READ_PARAMETER ≠ c.MSGTYPE_WRITE_INDIVIDUAL_ADDRESS ∧
      c.MSGTYPE_READ_PARAMETER ≠ c.MSGTYPE_READ_INDIVIDUAL_ADDRESS ∧
      c.MSGTYPE_READ_PARAMETER ≠ c.MSGTYPE_WRITE_PARAMETER) ∧
    (c.MSGTYPE_WRITE_COM_OBJECT ≠ c.MSGTYPE_ACK ∧
      c.MSGTYPE_WRITE_COM_OBJECT ≠ c.MSGTYPE_READ_DEVICE_INFO ∧
      c.MSGTYPE_WRITE_COM_OBJECT ≠ c.MSGTYPE_RESTART ∧
      c.MSGTYPE_WRITE_COM_OBJECT ≠ c.MSGTYPE_WRITE_PROGRAMMING_MODE ∧
      c.MSGTYPE_WRITE_COM_OBJECT ≠ c.MSGTYPE_READ_PROGRAMMING_MODE ∧
      c.MSGTYPE_WRITE_COM_OBJECT ≠ c.MSGTYPE_WRITE_INDIVIDUAL_ADDRESS ∧
      c.MSGTYPE_WRITE_COM_OBJECT ≠ c.MSGTYPE_READ_INDIVIDUAL_ADDRESS ∧
      c.MSGTYPE_WRITE_COM_OBJECT ≠ c.MSGTYPE_WRITE_PARAMETER ∧
      c.MSGTYPE_WRITE_COM_OBJECT ≠ c.MSGTYPE_READ_PARAMETER) := by
  simp only [ProgConsts.LabelsDistinct, ProgConsts.caseLabels, List.nodup_cons, List.mem_cons,
    List.mem_singleton, not_or, List.not_mem_nil, not_false_eq_true, List.nodup_nil,
    and_true] at hd
  obtain ⟨a, b, d, e, f, g, h, i, j, k⟩ := hd
  refine ⟨⟨?_, ?_, ?_, ?_, ?_⟩, ⟨?_, ?_, ?_, ?_, ?_, ?_⟩, ⟨?_, ?_, ?_, ?_, ?_, ?_, ?_⟩,
    ⟨?_, ?_, ?_, ?_, ?_, ?_, ?_, ?_⟩, ⟨?_, ?_, ?_, ?_, ?_, ?_, ?_, ?_, ?_⟩⟩ <;>
    (intro hh; simp_all)

theorem handleMsg_write_ia (c : ProgConsts) (u : Indeterminate) (buffer : Buf)
    (s : KonnektingDevice) (hd : c.LabelsDistinct) (h0 : buffer 0 = c.PROTOCOLVERSION)
    (h1 : buffer 1 = c.MSGTYPE_WRITE_INDIVIDUAL_ADDRESS) :
    KonnektingProg.handleMsg c u buffer s
      = if s._prog._progState = true then
          KonnektingProg.handleMsgWriteIndividualAddress c u buffer s
        else s := by
  obtain ⟨⟨a1, a2, a3, a4, a5⟩, -⟩ := labels_ne c hd
  unfold KonnektingProg.handleMsg
  simp only [h0, h1, ne_eq, not_true_eq_false, if_false, a1, a2, a3, a4, a5, if_true]

theorem handleMsg_read_ia (c : ProgConsts) (u : Indeterminate) (buffer : Buf)
    (s : KonnektingDevice) (hd : c.LabelsDistinct) (h0 : buffer 0 = c.PROTOCOLVERSION)
    (h1 : buffer 1 = c.MSGTYPE_READ_INDIVIDUAL_ADDRESS) :
    KonnektingProg.handleMsg c u buffer s
      = if s._prog._progState = true then
          KonnektingProg.handleMsgReadIndividualAddress c u buffer s
        else s := by
  obtain ⟨-, ⟨a1, a2, a3, a4, a5, a6⟩, -⟩ := labels_ne c hd
  unfold KonnektingProg.handleMsg
  simp only [h0, h1, ne_eq, not_true_eq_false, if_false, a1, a2, a3, a4, a5, a6, if_true]

theorem handleMsg_write_parameter (c : ProgConsts) (u : Indeterminate) (buffer : Buf)
    (s : KonnektingDevice) (hd : c.LabelsDistinct) (h0 : buffer 0 = c.PROTOCOLVERSION)
    (h1 : buffer 1 = c.MSGTYPE_WRITE_PARAMETER) :
    KonnektingProg.handleMsg c u buffer s
      = if s._prog._progState = true then KonnektingProg.handleMsgWriteParameter c u buffer s
        else s := by
  obtain ⟨-, -, ⟨a1, a2, a3, a4, a5, a6, a7⟩, -⟩ := labels_ne c hd
  unfold KonnektingProg.handleMsg
  simp only [h0, h1, ne_eq, not_true_eq_false, if_false, a1, a2, a3, a4, a5, a6, a7, if_true]

theorem handleMsg_read_parameter (c : ProgConsts) (u : Indeterminate) (buffer : Buf)
    (s : KonnektingDevice) (hd : c.LabelsDistinct) (h0 : buffer 0 = c.PROTOCOLVERSION)
    (h1 : buffer 1 = c.MSGTYPE_READ_PARAMETER) :
    KonnektingProg.handleMsg c u buffer s
      = KonnektingProg.handleMsgReadParameter c u buffer s := by
  obtain ⟨-, -, -, ⟨a1, a2, a3, a4, a5, a6, a7, a8⟩, -⟩ := labels_ne c hd
  unfold KonnektingProg.handleMsg
  simp only [h0, h1, ne_eq, not_true_eq_false, if_false, a1, a2, a3, a4, a5, a6, a7, a8, if_true]

theorem handleMsg_write_com_object (c : ProgConsts) (u : Indeterminate) (buffer : Buf)
    (s : KonnektingDevice) (hd : c.LabelsDistinct) (h0 : buffer 0 = c.PROTOCOLVERSION)
    (h1 : buffer 1 = c.MSGTYPE_WRITE_COM_OBJECT) :
    KonnektingProg.handleMsg c u buffer s
      = if s._prog._progState = true then KonnektingProg.handleMsgWriteComObject c u buffer s
        else s := by
  obtain ⟨-, -, -, -, ⟨a1, a2, a3, a4, a5, a6, a7, a8, a9⟩⟩ := labels_ne c hd
  unfold KonnektingProg.handleMsg
  simp only [h0, h1, ne_eq, not_true_eq_false, if_false, a1, a2, a3, a4, a5, a6, a7, a8, a9,
    if_true]

/-- A `ReadIndividualAddress` frame handled with the programming latch set. -/
theorem handleMsg_read_ia_latched (c : ProgConsts) (u : Indeterminate) (buffer : Buf)
    (s : KonnektingDevice) (hd : c.LabelsDistinct)
    (h15 : (s._comObjectsList 0).length = 15)
    (h0 : buffer 0 = c.PROTOCOLVERSION)
    (h1 : buffer 1 = c.MSGTYPE_READ_INDIVIDUAL_ADDRESS)
    (hlatch : s._prog._progState = true) :
    KonnektingProg.handleMsg c u buffer s
      = { s with _txActionList := (s._txActionList.Append (KonnektingProg.replyAction u
          [c.PROTOCOLVERSION, c.MSGTYPE_ANSWER_INDIVIDUAL_ADDRESS,
            (s._prog._individualAddress >>> 8) &&& 0xff,
            (s._prog._individualAddress >>> 0) &&& 0xff,
            0, 0, 0, 0, 0, 0, 0, 0, 0, 0])) } := by
  rw [handleMsg_read_ia c u buffer s hd h0 h1]
  simp only [hlatch, if_true]
  unfold KonnektingProg.handleMsgReadIndividualAddress
  exact write_reply u _ s h15 rfl

/-- C18: while the programming latch is clear, a frame of type `WriteIndividualAddress`,
`WriteParameter` or `WriteComObject` with a matching protocol version leaves the device as it
is: nothing is written to the non-volatile memory, the individual address, the device flags
and every object address are unchanged, and no reply is enqueued. -/
theorem C18_programming_mode_gating (c : ProgConsts) (u : Indeterminate) (buffer : Buf)
    (s : KonnektingDevice) (hd : c.LabelsDistinct) (hlatch : s._prog._progState = false)
    (h0 : buffer 0 = c.PROTOCOLVERSION)
    (h1 : buffer 1 = c.MSGTYPE_WRITE_INDIVIDUAL_ADDRESS ∨
      buffer 1 = c.MSGTYPE_WRITE_PARAMETER ∨ buffer 1 = c.MSGTYPE_WRITE_COM_OBJECT) :
    KonnektingProg.handleMsg c u buffer s = s ∧
    enqueuedBy (KonnektingProg.handleMsg c u buffer) s = [] := by
  have key : KonnektingProg.handleMsg c u buffer s = s := by
    rcases h1 with h1 | h1 | h1
    · rw [handleMsg_write_ia c u buffer s hd h0 h1]
      simp [hlatch]
    · rw [handleMsg_write_parameter c u buffer s hd h0 h1]
      simp [hlatch]
    · rw [handleMsg_write_com_object c u buffer s hd h0 h1]
      simp [hlatch]
  refine ⟨key, ?_⟩
  simp [enqueuedBy, key]

theorem C18_programming_mode_gating_witness :
    sampleConsts.LabelsDistinct ∧
    KonnektingProg.handleMsg sampleConsts sampleIndeterminate
      (frameOf [0x00, 0x14, 0x11, 0x22]) { progDevice with _prog := sampleProg }
      = { progDevice with _prog := sampleProg } :=
  ⟨by decide, (C18_programming_mode_gating sampleConsts sampleIndeterminate
    (frameOf [0x00, 0x14, 0x11, 0x22]) { progDevice with _prog := sampleProg }
    (by decide) rfl rfl (Or.inl rfl)).1⟩

/-- C19 (as stated, refuted): with the programming latch clear, a
`ReadIndividualAddress` frame with the matching protocol version gets no reply, and the
device is left as it was. -/
theorem C19_read_address_unanswered_when_latch_clear :
    (frameOf [0x00, 0x15] 0 = sampleConsts.PROTOCOLVERSION ∧
      frameOf [0x00, 0x15] 1 = sampleConsts.MSGTYPE_READ_INDIVIDUAL_ADDRESS ∧
      ({ progDevice with _prog := sampleProg } : KonnektingDevice)._prog._progState = false) ∧
    (KonnektingProg.handleMsg sampleConsts sampleIndeterminate (frameOf [0x00, 0x15])
      { progDevice with _prog := sampleProg })._txActionList = [] := by
  refine ⟨⟨rfl, rfl, rfl⟩, ?_⟩
  rw [handleMsg_read_ia sampleConsts sampleIndeterminate _ _ (by decide) rfl rfl]
  rfl

/-- C19 (amended): `ReadIndividualAddress` is gated by the programming latch. With the latch
set, a frame of that type with a matching protocol version is answered with the frame
`[PROTOCOLVERSION, MSGTYPE_ANSWER_INDIVIDUAL_ADDRESS, hi, lo, 0 x 10]` that carries the
current individual address, appended to the action queue, and nothing else changes; with the
latch clear the frame gets no reply and the device is left as it is. -/
theorem C19_read_individual_address (c : ProgConsts) (u : Indeterminate) (buffer : Buf)
    (s : KonnektingDevice) (hd : c.LabelsDistinct)
    (h15 : (s._comObjectsList 0).length = 15)
    (h0 : buffer 0 = c.PROTOCOLVERSION)
    (h1 : buffer 1 = c.MSGTYPE_READ_INDIVIDUAL_ADDRESS) :
    (s._prog._progState = true →
      KonnektingProg.handleMsg c u buffer s
        = { s with _txActionList := (s._txActionList.Append (KonnektingProg.replyAction u
            [c.PROTOCOLVERSION, c.MSGTYPE_ANSWER_INDIVIDUAL_ADDRESS,
              (s._prog._individualAddress >>> 8) &&& 0xff,
              (s._prog._individualAddress >>> 0) &&& 0xff,
              0, 0, 0, 0, 0, 0, 0, 0, 0, 0])) }) ∧
    (s._prog._progState = false → KonnektingProg.handleMsg c u buffer s = s) := by
  rw [handleMsg_read_ia c u buffer s hd h0 h1]
  refine ⟨fun h => ?_, fun h => ?_⟩
  · simp only [h, if_true]
    unfold KonnektingProg.handleMsgReadIndividualAddress
    exact write_reply u _ s h15 rfl
  · simp [h]

theorem C19_read_individual_address_witness :
    sampleConsts.LabelsDistinct ∧ (progDevice._comObjectsList 0).length = 15 ∧
    KonnektingProg.handleMsg sampleConsts sampleIndeterminate (frameOf [0x00, 0x15]) progDevice
      = { progDevice with _txActionList := (progDevice._txActionList.Append
          (KonnektingProg.replyAction sampleIndeterminate
            [sampleConsts.PROTOCOLVERSION, sampleConsts.MSGTYPE_ANSWER_INDIVIDUAL_ADDRESS,
              (progDevice._prog._individualAddress >>> 8) &&& 0xff,
              (progDevice._prog._individualAddress >>> 0) &&& 0xff,
              0, 0, 0, 0, 0, 0, 0, 0, 0, 0])) } :=
  ⟨by decide, rfl, (C19_read_individual_address sampleConsts sampleIndeterminate
    (frameOf [0x00, 0x15]) progDevice (by decide) rfl rfl rfl).1 rfl⟩

/-- C17: with the programming latch set, a `WriteParameter` frame whose index `idx` is at
least the number of declared parameters makes the handler enqueue exactly one reply, the
frame `[PROTOCOLVERSION, MSGTYPE_ACK, 0xFF, KNX_DEVICE_INVALID_INDEX, idx, 0 x 9]` (appended
to the action queue, which drops it only when it is full), and every byte of the
non-volatile memory, like the rest of the device, is unchanged. -/
theorem C17_write_parameter_invalid_index (c : ProgConsts) (u : Indeterminate) (buffer : Buf)
    (s : KonnektingDevice) (hd : c.LabelsDistinct) (hlatch : s._prog._progState = true)
    (h15 : (s._comObjectsList 0).length = 15)
    (h0 : buffer 0 = c.PROTOCOLVERSION) (h1 : buffer 1 = c.MSGTYPE_WRITE_PARAMETER)
    (hidx : buffer 2 ≥ s._prog._numberOfParams) :
    KonnektingProg.handleMsg c u buffer s
      = { s with _txActionList := (s._txActionList.Append (KonnektingProg.replyAction u
          [c.PROTOCOLVERSION, c.MSGTYPE_ACK, 0xFF, KNX_DEVICE_INVALID_INDEX.code, buffer 2,
            0, 0, 0, 0, 0, 0, 0, 0, 0])) } ∧
    KNX_DEVICE_INVALID_INDEX.code = 1 ∧
    (∀ a, (KonnektingProg.handleMsg c u buffer s).EEPROM a = s.EEPROM a) ∧
    enqueuedBy (KonnektingProg.handleMsg c u buffer) s
      = (if s._txActionList.length < ACTIONS_QUEUE_SIZE then
          [KonnektingProg.replyAction u
            [c.PROTOCOLVERSION, c.MSGTYPE_ACK, 0xFF, KNX_DEVICE_INVALID_INDEX.code, buffer 2,
              0, 0, 0, 0, 0, 0, 0, 0, 0]]
        else []) := by
  have key : KonnektingProg.handleMsg c u buffer s
      = { s with _txActionList := (s._txActionList.Append (KonnektingProg.replyAction u
          [c.PROTOCOLVERSION, c.MSGTYPE_ACK, 0xFF, KNX_DEVICE_INVALID_INDEX.code, buffer 2,
            0, 0, 0, 0, 0, 0, 0, 0, 0])) } := by
    rw [handleMsg_write_parameter c u buffer s hd h0 h1]
    simp only [hlatch, if_true]
    unfold KonnektingProg.handleMsgWriteParameter
    have hgt : ((buffer 2 : Nat) : Int) > (s._prog._numberOfParams : Int) - 1 := by omega
    simp only [hgt, if_true]
    rw [sendAck_eq c u _ _ s h15]
    simp [e_KonnektingDeviceStatus.code]
  refine ⟨key, rfl, fun a => by rw [key], ?_⟩
  unfold enqueuedBy
  rw [key]
  exact drop_length_append _ _

theorem C17_write_parameter_invalid_index_witness :
    sampleConsts.LabelsDistinct ∧ frameOf [0x00, 0x1E, 7, 0xAB] 2 ≥ progDevice._prog._numberOfParams ∧
    KonnektingProg.handleMsg sampleConsts sampleIndeterminate (frameOf [0x00, 0x1E, 7, 0xAB])
        progDevice
      = { progDevice with _txActionList := (progDevice._txActionList.Append
          (KonnektingProg.replyAction sampleIndeterminate
            [sampleConsts.PROTOCOLVERSION, sampleConsts.MSGTYPE_ACK, 0xFF,
              KNX_DEVICE_INVALID_INDEX.code, frameOf [0x00, 0x1E, 7, 0xAB] 2,
              0, 0, 0, 0, 0, 0, 0, 0, 0])) } :=
  ⟨by decide, by decide, (C17_write_parameter_invalid_index sampleConsts sampleIndeterminate
    (frameOf [0x00, 0x1E, 7, 0xAB]) progDevice (by decide) rfl rfl rfl rfl (by decide)).1⟩

theorem clear_bit7 (f : Nat) : ((f &&& (0xFFFF - 0x80)) % 256) &&& 0x80 = 0 := by
  have h : (f &&& (0xFFFF - 0x80)) % 256 = (f &&& (0xFFFF - 0x80)) &&& (2 ^ 8 - 1) :=
    (Nat.and_pow_two_sub_one_eq_mod _ 8).symm
  rw [h, Nat.and_assoc, Nat.and_assoc]
  have h2 : (0xFFFF - 0x80) &&& ((2 ^ 8 - 1) &&& 0x80) = 0 := by decide
  rw [h2]
  simp

theorem address_bytes (hi lo : Nat) (hhi : hi < 256) (hlo : lo < 256) :
    ((((hi <<< 8) + (lo <<< 0)) % 65536) >>> 8) &&& 0xff = hi ∧
    ((((hi <<< 8) + (lo <<< 0)) % 65536) >>> 0) &&& 0xff = lo := by
  have e1 : hi <<< 8 = hi * 256 := by rw [Nat.shiftLeft_eq]
  have e2 : lo <<< 0 = lo := by simp
  have e3 : ∀ x : Nat, x &&& 0xff = x % 256 := fun x => Nat.and_pow_two_sub_one_eq_mod x 8
  rw [e1, e2, e3, e3, Nat.shiftRight_eq_div_pow, Nat.shiftRight_eq_div_pow]
  constructor <;> omega

/-- What `handleMsgWriteIndividualAddress` does when object 0 holds 14 bytes. -/
theorem handleMsgWriteIndividualAddress_eq (c : ProgConsts) (u : Indeterminate) (msg : Buf)
    (s : KonnektingDevice) (h15 : (s._comObjectsList 0).length = 15) :
    KonnektingProg.handleMsgWriteIndividualAddress c u msg s
      = { s with
          EEPROM := (Buf.set (Buf.set (Buf.set s.EEPROM c.EEPROM_INDIVIDUALADDRESS_HI (msg 2))
            c.EEPROM_INDIVIDUALADDRESS_LO (msg 3)) c.EEPROM_DEVICE_FLAGS
              ((s._prog._deviceFlags &&& (0xFFFF - 0x80)) % 256))
          _prog := { s._prog with
            _deviceFlags := (s._prog._deviceFlags &&& (0xFFFF - 0x80)) % 256
            _individualAddress := ((msg 2 <<< 8) + (msg 3 <<< 0)) % 65536 }
          _txActionList := (s._txActionList.Append (KonnektingProg.replyAction u
            [c.PROTOCOLVERSION, c.MSGTYPE_ACK, 0, 0, 0, 0, 0, 0, 0, 0, 0, 0, 0, 0])) } := by
  unfold KonnektingProg.handleMsgWriteIndividualAddress
  simp only [KonnektingProg.memoryUpdate]
  rw [sendAck_eq]
  · simp
  · exact h15

/-- C15: with the programming latch set, for all address bytes `hi` and `lo`, handling a
`WriteIndividualAddress` frame that carries them and then a `ReadIndividualAddress` frame
produces as the reply of the read the frame
`[PROTOCOLVERSION, MSGTYPE_ANSWER_INDIVIDUAL_ADDRESS, hi, lo, 0 x 10]` (appended to the
action queue, which drops it only when it is full); after the write, bit 7 of the device
flags is clear in memory and in the non-volatile byte of the device flags, and the
non-volatile bytes of the individual address are `hi` and `lo`. -/
theorem C15_write_then_read_individual_address (c : ProgConsts) (u : Indeterminate)
    (wr rd : Buf) (s : KonnektingDevice) (hi lo : Nat)
    (hd : c.LabelsDistinct) (hl : c.LayoutDistinct) (hlatch : s._prog._progState = true)
    (h15 : (s._comObjectsList 0).length = 15)
    (hhi : hi < 256) (hlo : lo < 256)
    (hw : wr 0 = c.PROTOCOLVERSION ∧ wr 1 = c.MSGTYPE_WRITE_INDIVIDUAL_ADDRESS ∧
      wr 2 = hi ∧ wr 3 = lo)
    (hr : rd 0 = c.PROTOCOLVERSION ∧ rd 1 = c.MSGTYPE_READ_INDIVIDUAL_ADDRESS) :
    KonnektingProg.handleMsg c u rd (KonnektingProg.handleMsg c u wr s)
      = { KonnektingProg.handleMsg c u wr s with
          _txActionList := ((KonnektingProg.handleMsg c u wr s)._txActionList.Append
            (KonnektingProg.replyAction u
              [c.PROTOCOLVERSION, c.MSGTYPE_ANSWER_INDIVIDUAL_ADDRESS, hi, lo,
                0, 0, 0, 0, 0, 0, 0, 0, 0, 0])) } ∧
    enqueuedBy (KonnektingProg.handleMsg c u rd) (KonnektingProg.handleMsg c u wr s)
      = (if (KonnektingProg.handleMsg c u wr s)._txActionList.length < ACTIONS_QUEUE_SIZE then
          [KonnektingProg.replyAction u
            [c.PROTOCOLVERSION, c.MSGTYPE_ANSWER_INDIVIDUAL_ADDRESS, hi, lo,
              0, 0, 0, 0, 0, 0, 0, 0, 0, 0]]
        else []) ∧
    (KonnektingProg.handleMsg c u wr s)._prog._deviceFlags &&& 0x80 = 0 ∧
    (KonnektingProg.handleMsg c u wr s).EEPROM c.EEPROM_DEVICE_FLAGS &&& 0x80 = 0 ∧
    (KonnektingProg.handleMsg c u wr s).EEPROM c.EEPROM_INDIVIDUALADDRESS_HI = hi ∧
    (KonnektingProg.handleMsg c u wr s).EEPROM c.EEPROM_INDIVIDUALADDRESS_LO = lo ∧
    KonnektingProg.getIndividualAddress (KonnektingProg.handleMsg c u wr s) = hi * 256 + lo := by
  obtain ⟨hw0, hw1, hw2, hw3⟩ := hw
  obtain ⟨hr0, hr1⟩ := hr
  obtain ⟨l1, l2, l3⟩ := hl
  have hs1 : KonnektingProg.handleMsg c u wr s
      = KonnektingProg.handleMsgWriteIndividualAddress c u wr s := by
    rw [handleMsg_write_ia c u wr s hd hw0 hw1]
    simp [hlatch]
  rw [handleMsgWriteIndividualAddress_eq c u wr s h15, hw2, hw3] at hs1
  have hb := address_bytes hi lo hhi hlo
  have hread := (handleMsg_read_ia_latched c u rd (KonnektingProg.handleMsg c u wr s) hd
    (by rw [hs1]; exact h15) hr0 hr1 (by rw [hs1]; exact hlatch))
  have hia : (KonnektingProg.handleMsg c u wr s)._prog._individualAddress
      = ((hi <<< 8) + (lo <<< 0)) % 65536 := by rw [hs1]
  rw [hia, hb.1, hb.2] at hread
  refine ⟨hread, ?_, ?_, ?_, ?_, ?_, ?_⟩
  · unfold enqueuedBy
    rw [hread]
    exact drop_length_append _ _
  · rw [hs1]
    exact clear_bit7 _
  · rw [hs1]
    simp only [Buf.set, if_true]
    exact clear_bit7 _
  · rw [hs1]
    simp [Buf.set, l1.symm, l3]
  · rw [hs1]
    simp [Buf.set, l2.symm]
  · unfold KonnektingProg.getIndividualAddress
    rw [hia, Nat.shiftLeft_eq]
    simp only [Nat.shiftLeft_zero]
    omega

theorem C15_write_then_read_individual_address_witness :
    sampleConsts.LabelsDistinct ∧ sampleConsts.LayoutDistinct ∧
    progDevice._prog._progState = true ∧ (progDevice._comObjectsList 0).length = 15 ∧
    enqueuedBy
        (KonnektingProg.handleMsg sampleConsts sampleIndeterminate (frameOf [0x00, 0x15]))
        (KonnektingProg.handleMsg sampleConsts sampleIndeterminate
          (frameOf [0x00, 0x14, 0x12, 0x34]) progDevice)
      = (if (KonnektingProg.handleMsg sampleConsts sampleIndeterminate
            (frameOf [0x00, 0x14, 0x12, 0x34]) progDevice)._txActionList.length
            < ACTIONS_QUEUE_SIZE then
          [KonnektingProg.replyAction sampleIndeterminate
            [sampleConsts.PROTOCOLVERSION, sampleConsts.MSGTYPE_ANSWER_INDIVIDUAL_ADDRESS,
              0x12, 0x34, 0, 0, 0, 0, 0, 0, 0, 0, 0, 0]]
        else []) ∧
    (KonnektingProg.handleMsg sampleConsts sampleIndeterminate
      (frameOf [0x00, 0x14, 0x12, 0x34]) progDevice)._prog._deviceFlags &&& 0x80 = 0 :=
  ⟨by decide, by decide, rfl, rfl,
    (C15_write_then_read_individual_address sampleConsts sampleIndeterminate
      (frameOf [0x00, 0x14, 0x12, 0x34]) (frameOf [0x00, 0x15]) progDevice 0x12 0x34
      (by decide) (by decide) rfl rfl (by decide) (by decide)
      ⟨rfl, rfl, rfl, rfl⟩ ⟨rfl, rfl⟩).2.1,
    (C15_write_then_read_individual_address sampleConsts sampleIndeterminate
      (frameOf [0x00, 0x14, 0x12, 0x34]) (frameOf [0x00, 0x15]) progDevice 0x12 0x34
      (by decide) (by decide) rfl rfl (by decide) (by decide)
      ⟨rfl, rfl, rfl, rfl⟩ ⟨rfl, rfl⟩).2.2.1⟩

/-! ## Provisioning: the handler does not call the application -/

theorem write_applicationView (u : Indeterminate) (i : Nat) (v : Buf) (s : KonnektingDevice) :
    (KonnektingDevice.write u i v s).2.applicationView = s.applicationView := by
  unfold KonnektingDevice.write
  dsimp only
  split <;> rfl

theorem sendAck_applicationView (c : ProgConsts) (u : Indeterminate) (e i : Nat)
    (s : KonnektingDevice) : (KonnektingProg.sendAck c u e i s).applicationView = s.applicationView := by
  unfold KonnektingProg.sendAck
  exact write_applicationView _ _ _ _

theorem setComObjectAddress_applicationView (index addr : Nat) (s : KonnektingDevice) :
    (KonnektingDevice.setComObjectAddress index addr s).2.applicationView
      = s.applicationView := by
  unfold KonnektingDevice.setComObjectAddress
  split
  · rfl
  · split
    · rfl
    · unfold KonnektingDevice.applicationView
      simp only [Prod.mk.injEq, true_and]
      funext j
      unfold setComObject KnxComObject.SetAddr
      split
      · next h => rw [h]
      · rfl

theorem foldl_applicationView (f : KonnektingDevice → Nat → KonnektingDevice)
    (h : ∀ s i, (f s i).applicationView = s.applicationView) (l : List Nat) (s : KonnektingDevice) :
    (l.foldl f s).applicationView = s.applicationView := by
  induction l generalizing s with
  | nil => rfl
  | cons a l ih => rw [List.foldl_cons, ih, h]

theorem handleMsgWriteParameter_applicationView (c : ProgConsts) (u : Indeterminate) (msg : Buf)
    (s : KonnektingDevice) :
    (KonnektingProg.handleMsgWriteParameter c u msg s).applicationView = s.applicationView := by
  unfold KonnektingProg.handleMsgWriteParameter
  dsimp only
  split
  · exact sendAck_applicationView _ _ _ _ _
  · rw [sendAck_applicationView]
    apply foldl_applicationView
    intro s i
    rfl

theorem handleMsgWriteComObject_applicationView (c : ProgConsts) (u : Indeterminate) (msg : Buf)
    (s : KonnektingDevice) :
    (KonnektingProg.handleMsgWriteComObject c u msg s).applicationView = s.applicationView := by
  unfold KonnektingProg.handleMsgWriteComObject
  dsimp only
  rw [sendAck_applicationView]
  apply foldl_applicationView
  intro s i
  dsimp only
  split
  · rw [sendAck_applicationView, setComObjectAddress_applicationView]
  · exact setComObjectAddress_applicationView _ _ _

theorem handleMsgWriteProgrammingMode_applicationView (c : ProgConsts) (u : Indeterminate)
    (msg : Buf) (s : KonnektingDevice) :
    (KonnektingProg.handleMsgWriteProgrammingMode c u msg s).applicationView = s.applicationView := by
  unfold KonnektingProg.handleMsgWriteProgrammingMode
  dsimp only
  rw [sendAck_applicationView]
  split
  · unfold KonnektingProg.setProgState
    split <;> rfl
  · rfl

theorem handleMsgWriteIndividualAddress_applicationView (c : ProgConsts) (u : Indeterminate)
    (msg : Buf) (s : KonnektingDevice) :
    (KonnektingProg.handleMsgWriteIndividualAddress c u msg s).applicationView = s.applicationView := by
  unfold KonnektingProg.handleMsgWriteIndividualAddress
  dsimp only
  rw [sendAck_applicationView]
  rfl

theorem handleMsgRestart_applicationView (msg : Buf) (s : KonnektingDevice) :
    (KonnektingProg.handleMsgRestart msg s).applicationView = s.applicationView := by
  unfold KonnektingProg.handleMsgRestart
  dsimp only
  split <;> rfl

theorem handleMsgReadProgrammingMode_applicationView (c : ProgConsts) (u : Indeterminate)
    (msg : Buf) (s : KonnektingDevice) :
    (KonnektingProg.handleMsgReadProgrammingMode c u msg s).applicationView = s.applicationView := by
  unfold KonnektingProg.handleMsgReadProgrammingMode
  split
  · exact write_applicationView _ _ _ _
  · rfl

theorem handleMsg_applicationView (c : ProgConsts) (u : Indeterminate) (buffer : Buf)
    (s : KonnektingDevice) :
    (KonnektingProg.handleMsg c u buffer s).applicationView = s.applicationView := by
  unfold KonnektingProg.handleMsg
  by_cases h0 : buffer 0 = c.PROTOCOLVERSION
  swap
  · simp only [h0, ne_eq, not_false_eq_true, if_true]
  simp only [h0, ne_eq, not_true_eq_false, if_false]
  by_cases h1 : buffer 1 = c.MSGTYPE_ACK
  · simp only [h1, if_true]
  simp only [h1, if_false]
  by_cases h2 : buffer 1 = c.MSGTYPE_READ_DEVICE_INFO
  · simp only [h2, if_true]
    exact write_applicationView _ _ _ _
  simp only [h2, if_false]
  by_cases h3 : buffer 1 = c.MSGTYPE_RESTART
  · simp only [h3, if_true]
    exact handleMsgRestart_applicationView _ _
  simp only [h3, if_false]
  by_cases h4 : buffer 1 = c.MSGTYPE_WRITE_PROGRAMMING_MODE
  · simp only [h4, if_true]
    exact handleMsgWriteProgrammingMode_applicationView _ _ _ _
  simp only [h4, if_false]
  by_cases h5 : buffer 1 = c.MSGTYPE_READ_PROGRAMMING_MODE
  · simp only [h5, if_true]
    exact handleMsgReadProgrammingMode_applicationView _ _ _ _
  simp only [h5, if_false]
  by_cases h6 : buffer 1 = c.MSGTYPE_WRITE_INDIVIDUAL_ADDRESS
  · simp only [h6, if_true]
    split
    · exact handleMsgWriteIndividualAddress_applicationView _ _ _ _
    · rfl
  simp only [h6, if_false]
  by_cases h7 : buffer 1 = c.MSGTYPE_READ_INDIVIDUAL_ADDRESS
  · simp only [h7, if_true]
    split
    · exact write_applicationView _ _ _ _
    · rfl
  simp only [h7, if_false]
  by_cases h8 : buffer 1 = c.MSGTYPE_WRITE_PARAMETER
  · simp only [h8, if_true]
    split
    · exact handleMsgWriteParameter_applicationView _ _ _ _
    · rfl
  simp only [h8, if_false]
  by_cases h9 : buffer 1 = c.MSGTYPE_READ_PARAMETER
  · simp only [h9, if_true]
    exact write_applicationView _ _ _ _
  simp only [h9, if_false]
  by_cases h10 : buffer 1 = c.MSGTYPE_WRITE_COM_OBJECT
  · simp only [h10, if_true]
    split
    · exact handleMsgWriteComObject_applicationView _ _ _ _
    · rfl
  simp only [h10, if_false]
  split
  · exact write_applicationView _ _ _ _
  · rfl

/-! ## Callback of the transceiver: routing of received telegrams -/

/-- C11 (the code departs from the claim): the `KNX_COMMAND_VALUE_RESPONSE` case of
`GetTpUartEvents` calls `knxEvents(targetedComObjIndex)` right after `UpdateValue` and never
asks `internalComObject`, unlike the `KNX_COMMAND_VALUE_WRITE` case next to it (`if it's not
a internal com object, route back to knxEvents()`). A Response telegram for the provisioning
object (index 0, with the Update flag) that carries a `ReadDeviceInfo` frame makes the
callback invoke `knxEvents(0)` and enqueue no answer: the frame reaches the application and
not the provisioning handler. The same frame in a Write telegram is answered by the
provisioning handler without a call of `knxEvents`. -/
theorem C11_response_reaches_application :
    ((progDevice._comObjectsList 0).indicator &&& sampleIndicators.KNX_COM_OBJ_U_INDICATOR ≠ 0 ∧
      (progDevice._comObjectsList 0).indicator &&& sampleIndicators.KNX_COM_OBJ_W_INDICATOR ≠ 0) ∧
    ((KonnektingDevice.GetTpUartEvents sampleIndicators sampleConsts sampleIndeterminate
        .TPUART_EVENT_RECEIVED_KNX_TELEGRAM
        (sampleTelegram .KNX_COMMAND_VALUE_RESPONSE [0x00, 0x01]) 0 progDevice).knxEvents = [0] ∧
      (KonnektingDevice.GetTpUartEvents sampleIndicators sampleConsts sampleIndeterminate
        .TPUART_EVENT_RECEIVED_KNX_TELEGRAM
        (sampleTelegram .KNX_COMMAND_VALUE_RESPONSE [0x00, 0x01]) 0 progDevice)._txActionList
        = []) ∧
    ((KonnektingDevice.GetTpUartEvents sampleIndicators sampleConsts sampleIndeterminate
        .TPUART_EVENT_RECEIVED_KNX_TELEGRAM
        (sampleTelegram .KNX_COMMAND_VALUE_WRITE [0x00, 0x01]) 0 progDevice).knxEvents = [] ∧
      (KonnektingDevice.GetTpUartEvents sampleIndicators sampleConsts sampleIndeterminate
        .TPUART_EVENT_RECEIVED_KNX_TELEGRAM
        (sampleTelegram .KNX_COMMAND_VALUE_WRITE [0x00, 0x01]) 0 progDevice)._txActionList
        = [KonnektingProg.replyAction sampleIndeterminate
            [0x00, 0x02, 0xDE, 0xAD, 1, 0, 0xFF, 0x11, 0xFE, 0, 0, 0, 0, 0]]) := by
  decide

/-- What the `KNX_COMMAND_VALUE_RESPONSE` case of the callback does, for every object: with
the Update flag the state is set to `IDLE`, the value is applied and `knxEvents` is invoked
with the index of the object, the provisioning object (index 0) included; the provisioning
handler is not run, so no reply is enqueued and the provisioning state and the non-volatile
memory are unchanged. Without the Update flag only the state is set to `IDLE`. -/
theorem GetTpUartEvents_response (ind : Indicators) (c : ProgConsts) (u : Indeterminate)
    (t : KnxTelegram) (i : Nat) (s : KonnektingDevice)
    (hcmd : t.command = .KNX_COMMAND_VALUE_RESPONSE) :
    ((s._comObjectsList i).indicator &&& ind.KNX_COM_OBJ_U_INDICATOR ≠ 0 →
      KonnektingDevice.GetTpUartEvents ind c u .TPUART_EVENT_RECEIVED_KNX_TELEGRAM t i s
        = { s with
            _state := e_KonnektingDeviceState.IDLE
            _comObjectsList := (setComObject s._comObjectsList i
              ((s._comObjectsList i).UpdateValueTelegram t))
            knxEvents := s.knxEvents ++ [i] }) ∧
    ((s._comObjectsList i).indicator &&& ind.KNX_COM_OBJ_U_INDICATOR = 0 →
      KonnektingDevice.GetTpUartEvents ind c u .TPUART_EVENT_RECEIVED_KNX_TELEGRAM t i s
        = { s with _state := e_KonnektingDeviceState.IDLE }) := by
  refine ⟨fun h => ?_, fun h => ?_⟩
  · simp [KonnektingDevice.GetTpUartEvents, hcmd, h, KonnektingDevice.callKnxEvents]
  · simp [KonnektingDevice.GetTpUartEvents, hcmd, h]

theorem GetTpUartEvents_response_example :
    (progDevice._comObjectsList 0).indicator &&& sampleIndicators.KNX_COM_OBJ_U_INDICATOR ≠ 0 ∧
    KonnektingDevice.GetTpUartEvents sampleIndicators sampleConsts sampleIndeterminate
        .TPUART_EVENT_RECEIVED_KNX_TELEGRAM
        (sampleTelegram .KNX_COMMAND_VALUE_RESPONSE [0x00, 0x01]) 0 progDevice
      = { progDevice with
          _state := e_KonnektingDeviceState.IDLE
          _comObjectsList := (setComObject progDevice._comObjectsList 0
            ((progDevice._comObjectsList 0).UpdateValueTelegram
              (sampleTelegram .KNX_COMMAND_VALUE_RESPONSE [0x00, 0x01])))
          knxEvents := progDevice.knxEvents ++ [0] } :=
  ⟨by decide, (GetTpUartEvents_response sampleIndicators sampleConsts sampleIndeterminate
    (sampleTelegram .KNX_COMMAND_VALUE_RESPONSE [0x00, 0x01]) 0 progDevice rfl).1 (by decide)⟩

theorem route_consumed (b : Bool) (i : Nat) (s2 : KonnektingDevice) :
    (match ((if b = true then none else some true : Option Bool), s2) with
      | (some false, s) => s.callKnxEvents i
      | (_, s) => s) = s2 := by
  cases b <;> rfl

/-- C12: a Write telegram received for object `i`. Without the Write flag the callback only
sets the state to `IDLE`: the value is unchanged and neither the provisioning handler nor
`knxEvents` is invoked. With the Write flag the value is applied and then exactly one of the
two is notified: for `i = 0` the provisioning handler processes the frame read from object 0
and `knxEvents` is not called; for `i != 0` `knxEvents(i)` is called and the provisioning
state, the non-volatile memory and the action queue are unchanged. `internalComObject`
returns `false` exactly for an index other than 0; for index 0 it returns `true` whenever it
returns, which it does unless a `Restart` frame has made the device reboot, and in
particular for a frame that it drops. -/
theorem C12_write_routing (ind : Indicators) (c : ProgConsts) (u : Indeterminate)
    (t : KnxTelegram) (i : Nat) (s : KonnektingDevice)
    (hcmd : t.command = .KNX_COMMAND_VALUE_WRITE) :
    ((s._comObjectsList i).indicator &&& ind.KNX_COM_OBJ_W_INDICATOR = 0 →
      KonnektingDevice.GetTpUartEvents ind c u .TPUART_EVENT_RECEIVED_KNX_TELEGRAM t i s
        = { s with _state := e_KonnektingDeviceState.IDLE }) ∧
    ((s._comObjectsList i).indicator &&& ind.KNX_COM_OBJ_W_INDICATOR ≠ 0 → i = 0 →
      KonnektingDevice.GetTpUartEvents ind c u .TPUART_EVENT_RECEIVED_KNX_TELEGRAM t i s
        = KonnektingProg.handleMsg c u
            (u.array.setList 0 ((s._comObjectsList 0).UpdateValueTelegram t).value)
            { s with
              _state := e_KonnektingDeviceState.IDLE
              _comObjectsList := (setComObject s._comObjectsList 0
                ((s._comObjectsList 0).UpdateValueTelegram t)) } ∧
      (KonnektingDevice.GetTpUartEvents ind c u .TPUART_EVENT_RECEIVED_KNX_TELEGRAM t i
        s).knxEvents = s.knxEvents ∧
      ((KonnektingDevice.GetTpUartEvents ind c u .TPUART_EVENT_RECEIVED_KNX_TELEGRAM t i
        s)._comObjectsList 0).value = ((s._comObjectsList 0).UpdateValueTelegram t).value) ∧
    ((s._comObjectsList i).indicator &&& ind.KNX_COM_OBJ_W_INDICATOR ≠ 0 → i ≠ 0 →
      KonnektingDevice.GetTpUartEvents ind c u .TPUART_EVENT_RECEIVED_KNX_TELEGRAM t i s
        = { s with
            _state := e_KonnektingDeviceState.IDLE
            _comObjectsList := (setComObject s._comObjectsList i
              ((s._comObjectsList i).UpdateValueTelegram t))
            knxEvents := s.knxEvents ++ [i] }) ∧
    ((KonnektingProg.internalComObject c u i s).1 = some false ↔ i ≠ 0) ∧
    ((KonnektingProg.internalComObject c u 0 s).2.rebooted = false →
      (KonnektingProg.internalComObject c u 0 s).1 = some true) ∧
    (s.rebooted = false →
      ((s.read 0 u.array).2 0 ≠ c.PROTOCOLVERSION ∨
        ((s.read 0 u.array).2 0 = c.PROTOCOLVERSION ∧
          ((s.read 0 u.array).2 1 = c.MSGTYPE_ACK ∨
            (s.read 0 u.array).2 1 ∉ c.requestTypes))) →
      KonnektingProg.internalComObject c u 0 s = (some true, s)) := by
  refine ⟨fun h => ?_, fun h hi => ?_, fun h hi => ?_, ?_, ?_, fun hr hdrop => ?_⟩
  · simp [KonnektingDevice.GetTpUartEvents, hcmd, h]
  · subst hi
    have e : KonnektingDevice.GetTpUartEvents ind c u .TPUART_EVENT_RECEIVED_KNX_TELEGRAM t 0 s
        = KonnektingProg.handleMsg c u
            (u.array.setList 0 ((s._comObjectsList 0).UpdateValueTelegram t).value)
            { s with
              _state := e_KonnektingDeviceState.IDLE
              _comObjectsList := (setComObject s._comObjectsList 0
                ((s._comObjectsList 0).UpdateValueTelegram t)) } := by
      simp only [KonnektingDevice.GetTpUartEvents, hcmd, h, KonnektingProg.internalComObject,
        if_true, ne_eq, not_false_eq_true, KonnektingDevice.read, KnxComObject.GetValue,
        setComObject, reduceCtorEq, if_false]
      exact route_consumed _ _ _
    have v := handleMsg_applicationView c u
      (u.array.setList 0 ((s._comObjectsList 0).UpdateValueTelegram t).value)
      { s with
        _state := e_KonnektingDeviceState.IDLE
        _comObjectsList := (setComObject s._comObjectsList 0
          ((s._comObjectsList 0).UpdateValueTelegram t)) }
    rw [← e] at v
    refine ⟨e, ?_, ?_⟩
    · exact congrArg Prod.fst v
    · have := congrFun (congrArg Prod.snd v) 0
      simpa [KonnektingDevice.applicationView, setComObject] using this
  · simp [KonnektingDevice.GetTpUartEvents, hcmd, h, KonnektingProg.internalComObject, hi,
      KonnektingDevice.callKnxEvents]
  · unfold KonnektingProg.internalComObject
    by_cases hi : i = 0
    · simp only [hi, if_true, ne_eq, not_true_eq_false, iff_false]
      split <;> simp
    · simp [hi]
  · intro hr
    unfold KonnektingProg.internalComObject at hr ⊢
    simp only [if_true] at hr ⊢
    simp [hr]
  · unfold KonnektingProg.internalComObject
    simp only [if_true]
    rw [handleMsg_dropped c u _ s hdrop]
    simp [hr]

theorem C12_write_routing_witness :
    ((progDevice._comObjectsList 1).indicator &&& sampleIndicators.KNX_COM_OBJ_W_INDICATOR ≠ 0 ∧
      (1 : Nat) ≠ 0) ∧
    KonnektingDevice.GetTpUartEvents sampleIndicators sampleConsts sampleIndeterminate
        .TPUART_EVENT_RECEIVED_KNX_TELEGRAM ⟨.KNX_COMMAND_VALUE_WRITE, 0x0A01, 2, [1]⟩ 1
        progDevice
      = { progDevice with
          _state := e_KonnektingDeviceState.IDLE
          _comObjectsList := (setComObject progDevice._comObjectsList 1
            ((progDevice._comObjectsList 1).UpdateValueTelegram
              ⟨.KNX_COMMAND_VALUE_WRITE, 0x0A01, 2, [1]⟩))
          knxEvents := progDevice.knxEvents ++ [1] } :=
  ⟨⟨by decide, by decide⟩, (C12_write_routing sampleIndicators sampleConsts sampleIndeterminate
    ⟨.KNX_COMMAND_VALUE_WRITE, 0x0A01, 2, [1]⟩ 1 progDevice rfl).2.2.1 (by decide)
    (by decide)⟩

/-- C16 (the code departs from the claim): `handleMsgReadParameter` takes the index from
`msg[0]`, the byte of the protocol version, not from `msg[2]`. On a device with the latch
set and two declared parameters of one byte, a `WriteParameter` frame stores 0xAB for
parameter 1 (and is acknowledged); the `ReadParameter` frame that then asks for parameter 1
is answered with index 0 and the stored byte 0xFF of parameter 0, where the claim has
`[PROTOCOLVERSION, MSGTYPE_ANSWER_PARAMETER, 1, 0xAB, 0 x 10]`. For every frame the answer is
the one for the index found in byte 0. -/
theorem C16_read_parameter_index_from_version_byte :
    (progDevice._prog._progState = true ∧ 1 < progDevice._prog._numberOfParams ∧
      KonnektingProg.getParamSize progDevice 1 = 1) ∧
    KonnektingProg.getParamValue
      (KonnektingProg.handleMsg sampleConsts sampleIndeterminate
        (frameOf [0x00, 0x1E, 1, 0xAB]) progDevice) 1 sampleIndeterminate.array 0 = 0xAB ∧
    (KonnektingProg.handleMsg sampleConsts sampleIndeterminate (frameOf [0x00, 0x1F, 1])
      (KonnektingProg.handleMsg sampleConsts sampleIndeterminate
        (frameOf [0x00, 0x1E, 1, 0xAB]) progDevice))._txActionList
      = [KonnektingProg.replyAction sampleIndeterminate
          [0x00, 0x00, 0, 0, 0, 0, 0, 0, 0, 0, 0, 0, 0, 0],
        KonnektingProg.replyAction sampleIndeterminate
          [0x00, 0x20, 0, 0xFF, 0, 0, 0, 0, 0, 0, 0, 0, 0, 0]] ∧
    (∀ (c : ProgConsts) (u : Indeterminate) (msg : Buf) (s : KonnektingDevice),
      KonnektingProg.handleMsgReadParameter c u msg s
        = KonnektingProg.handleMsgReadParameter c u (fun _ => msg 0) s) := by
  refine ⟨by decide, by decide, by decide, fun c u msg s => rfl⟩

/-- C20 (the code departs from the claim): the callback sets the state to `IDLE` before the
provisioning handler runs, so `setComObjectAddress` refuses with `KNX_DEVICE_ERROR`: after a
`WriteComObject` frame with the one tuple (1, 0x12, 0x34), received with the latch set (in
state `IDLE` or `INIT`), `getComObjectAddress(1)` is still 0x0A01 and not 0x1234, while the
two bytes are in the non-volatile table and one success ACK is enqueued. If the handler is
run in state `INIT`, the address is set, but the bytes are not stored and two ACK frames are
enqueued, because the bytes are stored only when `setComObjectAddress` has failed. -/
theorem C20_write_com_object_address_not_set :
    (progDevice._prog._progState = true ∧ 1 < progDevice._numberOfComObjects ∧
      progDevice.getComObjectAddress 1 = 0x0A01 ∧ progDevice.EEPROM 12 = 0xFF ∧
      progDevice.EEPROM 13 = 0xFF) ∧
    ((KonnektingDevice.GetTpUartEvents sampleIndicators sampleConsts sampleIndeterminate
        .TPUART_EVENT_RECEIVED_KNX_TELEGRAM
        (sampleTelegram .KNX_COMMAND_VALUE_WRITE [0x00, 0x28, 1, 1, 0x12, 0x34]) 0
        progDevice).getComObjectAddress 1 = 0x0A01 ∧
      (KonnektingDevice.GetTpUartEvents sampleIndicators sampleConsts sampleIndeterminate
        .TPUART_EVENT_RECEIVED_KNX_TELEGRAM
        (sampleTelegram .KNX_COMMAND_VALUE_WRITE [0x00, 0x28, 1, 1, 0x12, 0x34]) 0
        progDevice).EEPROM 12 = 0x12 ∧
      (KonnektingDevice.GetTpUartEvents sampleIndicators sampleConsts sampleIndeterminate
        .TPUART_EVENT_RECEIVED_KNX_TELEGRAM
        (sampleTelegram .KNX_COMMAND_VALUE_WRITE [0x00, 0x28, 1, 1, 0x12, 0x34]) 0
        progDevice).EEPROM 13 = 0x34 ∧
      (KonnektingDevice.GetTpUartEvents sampleIndicators sampleConsts sampleIndeterminate
        .TPUART_EVENT_RECEIVED_KNX_TELEGRAM
        (sampleTelegram .KNX_COMMAND_VALUE_WRITE [0x00, 0x28, 1, 1, 0x12, 0x34]) 0
        progDevice)._txActionList
        = [KonnektingProg.replyAction sampleIndeterminate
            [0x00, 0x00, 0, 0, 0, 0, 0, 0, 0, 0, 0, 0, 0, 0]]) ∧
    ((KonnektingDevice.GetTpUartEvents sampleIndicators sampleConsts sampleIndeterminate
        .TPUART_EVENT_RECEIVED_KNX_TELEGRAM
        (sampleTelegram .KNX_COMMAND_VALUE_WRITE [0x00, 0x28, 1, 1, 0x12, 0x34]) 0
        { progDevice with _state := .INIT }).getComObjectAddress 1 = 0x0A01) ∧
    ((KonnektingProg.handleMsg sampleConsts sampleIndeterminate
        (frameOf [0x00, 0x28, 1, 1, 0x12, 0x34])
        { progDevice with _state := .INIT }).getComObjectAddress 1 = 0x1234 ∧
      (KonnektingProg.handleMsg sampleConsts sampleIndeterminate
        (frameOf [0x00, 0x28, 1, 1, 0x12, 0x34])
        { progDevice with _state := .INIT }).EEPROM 12 = 0xFF ∧
      (KonnektingProg.handleMsg sampleConsts sampleIndeterminate
        (frameOf [0x00, 0x28, 1, 1, 0x12, 0x34])
        { progDevice with _state := .INIT }).EEPROM 13 = 0xFF ∧
      (KonnektingProg.handleMsg sampleConsts sampleIndeterminate
        (frameOf [0x00, 0x28, 1, 1, 0x12, 0x34])
        { progDevice with _state := .INIT })._txActionList
        = [KonnektingProg.replyAction sampleIndeterminate
            [0x00, 0x00, 0, 0, 1, 0, 0, 0, 0, 0, 0, 0, 0, 0],
          KonnektingProg.replyAction sampleIndeterminate
            [0x00, 0x00, 0, 0, 0, 0, 0, 0, 0, 0, 0, 0, 0, 0]]) := by
  refine ⟨by decide, ⟨by decide, by decide, by decide, by decide⟩, by decide,
    ⟨by decide, by decide, by decide, by decide⟩⟩

/-! ## Parameters: offsets, values and typed accessors -/

theorem wrapS_intBits_of_range (t : Target) (x : Int) (h0 : 0 ≤ x)
    (h1 : x < 2 ^ (t.intBits - 1)) : wrapS t.intBits x = x := by
  cases t
  · simp only [Target.intBits, wrapS] at h1 ⊢
    norm_num at h1 ⊢
    omega
  · simp only [Target.intBits, wrapS] at h1 ⊢
    norm_num at h1 ⊢
    omega

theorem calcParamSkipBytes_mono (s : KonnektingDevice) (i j : Nat) (h : i ≤ j) :
    KonnektingProg.calcParamSkipBytes s i ≤ KonnektingProg.calcParamSkipBytes s j := by
  induction j with
  | zero =>
    have : i = 0 := by omega
    subst this
    exact le_refl _
  | succ k ih =>
    rcases Nat.lt_or_ge i (k + 1) with hlt | hge
    · have := ih (by omega)
      simp only [KonnektingProg.calcParamSkipBytes]
      omega
    · have : i = k + 1 := by omega
      subst this
      exact le_refl _

theorem calcParamSkipBytes_eq_sum (s : KonnektingDevice) (index : Nat) :
    KonnektingProg.calcParamSkipBytes s index
      = ∑ i in Finset.range index, KonnektingProg.getParamSize s i := by
  induction index with
  | zero => rfl
  | succ k ih => rw [Finset.sum_range_succ, ← ih]; rfl

/-- Invariant of the loop of `calcParamSkipBytes`: at the test of the condition the
accumulator holds the sum of the sizes before `i`. -/
theorem calcParamSkipBytesLoop_spec (t : Target) (s : KonnektingDevice) (index : Nat)
    (hidx : index < 256)
    (hfit : (KonnektingProg.calcParamSkipBytes s index : Int) < 2 ^ (t.intBits - 1))
    (fuel i : Nat) (hi : i ≤ index) (hfuel : index - i < fuel) :
    KonnektingProg.calcParamSkipBytesLoop t s index fuel i
        (KonnektingProg.calcParamSkipBytes s i : Int)
      = (KonnektingProg.calcParamSkipBytes s index : Int) := by
  induction fuel generalizing i with
  | zero => omega
  | succ f ih =>
    unfold KonnektingProg.calcParamSkipBytesLoop
    by_cases hlt : i < index
    · simp only [hlt, if_true]
      have hmod : (i + 1) % 256 = i + 1 := Nat.mod_eq_of_lt (by omega)
      have hm := calcParamSkipBytes_mono s (i + 1) index (by omega)
      have hstep : addInt t (KonnektingProg.calcParamSkipBytes s i : Int)
          (KonnektingProg.getParamSize s i : Int)
          = (KonnektingProg.calcParamSkipBytes s (i + 1) : Int) := by
        unfold addInt
        rw [wrapS_intBits_of_range]
        · simp [KonnektingProg.calcParamSkipBytes]
        · omega
        · have : (KonnektingProg.calcParamSkipBytes s (i + 1) : Int)
              = (KonnektingProg.calcParamSkipBytes s i : Int)
                + (KonnektingProg.getParamSize s i : Int) := by
            simp [KonnektingProg.calcParamSkipBytes]
          have hm' : (KonnektingProg.calcParamSkipBytes s (i + 1) : Int)
              ≤ (KonnektingProg.calcParamSkipBytes s index : Int) := by exact_mod_cast hm
          omega
      rw [hmod, hstep]
      exact ih (i + 1) (by omega) (by omega)
    · simp only [hlt, if_false]
      have : i = index := by omega
      rw [this]

/-- C23: `calcParamSkipBytes(index)` is the sum of `getParamSize(i)` over all `i < index`;
it is 0 for index 0 and grows by `getParamSize(k)` from `k` to `k + 1`. The loop of the
source, with its `byte` counter and its `int` accumulator, computes this sum for every table
and every `byte` index as long as the sum fits `int`, which it does for every table of bytes
where `int` has 32 bits. -/
theorem C23_calcParamSkipBytes (s : KonnektingDevice) (index : Nat) :
    KonnektingProg.calcParamSkipBytes s index
      = ∑ i in Finset.range index, KonnektingProg.getParamSize s i ∧
    KonnektingProg.calcParamSkipBytes s 0 = 0 ∧
    (∀ k, KonnektingProg.calcParamSkipBytes s (k + 1)
      = KonnektingProg.calcParamSkipBytes s k + KonnektingProg.getParamSize s k) ∧
    (∀ t : Target, index < 256 →
      ((∑ i in Finset.range index, KonnektingProg.getParamSize s i : Nat) : Int)
        < 2 ^ (t.intBits - 1) →
      KonnektingProg.calcParamSkipBytesInt t s index
        = ((∑ i in Finset.range index, KonnektingProg.getParamSize s i : Nat) : Int)) ∧
    (index < 256 → (∀ i, KonnektingProg.getParamSize s i < 256) →
      KonnektingProg.calcParamSkipBytesInt .arm32 s index
        = ((∑ i in Finset.range index, KonnektingProg.getParamSize s i : Nat) : Int)) := by
  have key : ∀ t : Target, index < 256 →
      ((∑ i in Finset.range index, KonnektingProg.getParamSize s i : Nat) : Int)
        < 2 ^ (t.intBits - 1) →
      KonnektingProg.calcParamSkipBytesInt t s index
        = ((∑ i in Finset.range index, KonnektingProg.getParamSize s i : Nat) : Int) := by
    intro t hidx hfit
    rw [← calcParamSkipBytes_eq_sum] at hfit ⊢
    unfold KonnektingProg.calcParamSkipBytesInt
    by_cases h0 : index > 0
    · simp only [h0, if_true]
      have := calcParamSkipBytesLoop_spec t s index hidx hfit 256 0 (by omega) (by omega)
      simpa [KonnektingProg.calcParamSkipBytes] using this
    · have : index = 0 := by omega
      subst this
      simp [KonnektingProg.calcParamSkipBytes]
  refine ⟨calcParamSkipBytes_eq_sum s index, rfl, fun k => rfl, key, fun hidx hb => ?_⟩
  apply key .arm32 hidx
  have hle : (∑ i in Finset.range index, KonnektingProg.getParamSize s i)
      ≤ ∑ _i in Finset.range index, 255 :=
    Finset.sum_le_sum (fun i _ => by have := hb i; omega)
  simp only [Finset.sum_const, Finset.card_range, smul_eq_mul] at hle
  have : (∑ i in Finset.range index, KonnektingProg.getParamSize s i) < 256 * 255 := by
    nlinarith
  have h31 : (2 : Int) ^ (Target.arm32.intBits - 1) = 2147483648 := by
    simp only [Target.intBits]
    norm_num
  rw [h31]
  have hlt : (∑ i in Finset.range index, KonnektingProg.getParamSize s i) < 2147483648 := by
    omega
  exact_mod_cast hlt

theorem C23_calcParamSkipBytes_witness :
    ((2 : Nat) < 256 ∧
      ((∑ i in Finset.range 2, KonnektingProg.getParamSize paramDevice i : Nat) : Int)
        < 2 ^ (Target.avr.intBits - 1)) ∧
    KonnektingProg.calcParamSkipBytesInt .avr paramDevice 2
      = ((∑ i in Finset.range 2, KonnektingProg.getParamSize paramDevice i : Nat) : Int) :=
  ⟨⟨by decide, by decide⟩,
    (C23_calcParamSkipBytes paramDevice 2).2.2.2.1 .avr (by decide) (by decide)⟩

theorem foldl_set_range (g : Nat → Nat) (v0 : Buf) (w j : Nat) :
    (List.range w).foldl (fun value i => value.set i (g i)) v0 j
      = if j < w then g j else v0 j := by
  induction w with
  | zero => simp
  | succ k ih =>
    rw [List.range_succ, List.foldl_append, List.foldl_cons, List.foldl_nil]
    rw [show ∀ (b : Buf) (i v j : Nat), Buf.set b i v j = if j = i then v else b j from
      fun _ _ _ _ => rfl]
    by_cases hjk : j = k
    · subst hjk
      simp
    · simp only [hjk, if_false, ih]
      by_cases hlt : j < k
      · have : j < k + 1 := by omega
        simp [hlt, this]
      · have : ¬ j < k + 1 := by omega
        simp [hlt, this]

/-- C24: `getParamValue(index, buf)` with `index` at or above the number of declared
parameters returns `buf` as it was; otherwise, with `w = getParamSize(index)`, element `i`
of `buf` for `i < w` becomes the non-volatile byte at
`_paramTableStartindex + calcParamSkipBytes(index) + i` and every other element is as
before. The function has no other result: it assigns no member and writes no non-volatile
byte. -/
theorem C24_getParamValue (s : KonnektingDevice) (index : Nat) (buf : Buf) :
    (index ≥ s._prog._numberOfParams → KonnektingProg.getParamValue s index buf = buf) ∧
    (index < s._prog._numberOfParams → index < 256 →
      ∀ i, KonnektingProg.getParamValue s index buf i
        = if i < KonnektingProg.getParamSize s index then
            s.EEPROM (s._prog._paramTableStartindex
              + KonnektingProg.calcParamSkipBytes s index + i)
          else buf i) := by
  refine ⟨fun h => ?_, fun h h256 i => ?_⟩
  · unfold KonnektingProg.getParamValue
    have hgt : (index : Int) > (s._prog._numberOfParams : Int) - 1 := by omega
    simp only [hgt, if_true]
  · unfold KonnektingProg.getParamValue
    have hgt : ¬ (index : Int) > (s._prog._numberOfParams : Int) - 1 := by omega
    simp only [hgt, if_false, Nat.mod_eq_of_lt h256]
    exact foldl_set_range
      (fun i => s.EEPROM (s._prog._paramTableStartindex
        + KonnektingProg.calcParamSkipBytes s index + i)) buf _ i

theorem C24_getParamValue_witness :
    ((1 : Nat) < paramDevice._prog._numberOfParams ∧ (1 : Nat) < 256) ∧
    ∀ i, KonnektingProg.getParamValue paramDevice 1 sampleIndeterminate.array i
      = if i < KonnektingProg.getParamSize paramDevice 1 then
          paramDevice.EEPROM (paramDevice._prog._paramTableStartindex
            + KonnektingProg.calcParamSkipBytes paramDevice 1 + i)
        else sampleIndeterminate.array i :=
  ⟨⟨by decide, by decide⟩,
    (C24_getParamValue paramDevice 1 sampleIndeterminate.array).2 (by decide) (by decide)⟩

/-- C25: a typed accessor called for an index whose declared width differs from the width of
its type (1 byte for `getUINT8Param` and `getINT8Param`, 2 bytes for `getUINT16Param` and
`getINT16Param`, 4 bytes for `getUINT32Param` and `getINT32Param`) returns 0, and it does so
whatever the non-volatile memory holds: the test precedes the call of `getParamValue`, the
only place where the memory is read. -/
theorem C25_typed_accessor_width_mismatch (t : Target) (u : Indeterminate)
    (s : KonnektingDevice) (index : Nat) :
    (KonnektingProg.getParamSize s index ≠ 1 →
      ∀ m : Nat → Nat,
        KonnektingProg.getUINT8Param u { s with EEPROM := m } index = 0 ∧
        KonnektingProg.getINT8Param u { s with EEPROM := m } index = 0) ∧
    (KonnektingProg.getParamSize s index ≠ 2 →
      ∀ m : Nat → Nat,
        KonnektingProg.getUINT16Param t u { s with EEPROM := m } index = 0 ∧
        KonnektingProg.getINT16Param t u { s with EEPROM := m } index = 0) ∧
    (KonnektingProg.getParamSize s index ≠ 4 →
      ∀ m : Nat → Nat,
        KonnektingProg.getUINT32Param t u { s with EEPROM := m } index = 0 ∧
        KonnektingProg.getINT32Param t u { s with EEPROM := m } index = 0) := by
  refine ⟨fun h m => ?_, fun h m => ?_, fun h m => ?_⟩
  · have h' : KonnektingProg.getParamSize { s with EEPROM := m } index ≠ 1 := h
    constructor
    · simp [KonnektingProg.getUINT8Param, KonnektingProg.PARAM_UINT8, h']
    · simp [KonnektingProg.getINT8Param, KonnektingProg.PARAM_INT8, h']
  · have h' : KonnektingProg.getParamSize { s with EEPROM := m } index ≠ 2 := h
    constructor
    · simp [KonnektingProg.getUINT16Param, KonnektingProg.PARAM_UINT16, h']
    · simp [KonnektingProg.getINT16Param, KonnektingProg.PARAM_INT16, h']
  · have h' : KonnektingProg.getParamSize { s with EEPROM := m } index ≠ 4 := h
    constructor
    · simp [KonnektingProg.getUINT32Param, KonnektingProg.PARAM_UINT32, h']
    · simp [KonnektingProg.getINT32Param, KonnektingProg.PARAM_INT32, h']

theorem C25_typed_accessor_width_mismatch_witness :
    KonnektingProg.getParamSize paramDevice 1 ≠ 4 ∧
    KonnektingProg.getUINT32Param .arm32 sampleIndeterminate
      { paramDevice with EEPROM := fun _ => 0x55 } 1 = 0 :=
  ⟨by decide, ((C25_typed_accessor_width_mismatch .arm32 sampleIndeterminate paramDevice 1).2.2
    (by decide) (fun _ => 0x55)).1⟩

/-- C21 (the code departs from the claim): in `handleMsgReadComObject` the offset of tuple
`i` is `3 + ((i - 1) * 3)`, three bytes before the place the claim gives. The first tuple is
written over bytes 0..2 of the reply (protocol version, type and count are lost), the slot
of the last tuple is never written and keeps the content that the local array had, and the
zero fill starts after it. For the request for the one object 1 (address 0x0A01) the reply
is `[1, 0x0A, 0x01, ?, ?, ?, 0 x 8]`, where the claim has
`[PROTOCOLVERSION, MSGTYPE_ANSWER_COM_OBJECT, 1, 1, 0x0A, 0x01, 0 x 8]`; for the request for
the objects 1, 0, 1 it is `[1, 0x0A, 0x01, 0, 0x7F, 0xFF, 1, 0x0A, 0x01, ?, ?, ?, 0, 0]`.
The bytes shown as `?` are 0xEE in the example. -/
theorem C21_read_com_object_tuples_shifted :
    (progDevice.getComObjectAddress 1 = 0x0A01 ∧ progDevice.getComObjectAddress 0 = 0x7FFF ∧
      sampleIndeterminate.array 3 = 0xEE) ∧
    (KonnektingProg.handleMsg sampleConsts sampleIndeterminate (frameOf [0x00, 0x29, 1, 1])
      progDevice)._txActionList
      = [KonnektingProg.replyAction sampleIndeterminate
          [1, 0x0A, 0x01, 0xEE, 0xEE, 0xEE, 0, 0, 0, 0, 0, 0, 0, 0]] ∧
    (KonnektingProg.handleMsg sampleConsts sampleIndeterminate
      (frameOf [0x00, 0x29, 3, 1, 0, 1]) progDevice)._txActionList
      = [KonnektingProg.replyAction sampleIndeterminate
          [1, 0x0A, 0x01, 0, 0x7F, 0xFF, 1, 0x0A, 0x01, 0xEE, 0xEE, 0xEE, 0, 0]] := by
  refine ⟨by decide, by decide, by decide⟩

/-- C26 (the code departs from the claim): the 16-bit accessors compute
`(paramValue[1] << 8) + (paramValue[0] << 0)`, the little-endian value, and the 32-bit
accessors `(paramValue[1] << 24) + (paramValue[1] << 16) + (paramValue[1] << 8) +
paramValue[0]`, which ignores bytes 2 and 3. After `WriteParameter` has stored the bytes
0x12 0x34 for the 2-byte parameter 1, `getUINT16Param(1)` is 0x3412, not 0x1234; after it
has stored 0xFF 0x00 there, `getINT16Param(1)` is 255, not -256; after it has stored
1, 2, 3, 4 for the 4-byte parameter 2, `getUINT32Param(2)` is 0x02020201 where `int` has 32
bits (and 0x0201 where it has 16), not 0x01020304, and the same as after storing
1, 2, 9, 9. -/
theorem C26_typed_accessors_byte_order :
    (paramDevice._prog._progState = true ∧ KonnektingProg.getParamSize paramDevice 1 = 2 ∧
      KonnektingProg.getParamSize paramDevice 2 = 4 ∧ paramDevice._prog._numberOfParams = 3) ∧
    (∀ t : Target,
      KonnektingProg.getUINT16Param t sampleIndeterminate
        (KonnektingProg.handleMsg sampleConsts sampleIndeterminate
          (frameOf [0x00, 0x1E, 1, 0x12, 0x34]) paramDevice) 1 = 0x3412 ∧
      KonnektingProg.getINT16Param t sampleIndeterminate
        (KonnektingProg.handleMsg sampleConsts sampleIndeterminate
          (frameOf [0x00, 0x1E, 1, 0xFF, 0x00]) paramDevice) 1 = 255) ∧
    (KonnektingProg.getUINT32Param .arm32 sampleIndeterminate
        (KonnektingProg.handleMsg sampleConsts sampleIndeterminate
          (frameOf [0x00, 0x1E, 2, 1, 2, 3, 4]) paramDevice) 2 = 0x02020201 ∧
      KonnektingProg.getUINT32Param .arm32 sampleIndeterminate
        (KonnektingProg.handleMsg sampleConsts sampleIndeterminate
          (frameOf [0x00, 0x1E, 2, 1, 2, 9, 9]) paramDevice) 2 = 0x02020201 ∧
      KonnektingProg.getINT32Param .arm32 sampleIndeterminate
        (KonnektingProg.handleMsg sampleConsts sampleIndeterminate
          (frameOf [0x00, 0x1E, 2, 1, 2, 3, 4]) paramDevice) 2 = 0x02020201 ∧
      KonnektingProg.getUINT32Param .avr sampleIndeterminate
        (KonnektingProg.handleMsg sampleConsts sampleIndeterminate
          (frameOf [0x00, 0x1E, 2, 1, 2, 3, 4]) paramDevice) 2 = 0x0201) ∧
    (KonnektingProg.getParamValue
        (KonnektingProg.handleMsg sampleConsts sampleIndeterminate
          (frameOf [0x00, 0x1E, 2, 1, 2, 3, 4]) paramDevice) 2 sampleIndeterminate.array 0 = 1 ∧
      KonnektingProg.getParamValue
        (KonnektingProg.handleMsg sampleConsts sampleIndeterminate
          (frameOf [0x00, 0x1E, 2, 1, 2, 3, 4]) paramDevice) 2 sampleIndeterminate.array 1 = 2 ∧
      KonnektingProg.getParamValue
        (KonnektingProg.handleMsg sampleConsts sampleIndeterminate
          (frameOf [0x00, 0x1E, 2, 1, 2, 3, 4]) paramDevice) 2 sampleIndeterminate.array 2 = 3 ∧
      KonnektingProg.getParamValue
        (KonnektingProg.handleMsg sampleConsts sampleIndeterminate
          (frameOf [0x00, 0x1E, 2, 1, 2, 3, 4]) paramDevice) 2 sampleIndeterminate.array 3
        = 4) := by
  refine ⟨by decide, fun t => ?_, ⟨by decide, by decide, by decide, by decide⟩,
    ⟨by decide, by decide, by decide, by decide⟩⟩
  cases t <;> exact ⟨by decide, by decide⟩

theorem handleMsg_write_programming_mode (c : ProgConsts) (u : Indeterminate) (buffer : Buf)
    (s : KonnektingDevice) (hd : c.LabelsDistinct) (h0 : buffer 0 = c.PROTOCOLVERSION)
    (h1 : buffer 1 = c.MSGTYPE_WRITE_PROGRAMMING_MODE) :
    KonnektingProg.handleMsg c u buffer s
      = KonnektingProg.handleMsgWriteProgrammingMode c u buffer s := by
  simp only [ProgConsts.LabelsDistinct, ProgConsts.caseLabels, List.nodup_cons, List.mem_cons,
    List.mem_singleton, not_or, List.not_mem_nil, not_false_eq_true, List.nodup_nil,
    and_true] at hd
  obtain ⟨a, b, d, -⟩ := hd
  have a1 : c.MSGTYPE_WRITE_PROGRAMMING_MODE ≠ c.MSGTYPE_ACK := fun h => a.2.2.1 h.symm
  have a2 : c.MSGTYPE_WRITE_PROGRAMMING_MODE ≠ c.MSGTYPE_READ_DEVICE_INFO :=
    fun h => b.2.1 h.symm
  have a3 : c.MSGTYPE_WRITE_PROGRAMMING_MODE ≠ c.MSGTYPE_RESTART := fun h => d.1 h.symm
  unfold KonnektingProg.handleMsg
  simp only [h0, h1, ne_eq, not_true_eq_false, if_false, a1, a2, a3, if_true]

/-- C22: a `WriteProgrammingMode` frame. If bytes 2 and 3 of the frame are the high and the
low byte of the individual address of the device, the programming latch (and the LED that
shows it) becomes `frame[4] == 0x01`; if they are not, the latch is unchanged. In both cases
nothing else of the device changes (individual address, device flags, non-volatile memory,
objects) except that the success ACK `[PROTOCOLVERSION, MSGTYPE_ACK, 0, 0, 0, 0 x 9]` is
appended to the action queue, which drops it only when it is full. -/
theorem C22_write_programming_mode (c : ProgConsts) (u : Indeterminate) (buffer : Buf)
    (s : KonnektingDevice) (hd : c.LabelsDistinct)
    (h15 : (s._comObjectsList 0).length = 15)
    (h0 : buffer 0 = c.PROTOCOLVERSION)
    (h1 : buffer 1 = c.MSGTYPE_WRITE_PROGRAMMING_MODE) :
    ((buffer 2 = (s._prog._individualAddress >>> 8) &&& 0xff ∧
        buffer 3 = (s._prog._individualAddress >>> 0) &&& 0xff) →
      KonnektingProg.handleMsg c u buffer s
        = { s with
            _prog := { s._prog with
              _progState := decide (buffer 4 = 0x01)
              progLED := decide (buffer 4 = 0x01) }
            _txActionList := (s._txActionList.Append (KonnektingProg.replyAction u
              [c.PROTOCOLVERSION, c.MSGTYPE_ACK, 0, 0, 0, 0, 0, 0, 0, 0, 0, 0, 0, 0])) }) ∧
    (¬ (buffer 2 = (s._prog._individualAddress >>> 8) &&& 0xff ∧
        buffer 3 = (s._prog._individualAddress >>> 0) &&& 0xff) →
      KonnektingProg.handleMsg c u buffer s
        = { s with
            _txActionList := (s._txActionList.Append (KonnektingProg.replyAction u
              [c.PROTOCOLVERSION, c.MSGTYPE_ACK, 0, 0, 0, 0, 0, 0, 0, 0, 0, 0, 0, 0])) }) ∧
    enqueuedBy (KonnektingProg.handleMsg c u buffer) s
      = (if s._txActionList.length < ACTIONS_QUEUE_SIZE then
          [KonnektingProg.replyAction u
            [c.PROTOCOLVERSION, c.MSGTYPE_ACK, 0, 0, 0, 0, 0, 0, 0, 0, 0, 0, 0, 0]]
        else []) ∧
    (KonnektingProg.handleMsg c u buffer s)._prog._individualAddress
      = s._prog._individualAddress ∧
    (KonnektingProg.handleMsg c u buffer s)._prog._deviceFlags = s._prog._deviceFlags ∧
    (KonnektingProg.handleMsg c u buffer s).EEPROM = s.EEPROM := by
  have hdisp := handleMsg_write_programming_mode c u buffer s hd h0 h1
  have hyes : (buffer 2 = (s._prog._individualAddress >>> 8) &&& 0xff ∧
        buffer 3 = (s._prog._individualAddress >>> 0) &&& 0xff) →
      KonnektingProg.handleMsgWriteProgrammingMode c u buffer s
        = { s with
            _prog := { s._prog with
              _progState := decide (buffer 4 = 0x01)
              progLED := decide (buffer 4 = 0x01) }
            _txActionList := (s._txActionList.Append (KonnektingProg.replyAction u
              [c.PROTOCOLVERSION, c.MSGTYPE_ACK, 0, 0, 0, 0, 0, 0, 0, 0, 0, 0, 0, 0])) } := by
    intro hm
    unfold KonnektingProg.handleMsgWriteProgrammingMode
    simp only [hm, and_self, if_true]
    rw [sendAck_eq]
    · unfold KonnektingProg.setProgState
      by_cases h4 : buffer 4 = 0x01
      · simp [h4]
      · simp [h4]
    · unfold KonnektingProg.setProgState
      split <;> exact h15
  have hno : ¬ (buffer 2 = (s._prog._individualAddress >>> 8) &&& 0xff ∧
        buffer 3 = (s._prog._individualAddress >>> 0) &&& 0xff) →
      KonnektingProg.handleMsgWriteProgrammingMode c u buffer s
        = { s with
            _txActionList := (s._txActionList.Append (KonnektingProg.replyAction u
              [c.PROTOCOLVERSION, c.MSGTYPE_ACK, 0, 0, 0, 0, 0, 0, 0, 0, 0, 0, 0, 0])) } := by
    intro hm
    unfold KonnektingProg.handleMsgWriteProgrammingMode
    simp only [hm, if_false]
    rw [sendAck_eq c u 0 0 s h15]
    simp
  refine ⟨fun hm => hdisp.trans (hyes hm), fun hm => hdisp.trans (hno hm), ?_, ?_, ?_, ?_⟩
  · unfold enqueuedBy
    rw [hdisp]
    by_cases hm : (buffer 2 = (s._prog._individualAddress >>> 8) &&& 0xff ∧
        buffer 3 = (s._prog._individualAddress >>> 0) &&& 0xff)
    · rw [hyes hm]
      exact drop_length_append _ _
    · rw [hno hm]
      exact drop_length_append _ _
  · rw [hdisp]
    by_cases hm : (buffer 2 = (s._prog._individualAddress >>> 8) &&& 0xff ∧
        buffer 3 = (s._prog._individualAddress >>> 0) &&& 0xff)
    · rw [hyes hm]
    · rw [hno hm]
  · rw [hdisp]
    by_cases hm : (buffer 2 = (s._prog._individualAddress >>> 8) &&& 0xff ∧
        buffer 3 = (s._prog._individualAddress >>> 0) &&& 0xff)
    · rw [hyes hm]
    · rw [hno hm]
  · rw [hdisp]
    by_cases hm : (buffer 2 = (s._prog._individualAddress >>> 8) &&& 0xff ∧
        buffer 3 = (s._prog._individualAddress >>> 0) &&& 0xff)
    · rw [hyes hm]
    · rw [hno hm]

theorem C22_write_programming_mode_witness :
    (sampleConsts.LabelsDistinct ∧
      (({ progDevice with _prog := sampleProg } : KonnektingDevice)._comObjectsList 0).length
        = 15 ∧
      frameOf [0x00, 0x0A, 0x11, 0xFE, 0x01] 2
        = (({ progDevice with _prog := sampleProg } : KonnektingDevice)._prog._individualAddress
          >>> 8) &&& 0xff ∧
      frameOf [0x00, 0x0A, 0x11, 0xFE, 0x01] 3
        = (({ progDevice with _prog := sampleProg } : KonnektingDevice)._prog._individualAddress
          >>> 0) &&& 0xff) ∧
    KonnektingProg.handleMsg sampleConsts sampleIndeterminate
        (frameOf [0x00, 0x0A, 0x11, 0xFE, 0x01]) { progDevice with _prog := sampleProg }
      = { ({ progDevice with _prog := sampleProg } : KonnektingDevice) with
          _prog := { sampleProg with
            _progState := decide (frameOf [0x00, 0x0A, 0x11, 0xFE, 0x01] 4 = 0x01)
            progLED := decide (frameOf [0x00, 0x0A, 0x11, 0xFE, 0x01] 4 = 0x01) }
          _txActionList :=
            ((({ progDevice with _prog := sampleProg } : KonnektingDevice)._txActionList).Append
              (KonnektingProg.replyAction sampleIndeterminate
                [sampleConsts.PROTOCOLVERSION, sampleConsts.MSGTYPE_ACK,
                  0, 0, 0, 0, 0, 0, 0, 0, 0, 0, 0, 0])) } :=
  ⟨⟨by decide, rfl, by decide, by decide⟩,
    (C22_write_programming_mode sampleConsts sampleIndeterminate
      (frameOf [0x00, 0x0A, 0x11, 0xFE, 0x01]) { progDevice with _prog := sampleProg }
      (by decide) rfl rfl rfl).1 ⟨by decide, by decide⟩⟩

/-! ## Start-up of the provisioning handler -/

theorem setComObjectAddress_frame (index addr : Nat) (s : KonnektingDevice) :
    (KonnektingDevice.setComObjectAddress index addr s).2._numberOfComObjects
        = s._numberOfComObjects ∧
    (KonnektingDevice.setComObjectAddress index addr s).2._prog = s._prog ∧
    (KonnektingDevice.setComObjectAddress index addr s).2.EEPROM = s.EEPROM ∧
    (KonnektingDevice.setComObjectAddress index addr s).2._state = s._state ∧
    (KonnektingDevice.setComObjectAddress index addr s).2._txActionList = s._txActionList := by
  unfold KonnektingDevice.setComObjectAddress
  split
  · exact ⟨rfl, rfl, rfl, rfl, rfl⟩
  · split <;> exact ⟨rfl, rfl, rfl, rfl, rfl⟩

/-- The loop of `init` ends when the device has at most 127 objects, and it changes nothing
but the object table. -/
theorem initComObjects_terminates (c : ProgConsts) (fuel i : Nat) (s : KonnektingDevice)
    (hn : s._numberOfComObjects ≤ 127) (hi : i ≤ s._numberOfComObjects * 2)
    (heven : i % 2 = 0) (hfuel : (s._numberOfComObjects * 2 - i) / 2 < fuel) :
    ∃ s', KonnektingProg.initComObjects c fuel i s = some s' ∧
      s'._numberOfComObjects = s._numberOfComObjects ∧ s'._prog = s._prog ∧
      s'.EEPROM = s.EEPROM ∧ s'._state = s._state ∧ s'._txActionList = s._txActionList := by
  induction fuel generalizing i s with
  | zero => omega
  | succ f ih =>
    unfold KonnektingProg.initComObjects
    by_cases hlt : i < s._numberOfComObjects * 2
    · simp only [hlt, if_true]
      have hmod : (i + 2) % 256 = i + 2 := Nat.mod_eq_of_lt (by omega)
      rw [hmod]
      obtain ⟨f1, f2, f3, f4, f5⟩ := setComObjectAddress_frame ((i + 1) % 256)
        (((s.EEPROM (i + c.EEPROM_COMOBJECTTABLE_START) <<< 8)
          + (s.EEPROM (i + c.EEPROM_COMOBJECTTABLE_START + 1) <<< 0)) % 65536) s
      obtain ⟨s', h1, h2, h3, h4, h5, h6⟩ := ih (i + 2)
        (KonnektingDevice.setComObjectAddress ((i + 1) % 256)
          (((s.EEPROM (i + c.EEPROM_COMOBJECTTABLE_START) <<< 8)
            + (s.EEPROM (i + c.EEPROM_COMOBJECTTABLE_START + 1) <<< 0)) % 65536) s).2
        (by rw [f1]; exact hn) (by rw [f1]; omega) (by omega) (by rw [f1]; omega)
      exact ⟨s', h1, by rw [h2, f1], by rw [h3, f2], by rw [h4, f3], by rw [h5, f4],
        by rw [h6, f5]⟩
    · simp only [hlt, if_false]
      exact ⟨s, rfl, rfl, rfl, rfl, rfl, rfl⟩

set_option maxRecDepth 100000 in
theorem and_0x80_of_low_bits : ∀ f : Nat, f < 256 → f &&& 0x7F = 0x7F →
    (f = 0xFF ↔ f &&& 0x80 ≠ 0) := by
  decide

/-- C27 (as stated, refuted): the device-flags byte 0xFE has bit 7 set, yet
`isFactorySetting()` is false for it, and `KonnektingProg::init` over a non-volatile memory
whose flags byte is 0xFE takes the individual address 0x1234 kept there instead of the
default. -/
theorem C27_factory_test_compares_whole_byte :
    ((0xFE : Nat) &&& 0x80 ≠ 0 ∧
      KonnektingProg.isFactorySetting
        { progDevice with _prog := { sampleProg with _deviceFlags := 0xFE } } = false) ∧
    (KonnektingProg.init sampleConsts 3 8 0xDEAD 1 0
      { progDevice with
        _state := .INIT
        EEPROM := fun a => [0xFE, 0x12, 0x34].getD a 0xFF }).map
        KonnektingProg.getIndividualAddress = some 0x1234 := by
  refine ⟨by decide, by decide⟩

/-- C27 (amended): `isFactorySetting()` is true exactly when the device-flags byte is 0xFF;
for a byte whose bits 0..6 are all set this is the same as bit 7 being set.
`KonnektingProg::init` over a memory whose flags byte is 0xFF keeps the default individual
address `P_ADDR(1, 1, 254)` and leaves the object table alone; over any other flags byte it
takes the individual address from the memory and runs the loop that sets object addresses
from the memory (which ends when the device has at most 127 objects). -/
theorem C27_isFactorySetting (c : ProgConsts)
    (progButtonPin progLedPin manufacturerID deviceID revisionID : Nat)
    (s : KonnektingDevice) :
    (KonnektingProg.isFactorySetting s = true ↔ s._prog._deviceFlags = 0xFF) ∧
    (s._prog._deviceFlags < 256 → s._prog._deviceFlags &&& 0x7F = 0x7F →
      (KonnektingProg.isFactorySetting s = true ↔ s._prog._deviceFlags &&& 0x80 ≠ 0)) ∧
    (s.EEPROM c.EEPROM_DEVICE_FLAGS = 0xFF →
      KonnektingProg.init c progButtonPin progLedPin manufacturerID deviceID revisionID s
        = some { s with _prog := { s._prog with
            _initialized := true
            _manufacturerID := manufacturerID
            _deviceID := deviceID
            _revisionID := revisionID
            progLED := false
            _paramTableStartindex :=
              c.EEPROM_COMOBJECTTABLE_START + s._numberOfComObjects * 2
            _deviceFlags := 0xFF
            _individualAddress := P_ADDR 1 1 254 } }) ∧
    P_ADDR 1 1 254 = 0x11FE ∧
    (s.EEPROM c.EEPROM_DEVICE_FLAGS ≠ 0xFF →
      KonnektingProg.init c progButtonPin progLedPin manufacturerID deviceID revisionID s
        = KonnektingProg.initComObjects c 129 0 { s with _prog := { s._prog with
            _initialized := true
            _manufacturerID := manufacturerID
            _deviceID := deviceID
            _revisionID := revisionID
            progLED := false
            _paramTableStartindex :=
              c.EEPROM_COMOBJECTTABLE_START + s._numberOfComObjects * 2
            _deviceFlags := s.EEPROM c.EEPROM_DEVICE_FLAGS
            _individualAddress :=
              ((s.EEPROM c.EEPROM_INDIVIDUALADDRESS_HI <<< 8)
                + (s.EEPROM c.EEPROM_INDIVIDUALADDRESS_LO <<< 0)) % 65536 } }) ∧
    (s.EEPROM c.EEPROM_DEVICE_FLAGS ≠ 0xFF → s._numberOfComObjects ≤ 127 →
      ∃ s', KonnektingProg.init c progButtonPin progLedPin manufacturerID deviceID revisionID s
          = some s' ∧
        KonnektingProg.getIndividualAddress s'
          = ((s.EEPROM c.EEPROM_INDIVIDUALADDRESS_HI <<< 8)
              + (s.EEPROM c.EEPROM_INDIVIDUALADDRESS_LO <<< 0)) % 65536 ∧
        KonnektingProg.isFactorySetting s' = false) := by
  have hnf : s.EEPROM c.EEPROM_DEVICE_FLAGS ≠ 0xFF →
      KonnektingProg.init c progButtonPin progLedPin manufacturerID deviceID revisionID s
        = KonnektingProg.initComObjects c 129 0 { s with _prog := { s._prog with
            _initialized := true
            _manufacturerID := manufacturerID
            _deviceID := deviceID
            _revisionID := revisionID
            progLED := false
            _paramTableStartindex :=
              c.EEPROM_COMOBJECTTABLE_START + s._numberOfComObjects * 2
            _deviceFlags := s.EEPROM c.EEPROM_DEVICE_FLAGS
            _individualAddress :=
              ((s.EEPROM c.EEPROM_INDIVIDUALADDRESS_HI <<< 8)
                + (s.EEPROM c.EEPROM_INDIVIDUALADDRESS_LO <<< 0)) % 65536 } } := by
    intro h
    simp [KonnektingProg.init, KonnektingProg.isFactorySetting, h]
  refine ⟨by simp [KonnektingProg.isFactorySetting], fun h256 hlow => ?_, fun h => ?_,
    by decide, hnf, fun h hn => ?_⟩
  · rw [← and_0x80_of_low_bits _ h256 hlow]
    simp [KonnektingProg.isFactorySetting]
  · simp [KonnektingProg.init, KonnektingProg.isFactorySetting, h]
  · rw [hnf h]
    obtain ⟨s', h1, -, h3, -, -, -⟩ := initComObjects_terminates c 129 0
      { s with _prog := { s._prog with
            _initialized := true
            _manufacturerID := manufacturerID
            _deviceID := deviceID
            _revisionID := revisionID
            progLED := false
            _paramTableStartindex :=
              c.EEPROM_COMOBJECTTABLE_START + s._numberOfComObjects * 2
            _deviceFlags := s.EEPROM c.EEPROM_DEVICE_FLAGS
            _individualAddress :=
              ((s.EEPROM c.EEPROM_INDIVIDUALADDRESS_HI <<< 8)
                + (s.EEPROM c.EEPROM_INDIVIDUALADDRESS_LO <<< 0)) % 65536 } }
      hn (Nat.zero_le _) rfl (by
        show (s._numberOfComObjects * 2 - 0) / 2 < 129
        omega)
    refine ⟨s', h1, ?_, ?_⟩
    · unfold KonnektingProg.getIndividualAddress
      rw [h3]
    · unfold KonnektingProg.isFactorySetting
      rw [h3]
      simpa using h

theorem C27_isFactorySetting_witness :
    ((({ progDevice with
        _state := e_KonnektingDeviceState.INIT
        EEPROM := fun a => [0x7F, 0x12, 0x34].getD a 0xFF } : KonnektingDevice).EEPROM
          sampleConsts.EEPROM_DEVICE_FLAGS ≠ 0xFF) ∧
      ({ progDevice with
        _state := e_KonnektingDeviceState.INIT
        EEPROM := fun a => [0x7F, 0x12, 0x34].getD a 0xFF } :
          KonnektingDevice)._numberOfComObjects ≤ 127) ∧
    ∃ s', KonnektingProg.init sampleConsts 3 8 0xDEAD 1 0
        { progDevice with
          _state := e_KonnektingDeviceState.INIT
          EEPROM := fun a => [0x7F, 0x12, 0x34].getD a 0xFF } = some s' ∧
      KonnektingProg.getIndividualAddress s'
        = (((({ progDevice with
            _state := e_KonnektingDeviceState.INIT
            EEPROM := fun a => [0x7F, 0x12, 0x34].getD a 0xFF } : KonnektingDevice).EEPROM
              sampleConsts.EEPROM_INDIVIDUALADDRESS_HI) <<< 8)
          + ((({ progDevice with
            _state := e_KonnektingDeviceState.INIT
            EEPROM := fun a => [0x7F, 0x12, 0x34].getD a 0xFF } : KonnektingDevice).EEPROM
              sampleConsts.EEPROM_INDIVIDUALADDRESS_LO) <<< 0)) % 65536 ∧
      KonnektingProg.isFactorySetting s' = false :=
  ⟨⟨by decide, by decide⟩,
    (C27_isFactorySetting sampleConsts 3 8 0xDEAD 1 0
      { progDevice with
        _state := e_KonnektingDeviceState.INIT
        EEPROM := fun a => [0x7F, 0x12, 0x34].getD a 0xFF }).2.2.2.2.2
      (by decide) (by decide)⟩

/-! ## Provisioning: the device flags along a run of frames -/

theorem write_prog (u : Indeterminate) (i : Nat) (v : Buf) (s : KonnektingDevice) :
    (KonnektingDevice.write u i v s).2._prog = s._prog := by
  unfold KonnektingDevice.write
  dsimp only
  split <;> rfl

theorem sendAck_prog (c : ProgConsts) (u : Indeterminate) (e i : Nat)
    (s : KonnektingDevice) : (KonnektingProg.sendAck c u e i s)._prog = s._prog := by
  unfold KonnektingProg.sendAck
  exact write_prog _ _ _ _

theorem foldl_prog (f : KonnektingDevice → Nat → KonnektingDevice)
    (h : ∀ s i, (f s i)._prog = s._prog) (l : List Nat) (s : KonnektingDevice) :
    (l.foldl f s)._prog = s._prog := by
  induction l generalizing s with
  | nil => rfl
  | cons a l ih => rw [List.foldl_cons, ih, h]

theorem handleMsgWriteParameter_prog (c : ProgConsts) (u : Indeterminate) (msg : Buf)
    (s : KonnektingDevice) :
    (KonnektingProg.handleMsgWriteParameter c u msg s)._prog = s._prog := by
  unfold KonnektingProg.handleMsgWriteParameter
  dsimp only
  split
  · exact sendAck_prog _ _ _ _ _
  · rw [sendAck_prog]
    apply foldl_prog
    intro s i
    rfl

/-- C29 (the code departs from the claim): the body of `KonnektingDevice::init` mentions
neither `comObjectList` nor `paramSizeList`, and nothing else assigns `_comObjectsList`,
`_numberOfComObjects` or the parameter table, so these keep what they held before the call.
For a device whose members hold a table of one object (address 0x0A01) and parameter widths
that are all 1, `init` with a list of three objects and the widths 1, 2, 4 ends with
`getNumberOfComObjects() = 1`, `getComObjectAddress(1) = 0x0A01` and `getParamSize(1) = 1`,
where the claim has 3, 0x1001 and 2. For all arguments the result is the same as for empty
lists. -/
theorem C29_init_ignores_lists :
    (({ sampleDevice with _state := .INIT } : KonnektingDevice).getNumberOfComObjects = 1 ∧
      [(⟨0x7FFF, 15, 0x1E, 0, List.replicate 14 0, false⟩ : KnxComObject),
        ⟨0x1001, 2, 0x1E, 0, [0], false⟩, ⟨0x1002, 2, 0x1E, 0, [0], false⟩].length = 3) ∧
    ((KonnektingDevice.init sampleConsts true 0 0
        [⟨0x7FFF, 15, 0x1E, 0, List.replicate 14 0, false⟩,
          ⟨0x1001, 2, 0x1E, 0, [0], false⟩, ⟨0x1002, 2, 0x1E, 0, [0], false⟩]
        [1, 2, 4] 3 8 0xDEAD 1 0 { sampleDevice with _state := .INIT }).map
          KonnektingDevice.getNumberOfComObjects = some 1 ∧
      (KonnektingDevice.init sampleConsts true 0 0
        [⟨0x7FFF, 15, 0x1E, 0, List.replicate 14 0, false⟩,
          ⟨0x1001, 2, 0x1E, 0, [0], false⟩, ⟨0x1002, 2, 0x1E, 0, [0], false⟩]
        [1, 2, 4] 3 8 0xDEAD 1 0 { sampleDevice with _state := .INIT }).map
          (fun s => s.getComObjectAddress 1) = some 0x0A01 ∧
      (KonnektingDevice.init sampleConsts true 0 0
        [⟨0x7FFF, 15, 0x1E, 0, List.replicate 14 0, false⟩,
          ⟨0x1001, 2, 0x1E, 0, [0], false⟩, ⟨0x1002, 2, 0x1E, 0, [0], false⟩]
        [1, 2, 4] 3 8 0xDEAD 1 0 { sampleDevice with _state := .INIT }).map
          (fun s => KonnektingProg.getParamSize s 1) = some 1) ∧
    (∀ (c : ProgConsts) (resetOk : Bool) (millis micros : Nat)
      (comObjectList : List KnxComObject) (paramSizeList : List Nat)
      (progButtonPin progLedPin manufacturerID deviceID revisionID : Nat)
      (s : KonnektingDevice),
      KonnektingDevice.init c resetOk millis micros comObjectList paramSizeList
          progButtonPin progLedPin manufacturerID deviceID revisionID s
        = KonnektingDevice.init c resetOk millis micros [] []
          progButtonPin progLedPin manufacturerID deviceID revisionID s) := by
  refine ⟨by decide, ⟨by decide, by decide, by decide⟩, ?_⟩
  intros
  rfl

/-- C30: the status returned by the write calls does not depend on the action queue.
`write(objectIndex, bytes)` on an object of length above 2 returns `KNX_DEVICE_OK`, and
`write<T>(objectIndex, value)` returns `KNX_DEVICE_OK` when the object is short or when the
conversion of the value returns `KNX_DEVICE_OK`, in every state of the queue. With a full
queue the action is dropped, the device is left as it was, and the status is still
`KNX_DEVICE_OK`. -/
theorem C30_write_status_ignores_queue (t : Target) (fmt : Nat → e_KnxDPT_Format)
    (u : Indeterminate) (objectIndex : Nat) (valuePtr : Buf) (value : Int) (valueReal : ℚ)
    (s : KonnektingDevice) :
    ((s._comObjectsList objectIndex).length > 2 →
      (KonnektingDevice.write u objectIndex valuePtr s).1 = KNX_DEVICE_OK) ∧
    ((s._comObjectsList objectIndex).length ≤ 2 →
      (KonnektingDevice.writeT t fmt u objectIndex value s).1 = some KNX_DEVICE_OK ∧
      (KonnektingDevice.writeTReal t fmt u objectIndex valueReal s).1 = some KNX_DEVICE_OK) ∧
    ((s._comObjectsList objectIndex).length > 2 →
      ((ConvertToDpt t value u.array (fmt (s._comObjectsList objectIndex).dptId)).1
          = some KNX_DEVICE_OK →
        (KonnektingDevice.writeT t fmt u objectIndex value s).1 = some KNX_DEVICE_OK) ∧
      ((ConvertToDptReal t valueReal u.array (fmt (s._comObjectsList objectIndex).dptId)).1
          = some KNX_DEVICE_OK →
        (KonnektingDevice.writeTReal t fmt u objectIndex valueReal s).1
          = some KNX_DEVICE_OK)) ∧
    (s._txActionList.length ≥ ACTIONS_QUEUE_SIZE →
      ((s._comObjectsList objectIndex).length > 2 →
        KonnektingDevice.write u objectIndex valuePtr s = (KNX_DEVICE_OK, s)) ∧
      ((s._comObjectsList objectIndex).length ≤ 2 →
        KonnektingDevice.writeT t fmt u objectIndex value s = (some KNX_DEVICE_OK, s))) := by
  refine ⟨fun h => ?_, fun h => ⟨?_, ?_⟩, fun h => ⟨fun hc => ?_, fun hc => ?_⟩,
    fun hfull => ⟨fun h => ?_, fun h => ?_⟩⟩
  · simp [KonnektingDevice.write, h]
  · simp [KonnektingDevice.writeT, h]
  · simp [KonnektingDevice.writeTReal, h]
  · have h' : ¬ (s._comObjectsList objectIndex).length ≤ 2 := by omega
    unfold KonnektingDevice.writeT
    simp only [h', if_false]
    cases hr : ConvertToDpt t value u.array (fmt (s._comObjectsList objectIndex).dptId) with
    | mk st dest =>
      rw [hr] at hc
      simp only at hc
      subst hc
      rfl
  · have h' : ¬ (s._comObjectsList objectIndex).length ≤ 2 := by omega
    unfold KonnektingDevice.writeTReal
    simp only [h', if_false]
    cases hr : ConvertToDptReal t valueReal u.array
        (fmt (s._comObjectsList objectIndex).dptId) with
    | mk st dest =>
      rw [hr] at hc
      simp only at hc
      subst hc
      rfl
  · have hnot : ¬ s._txActionList.length < ACTIONS_QUEUE_SIZE := by omega
    simp [KonnektingDevice.write, h, ActionRingBuffer.Append, hnot]
  · have hnot : ¬ s._txActionList.length < ACTIONS_QUEUE_SIZE := by omega
    simp [KonnektingDevice.writeT, h, ActionRingBuffer.Append, hnot]

theorem C30_write_status_ignores_queue_witness :
    ((({ progDevice with
        _txActionList := List.replicate 16 ⟨.KNX_READ_REQUEST, 1, 0, []⟩ } :
          KonnektingDevice)._txActionList.length ≥ ACTIONS_QUEUE_SIZE) ∧
      (({ progDevice with
        _txActionList := List.replicate 16 ⟨.KNX_READ_REQUEST, 1, 0, []⟩ } :
          KonnektingDevice)._comObjectsList 0).length > 2) ∧
    KonnektingDevice.write sampleIndeterminate 0 (frameOf [1, 2, 3])
        { progDevice with _txActionList := List.replicate 16 ⟨.KNX_READ_REQUEST, 1, 0, []⟩ }
      = (KNX_DEVICE_OK,
        { progDevice with _txActionList := List.replicate 16 ⟨.KNX_READ_REQUEST, 1, 0, []⟩ }) :=
  ⟨⟨by decide, by decide⟩,
    ((C30_write_status_ignores_queue .avr sampleFormats sampleIndeterminate 0
      (frameOf [1, 2, 3]) 0 0
      { progDevice with
        _txActionList := List.replicate 16 ⟨.KNX_READ_REQUEST, 1, 0, []⟩ }).2.2.2
      (by decide)).1 (by decide)⟩

/-! ## Codec: wide host types, exponent 0 and the range of the F16 encoder -/

/-- C31 (the code departs from the claim): the V16 case of `ConvertFromDpt` is the code of
the U16 case, `(T)((unsigned int) dpt[0] << 8)` plus `(T) dpt[1]`, and does not extend the
sign. Decoded into a signed host type of 32 bits (`long` on both targets, `int` where it has
32 bits), the bytes `0xFF 0xFF` written for `V = -1` give 65535, those written for
`V = -32768` give 32768, and those for `V = -1234` give 64302; values from 0 to 32767 come
back unchanged. -/
theorem C31_v16_not_sign_extended :
    (∀ t : Target,
      ((ConvertToDpt t (-1) (fun _ => 0) KNX_DPT_FORMAT_V16).2 0 = 0xFF ∧
        (ConvertToDpt t (-1) (fun _ => 0) KNX_DPT_FORMAT_V16).2 1 = 0xFF) ∧
      ConvertFromDpt t ⟨32, true⟩ (ConvertToDpt t (-1) (fun _ => 0) KNX_DPT_FORMAT_V16).2 0
        KNX_DPT_FORMAT_V16 = (some KNX_DEVICE_OK, 65535) ∧
      ConvertFromDpt t ⟨32, true⟩ (ConvertToDpt t (-32768) (fun _ => 0) KNX_DPT_FORMAT_V16).2 0
        KNX_DPT_FORMAT_V16 = (some KNX_DEVICE_OK, 32768) ∧
      ConvertFromDpt t ⟨32, true⟩ (ConvertToDpt t (-1234) (fun _ => 0) KNX_DPT_FORMAT_V16).2 0
        KNX_DPT_FORMAT_V16 = (some KNX_DEVICE_OK, 64302) ∧
      ConvertFromDpt t ⟨32, true⟩ (ConvertToDpt t 32767 (fun _ => 0) KNX_DPT_FORMAT_V16).2 0
        KNX_DPT_FORMAT_V16 = (some KNX_DEVICE_OK, 32767)) := by
  intro t
  cases t <;> refine ⟨⟨by decide, by decide⟩, by decide, by decide, by decide, by decide⟩

/-- The V16 case decoded into a signed 32-bit host type gives the value modulo `2 ^ 16`. -/
theorem ConvertFromDpt_v16_wide (t : Target) (V : Int) (buf : Buf) (r : Int) :
    ConvertFromDpt t ⟨32, true⟩ (ConvertToDpt t V buf KNX_DPT_FORMAT_V16).2 r
      KNX_DPT_FORMAT_V16 = (some KNX_DEVICE_OK, V % 65536) := by
  obtain ⟨-, e0, e1, -⟩ := ConvertToDpt_int16 t V buf _ (Or.inr rfl)
  rw [ConvertFromDpt_int16 t _ _ r _ (Or.inr rfl), e0, e1, toByte_cast, toByte_cast]
  congr 1
  have h : wrapU t.intBits (V / 2 ^ 8 % 256 * 2 ^ 8) = V / 2 ^ 8 % 256 * 2 ^ 8 := by
    cases t <;> simp only [wrapU, Target.intBits] <;> norm_num <;> omega
  rw [h]
  simp only [CIntType.cast, wrapS, if_true]
  norm_num
  omega

theorem TimeDeltaWord_elapsed (before d : Nat) (hd : d < 65536) :
    TimeDeltaWord ((before + d) % 65536) before = d := by
  unfold TimeDeltaWord
  have : (((((before + d) % 65536 : Nat) : Int) - (before : Int)) % 65536) = (d : Int) := by
    omega
  rw [this]
  simp

/-- C32: `TimeDeltaWord` is safe across the roll-over of the 16-bit counter: for every
counter value `before` (of 16 bits or not) and every elapsed time `d` below `2 ^ 16`,
`TimeDeltaWord((before + d) mod 2 ^ 16, before) = d`. Hence, when the stamp held by the
device is the 16-bit reading taken at time `T0` and the tick reads the clock at time
`T0 + d` with `d` below `2 ^ 16`, the init step of the tick passes its throttle exactly when
`d > 500`, the receive step runs exactly when `d > 400` and the transmit step exactly when
`d > 800`. -/
theorem C32_time_delta_wraparound (before d : Nat) (hd : d < 65536) :
    TimeDeltaWord ((before + d) % 65536) before = d ∧
    (∀ (inp : TaskInput) (s : KonnektingDevice) (T0 : Nat),
      s._lastInitTimeMillis = T0 % 65536 → inp.millis1 = T0 + d →
        (TimeDeltaWord (inp.millis1 % 65536) s._lastInitTimeMillis > 500 ↔ d > 500) ∧
        (¬ d > 500 → taskInit inp s = s)) ∧
    (∀ (inp : TaskInput) (s : KonnektingDevice) (T0 : Nat),
      s._lastRXTimeMicros = T0 % 65536 → inp.micros1 = T0 + d →
        taskRx inp s
          = if d > 400 then inp.RXTask { s with _lastRXTimeMicros := inp.micros1 % 65536 }
            else s) ∧
    (∀ (inp : TaskInput) (s : KonnektingDevice) (T0 : Nat),
      s._lastTXTimeMicros = T0 % 65536 → inp.micros2 = T0 + d →
        taskTxPacing inp s
          = if d > 800 then inp.TXTask { s with _lastTXTimeMicros := inp.micros2 % 65536 }
            else s) := by
  have key : ∀ T0 : Nat, TimeDeltaWord ((T0 + d) % 65536) (T0 % 65536) = d := by
    intro T0
    have h := TimeDeltaWord_elapsed (T0 % 65536) d hd
    have e : (T0 % 65536 + d) % 65536 = (T0 + d) % 65536 := by omega
    rw [e] at h
    exact h
  refine ⟨TimeDeltaWord_elapsed before d hd, fun inp s T0 h1 h2 => ?_,
    fun inp s T0 h1 h2 => ?_, fun inp s T0 h1 h2 => ?_⟩
  · have hk : TimeDeltaWord (inp.millis1 % 65536) s._lastInitTimeMillis = d := by
      rw [h1, h2]
      exact key T0
    refine ⟨by rw [hk], fun hn => ?_⟩
    unfold taskInit
    simp only [hk, hn, if_false]
    split <;> rfl
  · have hk : TimeDeltaWord (inp.micros1 % 65536) s._lastRXTimeMicros = d := by
      rw [h1, h2]
      exact key T0
    unfold taskRx
    simp only [hk]
  · have hk : TimeDeltaWord (inp.micros2 % 65536) s._lastTXTimeMicros = d := by
      rw [h1, h2]
      exact key T0
    unfold taskTxPacing
    simp only [hk]

theorem C32_time_delta_wraparound_witness :
    (1000 : Nat) < 65536 ∧ TimeDeltaWord ((65000 + 1000) % 65536) 65000 = 1000 :=
  ⟨by decide, (C32_time_delta_wraparound 65000 1000 (by decide)).1⟩

theorem F16scale_small (x : Int) (hlo : -2048 ≤ x) (hhi : x ≤ 2047) :
    (F16scale x).exponent = 0 ∧ F16rounded x = x := by
  by_cases hx : 0 ≤ x
  · obtain ⟨k, -, e1, e2, -, -, e5, e6, -⟩ := F16scale_nonneg x hx (by omega)
    have hk : k = 0 := by
      by_contra hk
      have := e5 0 (by omega)
      simp at this
      omega
    subst hk
    refine ⟨e1, ?_⟩
    unfold F16rounded
    rw [e6 rfl, e2]
    simp
  · obtain ⟨k, -, e1, e2, -, -, e5, e6, -⟩ := F16scale_neg x (by omega) (by omega)
    have hk : k = 0 := by
      by_contra hk
      have := e5 0 (by omega)
      simp at this
      omega
    subst hk
    refine ⟨e1, ?_⟩
    unfold F16rounded
    rw [e6 rfl, e2]
    simp

theorem truncQ_intCast (x : Int) : truncQ (x : ℚ) = x := by
  unfold truncQ
  split <;> simp

/-- C39: the F16 format is exact at exponent 0. For every hundredfold value `x` from -2048
to 2047 the encoder leaves the scaling loop at once, writes exponent 0, and the integer that
the decoder multiplies by `0.01` is `x` again: the value `x / 100` given as a `float` or
`double` comes back as `x / 100`, and an integer `V` with `100 * V = x` comes back as
`V`. -/
theorem C39_f16_exact_at_exponent_zero (t : Target) (x : Int) (hlo : -2048 ≤ x)
    (hhi : x ≤ 2047) (buf : Buf) (r : ℚ) :
    (F16scale x).exponent = 0 ∧
    ConvertToDptF16 x buf 0 / 2 ^ 3 % 2 ^ 4 = 0 ∧
    F16scaled (ConvertToDptF16 x buf) = x ∧
    ConvertFromDptReal t
        (ConvertToDptReal t ((x : ℚ) / 100) buf KNX_DPT_FORMAT_F16).2 r KNX_DPT_FORMAT_F16
      = (some KNX_DEVICE_OK, (x : ℚ) / 100) ∧
    (∀ (T : CIntType) (V ri : Int), 100 * V = x →
      ConvertFromDpt t T (ConvertToDpt t V buf KNX_DPT_FORMAT_F16).2 ri KNX_DPT_FORMAT_F16
        = (some KNX_DEVICE_OK, T.cast V)) := by
  obtain ⟨he, hr⟩ := F16scale_small x hlo hhi
  have hs : F16scaled (ConvertToDptF16 x buf) = x := by
    rw [F16scaled_ConvertToDptF16 x buf (by norm_num; omega) (by norm_num; omega)
      (by rw [hr]; omega), hr, he]
    simp
  have hw : wrapS 32 x = x := wrapS32_of_range x (by omega) (by omega)
  refine ⟨he, ?_, hs, ?_, fun T V ri hV => ?_⟩
  · have := ConvertToDptF16_exponent_field x buf (by rw [he]; omega)
    rw [this, he]
  · have h100 : (100 : ℚ) * ((x : ℚ) / 100) = (x : ℚ) := by ring
    simp only [ConvertToDptReal, ConvertFromDptReal, h100, truncQ_intCast, hw, hs]
    congr 1
    ring
  · simp only [ConvertToDpt, ConvertFromDpt, hV, hw, hs]
    congr 2
    rw [← hV]
    exact Int.mul_tdiv_cancel_left V (by norm_num)

theorem C39_f16_exact_at_exponent_zero_witness :
    ((-2048 : Int) ≤ -2048 ∧ (-2048 : Int) ≤ 2047) ∧
    F16scaled (ConvertToDptF16 (-2048) (fun _ => 0)) = -2048 :=
  ⟨⟨by decide, by decide⟩,
    (C39_f16_exact_at_exponent_zero .avr (-2048) (by decide) (by decide) (fun _ => 0) 0).2.2.1⟩

/-- C40 (the code departs from the claim): the F16 encoder does not bound the exponent and
does not carry the rounding into it. For the hundredfold value 70000000 (`V = 700000`) the
scaling loop counts 16 halvings; `exponent << 3` is 128, so byte 0 becomes `0x84`: bit 7 is
set although the value is positive, and bits 3..6 hold 0. For -70000000 the same addition
clears bit 7 again (byte 0 is `0x03`). For `2 ^ 31 - 1` the loop counts 20 halvings. For
4095 the loop leaves mantissa 2047 with `round` set, the increment gives 2048, and the
eleven mantissa bits written are all 0 (bytes `0x08 0x00`). -/
theorem C40_f16_encoder_ill_formed :
    ((F16scale 70000000).exponent = 16 ∧
      ConvertToDptF16 70000000 (fun _ => 0) 0 = 0x84 ∧
      ConvertToDptF16 70000000 (fun _ => 0) 0 &&& 0x80 ≠ 0 ∧
      ConvertToDptF16 70000000 (fun _ => 0) 0 / 2 ^ 3 % 2 ^ 4 = 0) ∧
    ((F16scale (-70000000)).exponent = 16 ∧
      ConvertToDptF16 (-70000000) (fun _ => 0) 0 = 0x03 ∧
      ConvertToDptF16 (-70000000) (fun _ => 0) 0 &&& 0x80 = 0) ∧
    (F16scale (2 ^ 31 - 1)).exponent = 20 ∧
    ((F16scale 4095).longValuex100 = 2047 ∧ (F16scale 4095).round = 1 ∧
      F16rounded 4095 = 2048 ∧
      ConvertToDptF16 4095 (fun _ => 0) 0 = 0x08 ∧
      ConvertToDptF16 4095 (fun _ => 0) 1 = 0x00) := by
  refine ⟨⟨by decide, by decide, by decide, by decide⟩, ⟨by decide, by decide, by decide⟩,
    by decide, ⟨by decide, by decide, by decide, by decide, by decide⟩⟩

/-! ## Start-up: the loop that restores the object addresses -/

/-- With 128 objects or more the condition `i < getNumberOfComObjects()*2` holds for every
value of the `byte` counter, so the loop of `init` is not left, whatever the bound on the
number of iterations. -/
theorem initComObjects_never_ends (c : ProgConsts) (fuel i : Nat) (s : KonnektingDevice)
    (hn : 128 ≤ s._numberOfComObjects) (hi : i < 256) :
    KonnektingProg.initComObjects c fuel i s = none := by
  induction fuel generalizing i s with
  | zero => rfl
  | succ f ih =>
    unfold KonnektingProg.initComObjects
    have hlt : i < s._numberOfComObjects * 2 := by omega
    simp only [hlt, if_true]
    apply ih
    · rw [(setComObjectAddress_frame _ _ _).1]
      exact hn
    · exact Nat.mod_lt _ (by norm_num)

/-- C33 (the code departs from the claim): for a device with 128 objects whose persisted
flags byte is not 0xFF, the loop of `init` that restores the object addresses is never
left: the counter `i` is a `byte`, so `i < 256 <= 2 * count` at every test, and `i += 2`
wraps from 254 to 0. No bound on the number of iterations lets the loop end, and `init` does
not return. The same holds for every count from 128 to 255. With the factory flags byte, or
with at most 127 objects, `init` returns. -/
theorem C33_init_loop_does_not_end :
    (manyObjectsDevice._numberOfComObjects = 128 ∧
      manyObjectsDevice.EEPROM sampleConsts.EEPROM_DEVICE_FLAGS ≠ 0xFF) ∧
    (∀ fuel : Nat,
      KonnektingProg.initComObjects sampleConsts fuel 0 manyObjectsDevice = none) ∧
    KonnektingProg.init sampleConsts 3 8 0xDEAD 1 0 manyObjectsDevice = none ∧
    (∀ (c : ProgConsts) (fuel i : Nat) (s : KonnektingDevice),
      (if 128 ≤ s._numberOfComObjects ∧ i < 256 then
        KonnektingProg.initComObjects c fuel i s else none) = none) ∧
    (KonnektingProg.init sampleConsts 3 8 0xDEAD 1 0
      { manyObjectsDevice with _numberOfComObjects := 127 }).isSome = true ∧
    (KonnektingProg.init sampleConsts 3 8 0xDEAD 1 0
      { manyObjectsDevice with EEPROM := fun _ => 0xFF }).isSome = true := by
  refine ⟨by decide, fun fuel => ?_, ?_, fun c fuel i s => ?_, ?_, by decide⟩
  · exact initComObjects_never_ends sampleConsts fuel 0 manyObjectsDevice (by decide)
      (by decide)
  · have h : KonnektingProg.init sampleConsts 3 8 0xDEAD 1 0 manyObjectsDevice
        = KonnektingProg.initComObjects sampleConsts 129 0
            { manyObjectsDevice with _prog := { manyObjectsDevice._prog with
                _initialized := true
                _manufacturerID := 0xDEAD
                _deviceID := 1
                _revisionID := 0
                progLED := false
                _paramTableStartindex :=
                  sampleConsts.EEPROM_COMOBJECTTABLE_START
                    + manyObjectsDevice._numberOfComObjects * 2
                _deviceFlags := manyObjectsDevice.EEPROM sampleConsts.EEPROM_DEVICE_FLAGS
                _individualAddress :=
                  ((manyObjectsDevice.EEPROM sampleConsts.EEPROM_INDIVIDUALADDRESS_HI <<< 8)
                    + (manyObjectsDevice.EEPROM sampleConsts.EEPROM_INDIVIDUALADDRESS_LO
                      <<< 0)) % 65536 } } := by
      simp [KonnektingProg.init, KonnektingProg.isFactorySetting, manyObjectsDevice,
        sampleConsts]
    rw [h]
    exact initComObjects_never_ends _ _ _ _ (by decide) (by decide)
  · split
    · next h => exact initComObjects_never_ends c fuel i s h.1 h.2
    · rfl
  · obtain ⟨s', h1, -⟩ := initComObjects_terminates sampleConsts 129 0
      { manyObjectsDevice with
        _numberOfComObjects := 127
        _prog := { manyObjectsDevice._prog with
          _initialized := true
          _manufacturerID := 0xDEAD
          _deviceID := 1
          _revisionID := 0
          progLED := false
          _paramTableStartindex := sampleConsts.EEPROM_COMOBJECTTABLE_START + 127 * 2
          _deviceFlags := manyObjectsDevice.EEPROM sampleConsts.EEPROM_DEVICE_FLAGS
          _individualAddress :=
            ((manyObjectsDevice.EEPROM sampleConsts.EEPROM_INDIVIDUALADDRESS_HI <<< 8)
              + (manyObjectsDevice.EEPROM sampleConsts.EEPROM_INDIVIDUALADDRESS_LO
                <<< 0)) % 65536 } }
      (by decide) (Nat.zero_le _) rfl (by decide)
    have h : KonnektingProg.init sampleConsts 3 8 0xDEAD 1 0
        { manyObjectsDevice with _numberOfComObjects := 127 } = some s' := by
      rw [← h1]
      simp [KonnektingProg.init, KonnektingProg.isFactorySetting, manyObjectsDevice,
        sampleConsts]
    rw [h]
    rfl

/-- C34 (the code departs from the claim): the loop of `init` reads the slot at
`EEPROM_COMOBJECTTABLE_START + i` for `i = 0, 2, 4, ...` and gives it to the object of index
`i + 1`, whereas `handleMsgWriteComObject` keeps the address of object `k` at
`EEPROM_COMOBJECTTABLE_START + 2k`. With four objects, the flags byte 0x7F and the slots
`0x2000, 0x2101, 0x2202, 0x2303` for the objects 0..3, `init` leaves object 1 with 0x2000
(the slot of object 0), object 2 with the address 0x0A01 it had before (objects of even
index are never restored) and object 3 with 0x2101 (the slot of object 1). -/
theorem C34_restored_addresses_from_wrong_slots :
    (restartDevice._numberOfComObjects = 4 ∧
      restartDevice.EEPROM sampleConsts.EEPROM_DEVICE_FLAGS = 0x7F ∧
      restartDevice.EEPROM (sampleConsts.EEPROM_COMOBJECTTABLE_START + 2 * 1) = 0x21 ∧
      restartDevice.EEPROM (sampleConsts.EEPROM_COMOBJECTTABLE_START + 2 * 1 + 1) = 0x01 ∧
      restartDevice.EEPROM (sampleConsts.EEPROM_COMOBJECTTABLE_START + 2 * 2) = 0x22 ∧
      restartDevice.EEPROM (sampleConsts.EEPROM_COMOBJECTTABLE_START + 2 * 2 + 1) = 0x02 ∧
      restartDevice.EEPROM (sampleConsts.EEPROM_COMOBJECTTABLE_START + 2 * 3) = 0x23 ∧
      restartDevice.EEPROM (sampleConsts.EEPROM_COMOBJECTTABLE_START + 2 * 3 + 1) = 0x03) ∧
    (KonnektingProg.init sampleConsts 3 8 0xDEAD 1 0 restartDevice).map
        KonnektingProg.isFactorySetting = some false ∧
    (KonnektingProg.init sampleConsts 3 8 0xDEAD 1 0 restartDevice).map
        (fun s => s.getComObjectAddress 1) = some 0x2000 ∧
    (KonnektingProg.init sampleConsts 3 8 0xDEAD 1 0 restartDevice).map
        (fun s => s.getComObjectAddress 2) = some 0x0A01 ∧
    (KonnektingProg.init sampleConsts 3 8 0xDEAD 1 0 restartDevice).map
        (fun s => s.getComObjectAddress 3) = some 0x2101 := by
  refine ⟨by decide, by decide, by decide, by decide, by decide⟩

theorem write_EEPROM (u : Indeterminate) (i : Nat) (v : Buf) (s : KonnektingDevice) :
    (KonnektingDevice.write u i v s).2.EEPROM = s.EEPROM := by
  unfold KonnektingDevice.write
  dsimp only
  split <;> rfl

theorem sendAck_EEPROM (c : ProgConsts) (u : Indeterminate) (e i : Nat)
    (s : KonnektingDevice) : (KonnektingProg.sendAck c u e i s).EEPROM = s.EEPROM := by
  unfold KonnektingProg.sendAck
  exact write_EEPROM _ _ _ _

theorem getParamValue_apply (s : KonnektingDevice) (index : Nat) (buf : Buf)
    (h : index < s._prog._numberOfParams) (h256 : index < 256) (i : Nat) :
    KonnektingProg.getParamValue s index buf i
      = if i < KonnektingProg.getParamSize s index then
          s.EEPROM (s._prog._paramTableStartindex
            + KonnektingProg.calcParamSkipBytes s index + i)
        else buf i := by
  unfold KonnektingProg.getParamValue
  have hgt : ¬ (index : Int) > (s._prog._numberOfParams : Int) - 1 := by omega
  simp only [hgt, if_false, Nat.mod_eq_of_lt h256]
  exact foldl_set_range
    (fun i => s.EEPROM (s._prog._paramTableStartindex
      + KonnektingProg.calcParamSkipBytes s index + i)) buf _ i

theorem calcParamSkipBytes_congr (s t : KonnektingDevice) (h : t._prog = s._prog) (k : Nat) :
    KonnektingProg.calcParamSkipBytes t k = KonnektingProg.calcParamSkipBytes s k := by
  induction k with
  | zero => rfl
  | succ k ih =>
    simp only [KonnektingProg.calcParamSkipBytes, KonnektingProg.getParamSize, ih, h]

/-- The loop of `handleMsgWriteParameter` that stores `w` bytes from address `base` on. -/
theorem foldl_memoryUpdate (g : Nat → Nat) (k w : Nat) (s : KonnektingDevice) :
    ((List.range w).foldl
      (fun s i => KonnektingProg.memoryUpdate (s._prog._paramTableStartindex + k + i) (g i) s)
      s)._prog = s._prog ∧
    ∀ a, ((List.range w).foldl
      (fun s i => KonnektingProg.memoryUpdate (s._prog._paramTableStartindex + k + i) (g i) s)
      s).EEPROM a
      = if s._prog._paramTableStartindex + k ≤ a ∧ a < s._prog._paramTableStartindex + k + w
        then g (a - (s._prog._paramTableStartindex + k)) else s.EEPROM a := by
  induction w with
  | zero =>
    refine ⟨rfl, fun a => ?_⟩
    have : ¬ (s._prog._paramTableStartindex + k ≤ a ∧
        a < s._prog._paramTableStartindex + k) := by omega
    simp [this]
  | succ n ih =>
    obtain ⟨ih1, ih2⟩ := ih
    rw [List.range_succ, List.foldl_append, List.foldl_cons, List.foldl_nil]
    refine ⟨?_, fun a => ?_⟩
    · show (List.foldl _ s (List.range n))._prog = s._prog
      exact ih1
    · show Buf.set (List.foldl _ s (List.range n)).EEPROM
        ((List.foldl _ s (List.range n))._prog._paramTableStartindex + k + n) (g n) a = _
      rw [ih1]
      rw [show ∀ (b : Buf) (i v j : Nat), Buf.set b i v j = if j = i then v else b j from
        fun _ _ _ _ => rfl]
      rw [ih2 a]
      by_cases ha : a = s._prog._paramTableStartindex + k + n
      · subst ha
        have h1 : s._prog._paramTableStartindex + k ≤ s._prog._paramTableStartindex + k + n ∧
            s._prog._paramTableStartindex + k + n
              < s._prog._paramTableStartindex + k + (n + 1) := by omega
        simp only [if_true, h1, and_self]
        congr 1
        omega
      · simp only [ha, if_false]
        by_cases hr : s._prog._paramTableStartindex + k ≤ a ∧
            a < s._prog._paramTableStartindex + k + n
        · have hr' : s._prog._paramTableStartindex + k ≤ a ∧
              a < s._prog._paramTableStartindex + k + (n + 1) := by omega
          simp only [hr, hr', and_self, if_true]
        · have hr' : ¬ (s._prog._paramTableStartindex + k ≤ a ∧
              a < s._prog._paramTableStartindex + k + (n + 1)) := by omega
          simp only [hr, hr', if_false]

theorem handleMsgWriteParameter_EEPROM (c : ProgConsts) (u : Indeterminate) (msg : Buf)
    (s : KonnektingDevice) (h : msg 2 < s._prog._numberOfParams) (a : Nat) :
    (KonnektingProg.handleMsgWriteParameter c u msg s).EEPROM a
      = if s._prog._paramTableStartindex + KonnektingProg.calcParamSkipBytes s (msg 2) ≤ a ∧
          a < s._prog._paramTableStartindex + KonnektingProg.calcParamSkipBytes s (msg 2)
            + KonnektingProg.getParamSize s (msg 2)
        then msg (3 + (a - (s._prog._paramTableStartindex
          + KonnektingProg.calcParamSkipBytes s (msg 2))))
        else s.EEPROM a := by
  unfold KonnektingProg.handleMsgWriteParameter
  have hgt : ¬ ((msg 2 : Nat) : Int) > (s._prog._numberOfParams : Int) - 1 := by omega
  simp only [hgt, if_false]
  rw [sendAck_EEPROM]
  exact (foldl_memoryUpdate (fun i => msg (3 + i)) _ _ s).2 a

/-- C37: the parameter update law. With the programming latch set, after a `WriteParameter`
frame for the declared parameter `i` has been handled, `getParamValue(i)` yields the first
`getParamSize(i)` payload bytes (frame bytes 3, 4, ...), `getParamValue(j)` for every other
declared parameter `j` yields what it yielded before, the members of the provisioning handler
(among them the declared widths) are unchanged, and so is every non-volatile byte below
`_paramTableStartindex`: the device-flags byte and the bytes of the individual address, where
the memory map puts them below the parameter table, and the object-address table, which
`init` puts right before it. -/
theorem C37_parameter_update_law (c : ProgConsts) (u : Indeterminate) (msg : Buf)
    (s : KonnektingDevice) (i : Nat) (hd : c.LabelsDistinct)
    (hlatch : s._prog._progState = true)
    (h0 : msg 0 = c.PROTOCOLVERSION) (h1 : msg 1 = c.MSGTYPE_WRITE_PARAMETER)
    (h2 : msg 2 = i) (hi : i < s._prog._numberOfParams) (hi256 : i < 256) :
    (∀ (buf : Buf) (k : Nat),
      KonnektingProg.getParamValue (KonnektingProg.handleMsg c u msg s) i buf k
        = if k < KonnektingProg.getParamSize s i then msg (3 + k) else buf k) ∧
    (∀ j, j ≠ i → j < s._prog._numberOfParams → j < 256 → ∀ buf : Buf,
      KonnektingProg.getParamValue (KonnektingProg.handleMsg c u msg s) j buf
        = KonnektingProg.getParamValue s j buf) ∧
    (KonnektingProg.handleMsg c u msg s)._prog = s._prog ∧
    (∀ a, a < s._prog._paramTableStartindex →
      (KonnektingProg.handleMsg c u msg s).EEPROM a = s.EEPROM a) ∧
    (c.EEPROM_DEVICE_FLAGS < s._prog._paramTableStartindex →
      c.EEPROM_INDIVIDUALADDRESS_HI < s._prog._paramTableStartindex →
      c.EEPROM_INDIVIDUALADDRESS_LO < s._prog._paramTableStartindex →
      (KonnektingProg.handleMsg c u msg s).EEPROM c.EEPROM_DEVICE_FLAGS
          = s.EEPROM c.EEPROM_DEVICE_FLAGS ∧
        (KonnektingProg.handleMsg c u msg s).EEPROM c.EEPROM_INDIVIDUALADDRESS_HI
          = s.EEPROM c.EEPROM_INDIVIDUALADDRESS_HI ∧
        (KonnektingProg.handleMsg c u msg s).EEPROM c.EEPROM_INDIVIDUALADDRESS_LO
          = s.EEPROM c.EEPROM_INDIVIDUALADDRESS_LO) ∧
    (s._prog._paramTableStartindex
        = c.EEPROM_COMOBJECTTABLE_START + s._numberOfComObjects * 2 →
      ∀ k, k < s._numberOfComObjects →
        (KonnektingProg.handleMsg c u msg s).EEPROM (c.EEPROM_COMOBJECTTABLE_START + 2 * k)
            = s.EEPROM (c.EEPROM_COMOBJECTTABLE_START + 2 * k) ∧
          (KonnektingProg.handleMsg c u msg s).EEPROM
              (c.EEPROM_COMOBJECTTABLE_START + 2 * k + 1)
            = s.EEPROM (c.EEPROM_COMOBJECTTABLE_START + 2 * k + 1)) := by
  have hs1 : KonnektingProg.handleMsg c u msg s
      = KonnektingProg.handleMsgWriteParameter c u msg s := by
    rw [handleMsg_write_parameter c u msg s hd h0 h1]
    simp [hlatch]
  have hprog : (KonnektingProg.handleMsg c u msg s)._prog = s._prog := by
    rw [hs1]
    exact handleMsgWriteParameter_prog c u msg s
  have hE : ∀ a, (KonnektingProg.handleMsg c u msg s).EEPROM a
      = if s._prog._paramTableStartindex + KonnektingProg.calcParamSkipBytes s i ≤ a ∧
          a < s._prog._paramTableStartindex + KonnektingProg.calcParamSkipBytes s i
            + KonnektingProg.getParamSize s i
        then msg (3 + (a - (s._prog._paramTableStartindex
          + KonnektingProg.calcParamSkipBytes s i)))
        else s.EEPROM a := by
    intro a
    rw [hs1]
    have := handleMsgWriteParameter_EEPROM c u msg s (by rw [h2]; exact hi) a
    rw [h2] at this
    exact this
  have hsize : ∀ j, KonnektingProg.getParamSize (KonnektingProg.handleMsg c u msg s) j
      = KonnektingProg.getParamSize s j := by
    intro j
    unfold KonnektingProg.getParamSize
    rw [hprog]
  have hskip := calcParamSkipBytes_congr s (KonnektingProg.handleMsg c u msg s) hprog
  have hlow : ∀ a, a < s._prog._paramTableStartindex →
      (KonnektingProg.handleMsg c u msg s).EEPROM a = s.EEPROM a := by
    intro a ha
    rw [hE a]
    have : ¬ (s._prog._paramTableStartindex + KonnektingProg.calcParamSkipBytes s i ≤ a ∧
          a < s._prog._paramTableStartindex + KonnektingProg.calcParamSkipBytes s i
            + KonnektingProg.getParamSize s i) := by omega
    simp only [this, if_false]
  refine ⟨fun buf k => ?_, fun j hji hj hj256 buf => ?_, hprog, hlow,
    fun f1 f2 f3 => ⟨hlow _ f1, hlow _ f2, hlow _ f3⟩,
    fun hstart k hk => ⟨hlow _ (by omega), hlow _ (by omega)⟩⟩
  · rw [getParamValue_apply _ i buf (by rw [hprog]; exact hi) hi256 k, hsize, hskip, hprog]
    by_cases hk : k < KonnektingProg.getParamSize s i
    · simp only [hk, if_true]
      rw [hE]
      have hr : s._prog._paramTableStartindex + KonnektingProg.calcParamSkipBytes s i
            ≤ s._prog._paramTableStartindex + KonnektingProg.calcParamSkipBytes s i + k ∧
          s._prog._paramTableStartindex + KonnektingProg.calcParamSkipBytes s i + k
            < s._prog._paramTableStartindex + KonnektingProg.calcParamSkipBytes s i
              + KonnektingProg.getParamSize s i := by omega
      simp only [hr, and_self, if_true]
      congr 2
      omega
    · simp only [hk, if_false]
  · funext k
    rw [getParamValue_apply _ j buf (by rw [hprog]; exact hj) hj256 k,
      getParamValue_apply s j buf hj hj256 k, hsize, hskip, hprog]
    by_cases hk : k < KonnektingProg.getParamSize s j
    · simp only [hk, if_true]
      rw [hE]
      have hdis : ¬ (s._prog._paramTableStartindex + KonnektingProg.calcParamSkipBytes s i
            ≤ s._prog._paramTableStartindex + KonnektingProg.calcParamSkipBytes s j + k ∧
          s._prog._paramTableStartindex + KonnektingProg.calcParamSkipBytes s j + k
            < s._prog._paramTableStartindex + KonnektingProg.calcParamSkipBytes s i
              + KonnektingProg.getParamSize s i) := by
        rcases Nat.lt_or_gt_of_ne hji with hlt | hgt
        · have hm := calcParamSkipBytes_mono s (j + 1) i (by omega)
          simp only [KonnektingProg.calcParamSkipBytes] at hm
          omega
        · have hm := calcParamSkipBytes_mono s (i + 1) j (by omega)
          simp only [KonnektingProg.calcParamSkipBytes] at hm
          omega
      simp only [hdis, if_false]
    · simp only [hk, if_false]

theorem C37_parameter_update_law_witness :
    (sampleConsts.LabelsDistinct ∧ paramDevice._prog._progState = true ∧
      (1 : Nat) < paramDevice._prog._numberOfParams) ∧
    ∀ (buf : Buf) (k : Nat),
      KonnektingProg.getParamValue
          (KonnektingProg.handleMsg sampleConsts sampleIndeterminate
            (frameOf [0x00, 0x1E, 1, 0x12, 0x34]) paramDevice) 1 buf k
        = if k < KonnektingProg.getParamSize paramDevice 1 then
            frameOf [0x00, 0x1E, 1, 0x12, 0x34] (3 + k)
          else buf k :=
  ⟨⟨by decide, rfl, by decide⟩,
    (C37_parameter_update_law sampleConsts sampleIndeterminate
      (frameOf [0x00, 0x1E, 1, 0x12, 0x34]) paramDevice 1 (by decide) rfl rfl rfl rfl
      (by decide) (by decide)).1⟩

/-- C38 (the code departs from the claim): `handleMsgWriteComObject` stores the address at
`EEPROM_COMOBJECTTABLE_START + 2 * id` for whatever `id` the frame carries, without
comparing it to the number of objects, and it takes as many tuples as byte 2 says. On a
device with two objects, whose parameter table starts at byte 14, the frame with the one
tuple (5, 0x12, 0x34) changes the bytes 20 and 21, which belong to the parameter table. The
frame that announces 4 tuples makes the handler read frame byte 14: two frames that agree
on the bytes 0..13 leave different memories. -/
theorem C38_write_com_object_outside_table :
    (tableDevice._prog._progState = true ∧
      tableDevice._prog._paramTableStartindex
        = sampleConsts.EEPROM_COMOBJECTTABLE_START + tableDevice._numberOfComObjects * 2 ∧
      tableDevice._prog._paramTableStartindex ≤ 20 ∧
      tableDevice.EEPROM 20 = 0xFF ∧ tableDevice.EEPROM 21 = 0xFF) ∧
    ((KonnektingProg.handleMsg sampleConsts sampleIndeterminate
        (frameOf [0x00, 0x28, 1, 5, 0x12, 0x34]) tableDevice).EEPROM 20 = 0x12 ∧
      (KonnektingProg.handleMsg sampleConsts sampleIndeterminate
        (frameOf [0x00, 0x28, 1, 5, 0x12, 0x34]) tableDevice).EEPROM 21 = 0x34) ∧
    ((∀ k, k < 14 →
        frameOf [0x00, 0x28, 4, 0, 0, 0, 0, 0, 0, 0, 0, 0, 1, 0x12, 0x34] k
          = frameOf [0x00, 0x28, 4, 0, 0, 0, 0, 0, 0, 0, 0, 0, 1, 0x12, 0x35] k) ∧
      (KonnektingProg.handleMsg sampleConsts sampleIndeterminate
        (frameOf [0x00, 0x28, 4, 0, 0, 0, 0, 0, 0, 0, 0, 0, 1, 0x12, 0x34])
        tableDevice).EEPROM 13 = 0x34 ∧
      (KonnektingProg.handleMsg sampleConsts sampleIndeterminate
        (frameOf [0x00, 0x28, 4, 0, 0, 0, 0, 0, 0, 0, 0, 0, 1, 0x12, 0x35])
        tableDevice).EEPROM 13 = 0x35) := by
  refine ⟨by decide, ⟨by decide, by decide⟩, by decide, by decide, by decide⟩

/-! ## The invariant of the init scan -/

end Konnekting
